import Mathlib

/-!
# CHIP-8 interpreter core (`src/game.cc`)

A shallow embedding of `class Chip8`, of `Chip8::emulate`, `Chip8::init`,
`Chip8::timerTick`, `Chip8::setKeys` and of the copy loop of `Chip8::loadGame`,
followed by theorems about single instructions, the reset state, the timers,
the load, the keyboard and the invariants of a CPU cycle.

`emulate` and `loadGame` are embedded twice.  The definitions at the top level
stop at an index that leaves its array; the definitions of `namespace Layout`
follow such an index to the data member of the object that it reaches.  The two
agree on every call that the first one completes (`layout_emulate_of_ok`,
`layout_loadGame_of_ok`).

Conventions of the embedding

* C++ arrays (`V`, `stack`, `key`, `memory`, `gfx`) are total functions on
  `Nat`; every array access of the source is guarded here by the declared
  bound of the array, and an access outside it ends the call in
  `Fault.outOfBounds` (the source has undefined behaviour there).  In
  `namespace Layout` such an access reads or writes the byte of the object at
  that distance from the start of the array, and only an access beyond the
  last data member `gfx` ends the call.
* `unsigned char` and `unsigned short` values are natural numbers; every
  assignment that can leave the range of its type reduces modulo `2^8` or
  `2^16`.  Subtraction on `unsigned char` goes through `Int`, as the integer
  promotion of C++ does.
* `exit(EXIT_FAILURE)` after the "Unknown opcode" message is
  `Fault.unknownOpcode`.
* `rand()` is read from a stream carried in the state (`randSeq`,
  `randCalls`).
* The file contents handed to `loadGame` are a list of `char` values;
  selecting, opening and reading the file is outside the embedding.
-/

namespace Game

/-- Ways in which a call of `emulate` ends without returning a state. -/
inductive Fault where
  /-- The `"Oh no! Unknown opcode"` branch: message, then `exit(EXIT_FAILURE)`. -/
  | unknownOpcode (opcode : Nat)
  /-- An array of the class is indexed outside its declared bounds (in `namespace Layout`:
  so far outside them that the access leaves the data members of the object). -/
  | outOfBounds
deriving DecidableEq, Repr

/-- Fields of `class Chip8`, with the stream of values `rand()` returns. -/
structure Chip8 where
  /-- Current instruction word: `unsigned short opcode`. -/
  opcode : Nat
  /-- Registers: `unsigned char V[16]`. -/
  V : Nat → Nat
  /-- Index register: `unsigned short I`. -/
  I : Nat
  /-- Program counter: `unsigned short pc`. -/
  pc : Nat
  /-- Return addresses: `unsigned short stack[16]`. -/
  stack : Nat → Nat
  /-- Stack pointer: `unsigned short sp`. -/
  sp : Nat
  /-- Keypad: `unsigned char key[16]`, 1 = pressed. -/
  key : Nat → Nat
  /-- Main memory: `unsigned char memory[4096]`. -/
  memory : Nat → Nat
  /-- Delay timer: `unsigned char delay_timer`. -/
  delay_timer : Nat
  /-- Sound timer: `unsigned char sound_timer`. -/
  sound_timer : Nat
  /-- Redraw request: `unsigned short drawFlag`. -/
  drawFlag : Nat
  /-- Framebuffer: `unsigned char gfx[64][32]`, indexed `gfx x y`. -/
  gfx : Nat → Nat → Nat
  /-- Change log: `std::deque<std::pair<int, int>> graphics`. -/
  graphics : List (Nat × Nat)
  /-- Full-clear request: `bool clearScreen`. -/
  clearScreen : Bool
  /-- Values returned by successive calls of `rand()`. -/
  randSeq : Nat → Nat
  /-- Number of calls of `rand()` made so far. -/
  randCalls : Nat

/-- The constant `PRESSED` of the source. -/
def PRESSED : Nat := 1

/-- The constant `UNPRESSED` of the source. -/
def UNPRESSED : Nat := 0

/-- Conversion of an `int` to `unsigned char`. -/
def toU8 (z : Int) : Nat := (z % 256).toNat

/-- Conversion of a non-negative `int` to `unsigned short`. -/
def toU16 (n : Nat) : Nat := n % 65536

/-- Read of `memory[a]`, guarded by the array bound. -/
def readMem (s : Chip8) (a : Nat) : Except Fault Nat :=
  if a < 4096 then .ok (s.memory a) else .error .outOfBounds

/-- Write `memory[a] = v`, guarded by the array bound. -/
def writeMem (s : Chip8) (a v : Nat) : Except Fault Chip8 :=
  if a < 4096 then .ok { s with memory := Function.update s.memory a (v % 256) }
  else .error .outOfBounds

/-- Assignment `V[i] = v` for an index `i < 16`. -/
def setV (s : Chip8) (i v : Nat) : Chip8 :=
  { s with V := Function.update s.V i v }

/-- Fetch: `opcode = memory[pc] << 8 | memory[pc + 1]`. -/
def fetch (s : Chip8) : Except Fault Nat := do
  let hi ← readMem s s.pc
  let lo ← readMem s (s.pc + 1)
  pure (toU16 (hi <<< 8 ||| lo))

/-- Body of the inner loop of DXYN for one `xCoord`, in row `yCoord` whose
sprite byte is `pixel`. -/
def drawPixel (X Y pixel yCoord : Nat) (s : Chip8) (xCoord : Nat) : Except Fault Chip8 :=
  if pixel &&& (0x80 >>> xCoord) ≠ 0 then
    let posX := toU16 (s.V X + xCoord)
    let posY := toU16 (s.V Y + yCoord)
    if posX < 64 ∧ posY < 32 then
      let s1 := if s.gfx posX posY = 1 then setV s 0xF 1 else s
      .ok { s1 with
        gfx := Function.update s1.gfx posX (Function.update (s1.gfx posX) posY (s1.gfx posX posY ^^^ 1))
        graphics := s1.graphics ++ [(posX, posY)] }
    else .error .outOfBounds
  else .ok s

/-- Body of the outer loop of DXYN for one `yCoord`. -/
def drawRow (X Y : Nat) (s : Chip8) (yCoord : Nat) : Except Fault Chip8 := do
  let pixel ← readMem s (s.I + yCoord)
  (List.range 8).foldlM (drawPixel X Y pixel yCoord) s

/-- The two nested loops of DXYN, after `V[0xF] = 0`. -/
def drawSprite (X Y height : Nat) (s : Chip8) : Except Fault Chip8 :=
  (List.range height).foldlM (drawRow X Y) (setV s 0xF 0)

/-- The key scan of FX0A: `for i in 0..15: if (key[i]) { V[X] = i; keypress = true; }`.
The result is the register file and the flag `keypress` after the loop. -/
def scanKeys (X : Nat) (s : Chip8) : (Nat → Nat) × Bool :=
  (List.range 16).foldl
    (fun acc i => if s.key i ≠ 0 then (Function.update acc.1 X i, true) else acc)
    (s.V, false)

/-- The loop of FX55: `for i in 0..X: memory[I + i] = V[i]`. -/
def storeRegs (X : Nat) (s : Chip8) : Except Fault Chip8 :=
  (List.range (X + 1)).foldlM (fun t i => writeMem t (t.I + i) (t.V i)) s

/-- The loop of FX65: `for i in 0..X: V[i] = memory[I + i]`. -/
def loadRegs (X : Nat) (s : Chip8) : Except Fault Chip8 :=
  (List.range (X + 1)).foldlM
    (fun t i => do
      let b ← readMem t (t.I + i)
      pure (setV t i b)) s

/-- Clearing of the framebuffer in 00E0: `gfx[i][j] = 0` for `i < 64`, `j < 32`. -/
def clearGfx (g : Nat → Nat → Nat) : Nat → Nat → Nat :=
  (List.range 64).foldl
    (fun g i => (List.range 32).foldl
      (fun g j => Function.update g i (Function.update (g i) j 0)) g) g

/-- One CPU cycle: `Chip8::emulate`. -/
def emulate (s0 : Chip8) : Except Fault Chip8 := do
  let opcode ← fetch s0
  let s : Chip8 := { s0 with opcode := opcode }
  let X := (opcode &&& 0x0F00) >>> 8
  let Y := (opcode &&& 0x00F0) >>> 4
  match opcode &&& 0xF000 with
  | 0x0000 =>
    match opcode with
    | 0x00EE =>
      let sp := toU16 (s.sp + 65535)
      if sp < 16 then .ok { s with sp := sp, pc := toU16 (s.stack sp + 2) }
      else .error .outOfBounds
    | 0x00E0 =>
      .ok { s with gfx := clearGfx s.gfx, clearScreen := true, pc := toU16 (s.pc + 2) }
    | _ => .error (.unknownOpcode opcode)
  | 0x1000 => .ok { s with pc := opcode &&& 0x0FFF }
  | 0x2000 =>
    if s.sp < 16 then
      .ok { s with stack := Function.update s.stack s.sp s.pc, sp := toU16 (s.sp + 1),
                   pc := opcode &&& 0x0FFF }
    else .error .outOfBounds
  | 0x3000 =>
    let N := opcode &&& 0x00FF
    if s.V X = N then .ok { s with pc := toU16 (s.pc + 4) }
    else .ok { s with pc := toU16 (s.pc + 2) }
  | 0x4000 =>
    let N := opcode &&& 0x00FF
    if s.V X ≠ N then .ok { s with pc := toU16 (s.pc + 4) }
    else .ok { s with pc := toU16 (s.pc + 2) }
  | 0x5000 =>
    if s.V X = s.V Y then .ok { s with pc := toU16 (s.pc + 4) }
    else .ok { s with pc := toU16 (s.pc + 2) }
  | 0x6000 => .ok { setV s X (opcode &&& 0x00FF) with pc := toU16 (s.pc + 2) }
  | 0x7000 =>
    .ok { setV s X ((s.V X + (opcode &&& 0x00FF)) % 256) with pc := toU16 (s.pc + 2) }
  | 0x8000 =>
    let s : Chip8 := { s with pc := toU16 (s.pc + 2) }
    match opcode &&& 0x000F with
    | 0 => .ok (setV s X (s.V Y))
    | 1 => .ok (setV s X (s.V X ||| s.V Y))
    | 2 => .ok (setV s X (s.V X &&& s.V Y))
    | 3 => .ok (setV s X (s.V X ^^^ s.V Y))
    | 4 =>
      let s1 := if s.V X + s.V Y > 255 then setV s 0xF 1 else setV s 0xF 0
      .ok (setV s1 X ((s1.V X + s1.V Y) % 256))
    | 5 =>
      let s1 := if s.V Y > s.V X then setV s 0xF 0 else setV s 0xF 1
      .ok (setV s1 X (toU8 ((s1.V X : Int) - (s1.V Y : Int))))
    | 6 =>
      let s1 := setV s 0xF (s.V X &&& 0x01)
      .ok (setV s1 X (s1.V X >>> 1))
    | 7 =>
      let s1 := if s.V X > s.V Y then setV s 0xF 0 else setV s 0xF 1
      .ok (setV s1 X (toU8 ((s1.V Y : Int) - (s1.V X : Int))))
    | 0xE =>
      let s1 := setV s 0xF (s.V X &&& 0x80)
      .ok (setV s1 X ((s1.V X <<< 1) % 256))
    | _ => .error (.unknownOpcode opcode)
  | 0x9000 =>
    if s.V X ≠ s.V Y then .ok { s with pc := toU16 (s.pc + 4) }
    else .ok { s with pc := toU16 (s.pc + 2) }
  | 0xA000 => .ok { s with I := opcode &&& 0x0FFF, pc := toU16 (s.pc + 2) }
  | 0xB000 => .ok { s with pc := toU16 (s.V 0 + (opcode &&& 0x0FFF)) }
  | 0xC000 =>
    let r := s.randSeq s.randCalls
    .ok { setV s X ((r &&& 0xFF) &&& (opcode &&& 0x00FF)) with
            randCalls := s.randCalls + 1, pc := toU16 (s.pc + 2) }
  | 0xD000 => do
    let height := opcode &&& 0x000F
    let s1 ← drawSprite X Y height s
    pure { s1 with drawFlag := 1, pc := toU16 (s1.pc + 2) }
  | 0xE000 =>
    match opcode &&& 0x00FF with
    | 0x9E =>
      if s.V X < 16 then
        if s.key (s.V X) = PRESSED then
          .ok { s with pc := toU16 (s.pc + 4), key := Function.update s.key (s.V X) UNPRESSED }
        else .ok { s with pc := toU16 (s.pc + 2) }
      else .error .outOfBounds
    | 0xA1 =>
      if s.V X < 16 then
        if s.key (s.V X) = UNPRESSED then .ok { s with pc := toU16 (s.pc + 4) }
        else
          .ok { s with pc := toU16 (s.pc + 2), key := Function.update s.key (s.V X) UNPRESSED }
      else .error .outOfBounds
    | _ => .error (.unknownOpcode opcode)
  | 0xF000 =>
    match opcode &&& 0x00FF with
    | 0x07 => .ok { setV s X s.delay_timer with pc := toU16 (s.pc + 2) }
    | 0x0A =>
      let r := scanKeys X s
      if r.2 = false then .ok s
      else .ok { s with V := r.1, pc := toU16 (s.pc + 2) }
    | 0x15 => .ok { s with delay_timer := s.V X, pc := toU16 (s.pc + 2) }
    | 0x18 => .ok { s with sound_timer := s.V X, pc := toU16 (s.pc + 2) }
    | 0x1E =>
      let s1 := if s.V X + s.I > 0xFFF then setV s 0xF 1 else setV s 0xF 0
      .ok { s1 with I := toU16 (s1.I + s1.V X), pc := toU16 (s1.pc + 2) }
    | 0x29 => .ok { s with I := toU16 (s.V X * 5), pc := toU16 (s.pc + 2) }
    | 0x33 => do
      let msb := s.V X / 100
      let lsb := s.V X % 10
      -- `V[X] % 100 - lsb` is never negative, so the subtraction is exact on `Nat`
      let mid := toU16 ((s.V X % 100 - lsb) % 10)
      let s1 ← writeMem s s.I msb
      let s2 ← writeMem s1 (s1.I + 1) mid
      let s3 ← writeMem s2 (s2.I + 2) lsb
      pure { s3 with pc := toU16 (s3.pc + 2) }
    | 0x55 => do
      let s1 ← storeRegs X s
      pure { s1 with pc := toU16 (s1.pc + 2) }
    | 0x65 => do
      let s1 ← loadRegs X s
      pure { s1 with pc := toU16 (s1.pc + 2) }
    | _ => .ok s
  | _ => .error (.unknownOpcode opcode)

/-- Repeated calls of `emulate`, stopping at the first fault. -/
def emulateN : Nat → Chip8 → Except Fault Chip8
  | 0, s => .ok s
  | n + 1, s => do
    let s1 ← emulate s
    emulateN n s1

/-- A state with every array zeroed and `pc` at the program start `0x200`. -/
def blank : Chip8 :=
  { opcode := 0, V := fun _ => 0, I := 0, pc := 0x200, stack := fun _ => 0, sp := 0,
    key := fun _ => 0, memory := fun _ => 0, delay_timer := 0, sound_timer := 0,
    drawFlag := 0, gfx := fun _ _ => 0, graphics := [], clearScreen := false,
    randSeq := fun _ => 0, randCalls := 0 }

/-- Store the two bytes of instruction word `op` at `pc`. -/
def withInstr (s : Chip8) (op : Nat) : Chip8 :=
  { s with memory := Function.update (Function.update s.memory s.pc (op >>> 8)) (s.pc + 1) (op &&& 0xFF) }

/-- State used to evaluate FX33: `V3 = 156`, `I = 0x300`, instruction `F333` at `0x200`. -/
def bcdState : Chip8 := withInstr (setV { blank with I := 0x300 } 3 156) 0xF333

/-- State used to evaluate 7XNN: `V4 = 0xFF`, instruction `7402` at `0x200`. -/
def addImmState : Chip8 := withInstr (setV blank 4 0xFF) 0x7402

/-- State used to evaluate 8XY4 with a carry: `V1 = 0x80`, `V2 = 0x90`, instruction `8124`. -/
def addCarryState : Chip8 := withInstr (setV (setV blank 1 0x80) 2 0x90) 0x8124

/-- State used to evaluate 8XY4 without a carry: `V1 = 0x01`, `V2 = 0x01`, instruction `8124`. -/
def addNoCarryState : Chip8 := withInstr (setV (setV blank 1 0x01) 2 0x01) 0x8124

/-- State used to evaluate 8XY5 with a borrow: `V1 = 0x05`, `V2 = 0x0A`, instruction `8125`. -/
def subBorrowState : Chip8 := withInstr (setV (setV blank 1 0x05) 2 0x0A) 0x8125

/-- State used to evaluate 8XF4: `V0 = 1`, `VF = 5`, instruction `80F4`. -/
def addFlagState : Chip8 := withInstr (setV (setV blank 0 1) 0xF 5) 0x80F4

/-- State used to evaluate 8XF5: `V0 = 10`, `VF = 3`, instruction `80F5`. -/
def subFlagState : Chip8 := withInstr (setV (setV blank 0 10) 0xF 3) 0x80F5

/-- State used to evaluate 8XF7: `V0 = 3`, `VF = 10`, instruction `80F7`. -/
def rsubFlagState : Chip8 := withInstr (setV (setV blank 0 3) 0xF 10) 0x80F7

/-- The scan loop of FX0A run over the first `n` keys. -/
def scanKeysUpTo (n X : Nat) (s : Chip8) : (Nat → Nat) × Bool :=
  (List.range n).foldl
    (fun acc i => if s.key i ≠ 0 then (Function.update acc.1 X i, true) else acc)
    (s.V, false)

/-- State used to evaluate FX0A: keys 1 and 2 pressed, instruction `F00A`. -/
def twoKeysState : Chip8 :=
  withInstr { blank with key := Function.update (Function.update blank.key 1 1) 2 1 } 0xF00A

/-- State used to evaluate FX0A with no key pressed: instruction `F30A` at `0x200`. -/
def noKeyState : Chip8 := withInstr blank 0xF30A

/-- Effect of the loop body of DXYN for one set sprite bit whose target cell is `p`:
collision check, XOR of the cell, `graphics.push_back`. -/
def togglePixel (s : Chip8) (p : Nat × Nat) : Chip8 :=
  { (if s.gfx p.1 p.2 = 1 then setV s 0xF 1 else s) with
    gfx := Function.update s.gfx p.1 (Function.update (s.gfx p.1) p.2 (s.gfx p.1 p.2 ^^^ 1))
    graphics := s.graphics ++ [p] }

/-- Target cells of the set bits of sprite byte `pixel` in row `r`, for the columns `cs`. -/
def rowCells (vx vy pixel r : Nat) (cs : List Nat) : List (Nat × Nat) :=
  (cs.filter (fun c => decide (pixel &&& (0x80 >>> c) ≠ 0))).map (fun c => (vx + c, vy + r))

/-- Target cells of the set bits of the sprite at `mem[I ..]`, for the rows `rs`, in the
order in which the loops of DXYN visit them. -/
def spriteCells (mem : Nat → Nat) (I vx vy : Nat) (rs : List Nat) : List (Nat × Nat) :=
  rs.flatMap (fun r => rowCells vx vy (mem (I + r)) r (List.range 8))

/-- State used to evaluate DXYN with `X = 0xF`: `VF = 5`, `V0 = 0`, `I = 0x300`,
sprite byte `0x80`, blank framebuffer, instruction `DF01`. -/
def drawFromFlagState : Chip8 :=
  withInstr (setV { blank with I := 0x300, memory := Function.update blank.memory 0x300 0x80 }
    0xF 5) 0xDF01

/-- State used to evaluate DXYN: `V1 = 3`, `V2 = 4`, `I = 0x300`, sprite bytes `0xA0`, `0x40`,
blank framebuffer, instruction `D122`. -/
def drawState : Chip8 :=
  withInstr
    (setV (setV
      { blank with
        I := 0x300
        memory := Function.update (Function.update blank.memory 0x300 0xA0) 0x301 0x40 }
      1 3) 2 4)
    0xD122

/-- State used to evaluate two consecutive draws: `V1 = 3`, `V2 = 4`, `I = 0x300`, sprite
bytes `0xA0`, `0x40`, blank framebuffer, instruction `D122` at `0x200` and at `0x202`. -/
def drawTwiceState : Chip8 :=
  { withInstr { drawState with pc := 0x202 } 0xD122 with pc := 0x200 }

/-- Coordinates the change log is claimed to receive: rows `r = 0..N-1` outermost, within a
row the columns `c = 0..7`, keeping `(VX + c, VY + r)` when bit `7 - c` of `memory[I + r]`
is set. -/
def toggledCells (s : Chip8) (X Y N : Nat) : List (Nat × Nat) :=
  (List.range N).flatMap (fun r =>
    ((List.range 8).filter (fun c => (s.memory (s.I + r)).testBit (7 - c))).map
      (fun c => (s.V X + c, s.V Y + r)))

/-- Number of set bits among the low 8 bits of the sprite bytes `memory[I .. I + N)`. -/
def setBits (s : Chip8) (N : Nat) : Nat :=
  ((List.range N).map (fun r =>
    ((List.range 8).filter (fun c => (s.memory (s.I + r)).testBit (7 - c))).length)).sum

/-- State used to evaluate the change log: as `drawState`, with one entry already logged. -/
def drawLogState : Chip8 := { drawState with graphics := [(9, 9)] }

/-- The table `fontset[80]` of the source: 16 glyphs of 5 bytes. -/
def fontset : List Nat :=
  [0xF0, 0x90, 0x90, 0x90, 0xF0,
   0x20, 0x60, 0x20, 0x20, 0x70,
   0xF0, 0x10, 0xF0, 0x80, 0xF0,
   0xF0, 0x10, 0xF0, 0x10, 0xF0,
   0x90, 0x90, 0xF0, 0x10, 0x10,
   0xF0, 0x80, 0xF0, 0x10, 0xF0,
   0xF0, 0x80, 0xF0, 0x90, 0xF0,
   0xF0, 0x10, 0x20, 0x40, 0x40,
   0xF0, 0x90, 0xF0, 0x90, 0xF0,
   0xF0, 0x90, 0xF0, 0x10, 0xF0,
   0xF0, 0x90, 0xF0, 0x90, 0x90,
   0xE0, 0x90, 0xE0, 0x90, 0xE0,
   0xF0, 0x80, 0x80, 0x80, 0xF0,
   0xE0, 0x90, 0x90, 0x90, 0xE0,
   0xF0, 0x80, 0xF0, 0x80, 0xF0,
   0xF0, 0x80, 0xF0, 0x80, 0x80]

/-- Reset: `Chip8::init`.  The assignments to `pc`, `sp`, `I`, `opcode`, `drawFlag`, then the
four loops: display, stack and registers, memory, font. -/
def init (s0 : Chip8) : Chip8 :=
  let s1 : Chip8 := { s0 with pc := 0x200, sp := 0, I := 0, opcode := 0, drawFlag := 0 }
  let s2 : Chip8 := { s1 with gfx := clearGfx s1.gfx }
  let s3 : Chip8 := (List.range 16).foldl
    (fun t i => { t with stack := Function.update t.stack i 0, V := Function.update t.V i 0 }) s2
  let s4 : Chip8 := (List.range 4096).foldl
    (fun t i => { t with memory := Function.update t.memory i 0 }) s3
  (List.range 80).foldl
    (fun t i => { t with memory := Function.update t.memory (0x050 + i) (fontset.getD i 0) }) s4

/-- Timers: `Chip8::timerTick`.  Each timer is decremented when it is above zero. -/
def timerTick (s : Chip8) : Chip8 :=
  let s1 : Chip8 :=
    if s.delay_timer > 0 then { s with delay_timer := toU8 ((s.delay_timer : Int) - 1) } else s
  if s1.sound_timer > 0 then { s1 with sound_timer := toU8 ((s1.sound_timer : Int) - 1) } else s1

/-- Body of the copy loop of `Chip8::loadGame` for one index: `memory[0x200 + i] = buffer[i]`.
The file contents `buffer` are a `char` array, so the element is converted to
`unsigned char`. -/
def loadByte (buffer : List Int) (t : Chip8) (i : Nat) : Except Fault Chip8 :=
  if 0x200 + i < 4096 then
    .ok { t with memory := Function.update t.memory (0x200 + i) (toU8 (buffer.getD i 0)) }
  else .error .outOfBounds

/-- The copy loop of `Chip8::loadGame`: `for i < gameSize: memory[0x200 + i] = buffer[i]`,
where `gameSize` is the length of the file contents `buffer`.  Choosing, opening and reading
the file is outside the embedding. -/
def loadGame (buffer : List Int) (s : Chip8) : Except Fault Chip8 :=
  (List.range buffer.length).foldlM (loadByte buffer) s

/-- A program image of three bytes, the second one negative as a `char`. -/
def smallImage : List Int := [0x12, -1, 0x34]

/-- A program image of 3585 bytes, one more than fits at `0x200`. -/
def bigImage : List Int := List.replicate 3585 1

/-- State used to evaluate 00E0: pixel `(1, 1)` lit, change log `[(1, 1)]`, instruction `00E0`. -/
def clearLogState : Chip8 :=
  withInstr
    { blank with
      gfx := Function.update blank.gfx 1 (Function.update (blank.gfx 1) 1 1)
      graphics := [(1, 1)] }
    0x00E0

/-- State used to evaluate `timerTick`: delay timer 0, sound timer 5. -/
def timerState : Chip8 := { blank with delay_timer := 0, sound_timer := 5 }

/-- State used to evaluate a word outside the table: instruction `5121` (low nibble 1). -/
def wordState5 : Chip8 := withInstr blank 0x5121

/-- State used to evaluate a word outside the table: instruction `9121` (low nibble 1). -/
def wordState9 : Chip8 := withInstr blank 0x9121

/-- State used to evaluate a word outside the table: instruction `F0FF`. -/
def wordStateF : Chip8 := withInstr blank 0xF0FF

/-- State used to evaluate a word outside the table: instruction `0123`. -/
def wordState0 : Chip8 := withInstr blank 0x0123

/-- State used to evaluate a word outside the table: instruction `8128`. -/
def wordState8 : Chip8 := withInstr blank 0x8128

/-- State used to evaluate a word outside the table: instruction `E1FF`. -/
def wordStateE : Chip8 := withInstr blank 0xE1FF

/-- State used to evaluate `init`: timers 7 and 3, key 2 pressed, clear flag set, one
logged change. -/
def dirtyState : Chip8 :=
  { blank with
    delay_timer := 7
    sound_timer := 3
    key := Function.update blank.key 2 1
    clearScreen := true
    graphics := [(1, 1)] }

/-- State used to evaluate FX29: the state after `init`, then `V0 = 1` and the instruction
`F029` at `0x200`. -/
def fontState : Chip8 := withInstr (setV (init blank) 0 1) 0xF029

/-- State used to evaluate FX55 then FX65: `V0 = 1`, `V1 = 2`, `V2 = 3`, `I = 0x300`,
instruction `F255` at `0x200` and `F265` at `0x202`. -/
def storeState : Chip8 :=
  { withInstr { withInstr (setV (setV (setV { blank with I := 0x300 } 0 1) 1 2) 2 3) 0xF255
      with pc := 0x202 } 0xF265 with pc := 0x200 }

/-- State used to evaluate FX65: `I = 0x300`, `memory[0x300 ..] = 7, 8, 9`, instruction
`F265` at `0x200`. -/
def fillState : Chip8 :=
  withInstr
    { blank with
      I := 0x300
      memory := Function.update (Function.update (Function.update blank.memory 0x300 7)
        0x301 8) 0x302 9 }
    0xF265

/-- State used to evaluate a call and its return: `sp = 3`, instruction `2300` at `0x200`
and `00EE` at `0x300`. -/
def callState : Chip8 :=
  { withInstr { withInstr { blank with sp := 3 } 0x2300 with pc := 0x300 } 0x00EE
    with pc := 0x200 }

/-- Every cell of the 64x32 framebuffer holds 0 or 1. -/
def BinaryGfx (g : Nat → Nat → Nat) : Prop := ∀ x < 64, ∀ y < 32, g x y = 0 ∨ g x y = 1

/-- Fields that the loops of DXYN, FX55 and FX65 never write, with the two properties of
the fields they do write that the invariants need: memory outside `[I, I + span)` is kept
and a binary framebuffer stays binary. -/
def LoopFrame (span : Nat) (s t : Chip8) : Prop :=
  t.I = s.I ∧ t.delay_timer = s.delay_timer ∧ t.sound_timer = s.sound_timer ∧
  t.pc = s.pc ∧
  (∀ a, (a < s.I ∨ s.I + span ≤ a) → t.memory a = s.memory a) ∧
  (BinaryGfx s.gfx → BinaryGfx t.gfx)

/-- Keyboard input: `Chip8::setKeys`.  The `switch` on the character read from the terminal;
each listed character marks one key as pressed. -/
def setKeys (keypress : Char) (s : Chip8) : Chip8 :=
  match keypress with
  | '1' => { s with key := Function.update s.key 0x1 PRESSED }
  | '2' => { s with key := Function.update s.key 0x2 PRESSED }
  | '3' => { s with key := Function.update s.key 0x3 PRESSED }
  | '4' => { s with key := Function.update s.key 0xC PRESSED }
  | 'q' => { s with key := Function.update s.key 0x4 PRESSED }
  | 'w' => { s with key := Function.update s.key 0x5 PRESSED }
  | 'e' => { s with key := Function.update s.key 0x6 PRESSED }
  | 'r' => { s with key := Function.update s.key 0xD PRESSED }
  | 'a' => { s with key := Function.update s.key 0x7 PRESSED }
  | 's' => { s with key := Function.update s.key 0x8 PRESSED }
  | 'd' => { s with key := Function.update s.key 0x9 PRESSED }
  | 'f' => { s with key := Function.update s.key 0xE PRESSED }
  | 'z' => { s with key := Function.update s.key 0xA PRESSED }
  | 'x' => { s with key := Function.update s.key 0x0 PRESSED }
  | 'c' => { s with key := Function.update s.key 0xB PRESSED }
  | 'v' => { s with key := Function.update s.key 0xF PRESSED }
  | _ => s

/-- The keyboard layout as the claim lists it: character and keypad code. -/
def keyTable : List (Char × Nat) :=
  [('1', 0x1), ('2', 0x2), ('3', 0x3), ('4', 0xC),
   ('q', 0x4), ('w', 0x5), ('e', 0x6), ('r', 0xD),
   ('a', 0x7), ('s', 0x8), ('d', 0x9), ('f', 0xE),
   ('z', 0xA), ('x', 0x0), ('c', 0xB), ('v', 0xF)]

/-- State used to evaluate 8XYE: `V1 = 0xC1`, instruction `812E`. -/
def shiftState : Chip8 := withInstr (setV blank 1 0xC1) 0x812E

/-- State used to evaluate EX9E: `V2 = 7`, key 7 pressed, instruction `E29E`. -/
def skipPressedState : Chip8 :=
  withInstr (setV { blank with key := Function.update blank.key 7 1 } 2 7) 0xE29E

/-- State used to evaluate EXA1: `V2 = 7`, key 7 pressed, instruction `E2A1`. -/
def skipUnpressedState : Chip8 :=
  withInstr (setV { blank with key := Function.update blank.key 7 1 } 2 7) 0xE2A1

/-- State used to evaluate EX9E on a key byte that is neither 0 nor 1: `V0 = 0`, `key[0] = 2`,
instruction `E09E`. -/
def oddKeyState : Chip8 :=
  withInstr { blank with key := Function.update blank.key 0 2 } 0xE09E

/-- State used to evaluate FX15: `V3 = 9`, delay timer 4, sound timer 6, instruction `F315`. -/
def setDelayState : Chip8 :=
  withInstr (setV { blank with delay_timer := 4, sound_timer := 6 } 3 9) 0xF315

/-- State used to evaluate FX33 on the font area: `I = 0x050`, `memory[0x050] = 0xF0` (first
byte of glyph 0), `V0 = 200`, instruction `F033`. -/
def fontWriteState : Chip8 :=
  withInstr
    (setV
      { blank with
        I := 0x050
        memory := Function.update blank.memory 0x050 0xF0 }
      0 200)
    0xF033

/-- State used to evaluate FX33 on the work area: `I = 0x300`, `memory[0x050] = 0xF0`,
`V0 = 200`, instruction `F033`. -/
def workWriteState : Chip8 :=
  withInstr
    (setV
      { blank with
        I := 0x300
        memory := Function.update blank.memory 0x050 0xF0 }
      0 200)
    0xF033

/-! ## Indices that leave their array

The source never compares an index with the bound of the array it indexes.  The definitions
above stop at such an index; the definitions of `namespace Layout` follow the same functions
through it.  An index outside the declared bound reaches the byte of the object that lies at
that distance from the start of the array.  The data members lie in declaration order
without padding, 16-bit members low byte first:

    opcode 0      V 2        I 18         pc 20        stack 22      sp 54
    key 56        memory 72  delay_timer 4168          sound_timer 4169
    drawFlag 4170            gfx 4172 .. 6219

so `key[16 + k]` is `memory[k]`, `stack[16]` is `sp`, `memory[4096]` is `delay_timer`,
`memory[4097]` is `sound_timer` and `memory[4100 + 32 * x + y]` is `gfx[x][y]`.  What follows
`gfx` in the object (the `std::deque`) is not described: an access from byte 6220 on ends the
call in `Fault.outOfBounds`. -/

namespace Layout

/-- Byte `k` of a 16-bit member: `k = 0` is the low byte, `k = 1` the high byte. -/
def byteOf (w k : Nat) : Nat := if k = 0 then w % 256 else w / 256 % 256

/-- The 16-bit member `w` with its byte `k` replaced by `v`. -/
def setByte (w k v : Nat) : Nat :=
  if k = 0 then w / 256 % 256 * 256 + v % 256 else v % 256 * 256 + w % 256

/-- The byte at offset `o` of the object, for the data members `opcode .. gfx`. -/
def peek (s : Chip8) (o : Nat) : Except Fault Nat :=
  if o < 2 then .ok (byteOf s.opcode o)
  else if o < 18 then .ok (s.V (o - 2))
  else if o < 20 then .ok (byteOf s.I (o - 18))
  else if o < 22 then .ok (byteOf s.pc (o - 20))
  else if o < 54 then .ok (byteOf (s.stack ((o - 22) / 2)) ((o - 22) % 2))
  else if o < 56 then .ok (byteOf s.sp (o - 54))
  else if o < 72 then .ok (s.key (o - 56))
  else if o < 4168 then .ok (s.memory (o - 72))
  else if o < 4169 then .ok s.delay_timer
  else if o < 4170 then .ok s.sound_timer
  else if o < 4172 then .ok (byteOf s.drawFlag (o - 4170))
  else if o < 6220 then .ok (s.gfx ((o - 4172) / 32) ((o - 4172) % 32))
  else .error .outOfBounds

/-- Store of the byte `v` at offset `o` of the object, for the data members
`opcode .. gfx`. -/
def poke (s : Chip8) (o v : Nat) : Except Fault Chip8 :=
  if o < 2 then .ok { s with opcode := setByte s.opcode o v }
  else if o < 18 then .ok { s with V := Function.update s.V (o - 2) (v % 256) }
  else if o < 20 then .ok { s with I := setByte s.I (o - 18) v }
  else if o < 22 then .ok { s with pc := setByte s.pc (o - 20) v }
  else if o < 54 then
    .ok { s with stack := Function.update s.stack ((o - 22) / 2)
                   (setByte (s.stack ((o - 22) / 2)) ((o - 22) % 2) v) }
  else if o < 56 then .ok { s with sp := setByte s.sp (o - 54) v }
  else if o < 72 then .ok { s with key := Function.update s.key (o - 56) (v % 256) }
  else if o < 4168 then .ok { s with memory := Function.update s.memory (o - 72) (v % 256) }
  else if o < 4169 then .ok { s with delay_timer := v % 256 }
  else if o < 4170 then .ok { s with sound_timer := v % 256 }
  else if o < 4172 then .ok { s with drawFlag := setByte s.drawFlag (o - 4170) v }
  else if o < 6220 then
    .ok { s with gfx := Function.update s.gfx ((o - 4172) / 32)
                   (Function.update (s.gfx ((o - 4172) / 32)) ((o - 4172) % 32) (v % 256)) }
  else .error .outOfBounds

/-- The 16-bit value whose low byte is at offset `o` and whose high byte is at `o + 1`. -/
def peek16 (s : Chip8) (o : Nat) : Except Fault Nat := do
  let lo ← peek s o
  let hi ← peek s (o + 1)
  pure (lo + 256 * hi)

/-- Store of the 16-bit value `w` at offsets `o` (low byte) and `o + 1` (high byte). -/
def poke16 (s : Chip8) (o w : Nat) : Except Fault Chip8 := do
  let s1 ← poke s o (w % 256)
  poke s1 (o + 1) (w / 256 % 256)

/-- Read of `memory[a]`: the array for `a < 4096`, else the byte `72 + a` of the object. -/
def readMem (s : Chip8) (a : Nat) : Except Fault Nat :=
  if a < 4096 then .ok (s.memory a) else peek s (72 + a)

/-- Write `memory[a] = v`: the array for `a < 4096`, else the byte `72 + a` of the
object. -/
def writeMem (s : Chip8) (a v : Nat) : Except Fault Chip8 :=
  if a < 4096 then .ok { s with memory := Function.update s.memory a (v % 256) }
  else poke s (72 + a) v

/-- Fetch: `opcode = memory[pc] << 8 | memory[pc + 1]`. -/
def fetch (s : Chip8) : Except Fault Nat := do
  let hi ← readMem s s.pc
  let lo ← readMem s (s.pc + 1)
  pure (toU16 (hi <<< 8 ||| lo))

/-- Body of the inner loop of DXYN for one `xCoord`, in row `yCoord` whose sprite byte is
`pixel`.  Outside the 64x32 range `gfx[posX][posY]` is the byte `4172 + 32 * posX + posY`
of the object. -/
def drawPixel (X Y pixel yCoord : Nat) (s : Chip8) (xCoord : Nat) : Except Fault Chip8 :=
  if pixel &&& (0x80 >>> xCoord) ≠ 0 then
    let posX := toU16 (s.V X + xCoord)
    let posY := toU16 (s.V Y + yCoord)
    if posX < 64 ∧ posY < 32 then
      let s1 := if s.gfx posX posY = 1 then setV s 0xF 1 else s
      .ok { s1 with
        gfx := Function.update s1.gfx posX (Function.update (s1.gfx posX) posY (s1.gfx posX posY ^^^ 1))
        graphics := s1.graphics ++ [(posX, posY)] }
    else do
      let c ← peek s (4172 + 32 * posX + posY)
      let s1 := if c = 1 then setV s 0xF 1 else s
      let s2 ← poke s1 (4172 + 32 * posX + posY) (c ^^^ 1)
      pure { s2 with graphics := s2.graphics ++ [(posX, posY)] }
  else .ok s

/-- Body of the outer loop of DXYN for one `yCoord`. -/
def drawRow (X Y : Nat) (s : Chip8) (yCoord : Nat) : Except Fault Chip8 := do
  let pixel ← readMem s (s.I + yCoord)
  (List.range 8).foldlM (drawPixel X Y pixel yCoord) s

/-- The two nested loops of DXYN, after `V[0xF] = 0`. -/
def drawSprite (X Y height : Nat) (s : Chip8) : Except Fault Chip8 :=
  (List.range height).foldlM (drawRow X Y) (setV s 0xF 0)

/-- The loop of FX55: `for i in 0..X: memory[I + i] = V[i]`. -/
def storeRegs (X : Nat) (s : Chip8) : Except Fault Chip8 :=
  (List.range (X + 1)).foldlM (fun t i => writeMem t (t.I + i) (t.V i)) s

/-- The loop of FX65: `for i in 0..X: V[i] = memory[I + i]`. -/
def loadRegs (X : Nat) (s : Chip8) : Except Fault Chip8 :=
  (List.range (X + 1)).foldlM
    (fun t i => do
      let b ← readMem t (t.I + i)
      pure (setV t i b)) s

/-- One CPU cycle: `Chip8::emulate`, with every index followed through the object. -/
def emulate (s0 : Chip8) : Except Fault Chip8 := do
  let opcode ← fetch s0
  let s : Chip8 := { s0 with opcode := opcode }
  let X := (opcode &&& 0x0F00) >>> 8
  let Y := (opcode &&& 0x00F0) >>> 4
  match opcode &&& 0xF000 with
  | 0x0000 =>
    match opcode with
    | 0x00EE =>
      let sp := toU16 (s.sp + 65535)
      if sp < 16 then .ok { s with sp := sp, pc := toU16 (s.stack sp + 2) }
      else do
        -- `stack[sp]` past the end of `stack`: the two bytes from `22 + 2 * sp` on
        let r ← peek16 { s with sp := sp } (22 + 2 * sp)
        pure { s with sp := sp, pc := toU16 (r + 2) }
    | 0x00E0 =>
      .ok { s with gfx := clearGfx s.gfx, clearScreen := true, pc := toU16 (s.pc + 2) }
    | _ => .error (.unknownOpcode opcode)
  | 0x1000 => .ok { s with pc := opcode &&& 0x0FFF }
  | 0x2000 =>
    if s.sp < 16 then
      .ok { s with stack := Function.update s.stack s.sp s.pc, sp := toU16 (s.sp + 1),
                   pc := opcode &&& 0x0FFF }
    else do
      -- `stack[sp]` past the end of `stack`: the two bytes from `22 + 2 * sp` on
      let s1 ← poke16 s (22 + 2 * s.sp) s.pc
      pure { s1 with sp := toU16 (s1.sp + 1), pc := opcode &&& 0x0FFF }
  | 0x3000 =>
    let N := opcode &&& 0x00FF
    if s.V X = N then .ok { s with pc := toU16 (s.pc + 4) }
    else .ok { s with pc := toU16 (s.pc + 2) }
  | 0x4000 =>
    let N := opcode &&& 0x00FF
    if s.V X ≠ N then .ok { s with pc := toU16 (s.pc + 4) }
    else .ok { s with pc := toU16 (s.pc + 2) }
  | 0x5000 =>
    if s.V X = s.V Y then .ok { s with pc := toU16 (s.pc + 4) }
    else .ok { s with pc := toU16 (s.pc + 2) }
  | 0x6000 => .ok { setV s X (opcode &&& 0x00FF) with pc := toU16 (s.pc + 2) }
  | 0x7000 =>
    .ok { setV s X ((s.V X + (opcode &&& 0x00FF)) % 256) with pc := toU16 (s.pc + 2) }
  | 0x8000 =>
    let s : Chip8 := { s with pc := toU16 (s.pc + 2) }
    match opcode &&& 0x000F with
    | 0 => .ok (setV s X (s.V Y))
    | 1 => .ok (setV s X (s.V X ||| s.V Y))
    | 2 => .ok (setV s X (s.V X &&& s.V Y))
    | 3 => .ok (setV s X (s.V X ^^^ s.V Y))
    | 4 =>
      let s1 := if s.V X + s.V Y > 255 then setV s 0xF 1 else setV s 0xF 0
      .ok (setV s1 X ((s1.V X + s1.V Y) % 256))
    | 5 =>
      let s1 := if s.V Y > s.V X then setV s 0xF 0 else setV s 0xF 1
      .ok (setV s1 X (toU8 ((s1.V X : Int) - (s1.V Y : Int))))
    | 6 =>
      let s1 := setV s 0xF (s.V X &&& 0x01)
      .ok (setV s1 X (s1.V X >>> 1))
    | 7 =>
      let s1 := if s.V X > s.V Y then setV s 0xF 0 else setV s 0xF 1
      .ok (setV s1 X (toU8 ((s1.V Y : Int) - (s1.V X : Int))))
    | 0xE =>
      let s1 := setV s 0xF (s.V X &&& 0x80)
      .ok (setV s1 X ((s1.V X <<< 1) % 256))
    | _ => .error (.unknownOpcode opcode)
  | 0x9000 =>
    if s.V X ≠ s.V Y then .ok { s with pc := toU16 (s.pc + 4) }
    else .ok { s with pc := toU16 (s.pc + 2) }
  | 0xA000 => .ok { s with I := opcode &&& 0x0FFF, pc := toU16 (s.pc + 2) }
  | 0xB000 => .ok { s with pc := toU16 (s.V 0 + (opcode &&& 0x0FFF)) }
  | 0xC000 =>
    let r := s.randSeq s.randCalls
    .ok { setV s X ((r &&& 0xFF) &&& (opcode &&& 0x00FF)) with
            randCalls := s.randCalls + 1, pc := toU16 (s.pc + 2) }
  | 0xD000 => do
    let height := opcode &&& 0x000F
    let s1 ← drawSprite X Y height s
    pure { s1 with drawFlag := 1, pc := toU16 (s1.pc + 2) }
  | 0xE000 =>
    match opcode &&& 0x00FF with
    | 0x9E =>
      if s.V X < 16 then
        if s.key (s.V X) = PRESSED then
          .ok { s with pc := toU16 (s.pc + 4), key := Function.update s.key (s.V X) UNPRESSED }
        else .ok { s with pc := toU16 (s.pc + 2) }
      else do
        -- `key[V[X]]` past the end of `key`: the byte `56 + V[X]` of the object
        let k ← peek s (56 + s.V X)
        if k = PRESSED then poke { s with pc := toU16 (s.pc + 4) } (56 + s.V X) UNPRESSED
        else .ok { s with pc := toU16 (s.pc + 2) }
    | 0xA1 =>
      if s.V X < 16 then
        if s.key (s.V X) = UNPRESSED then .ok { s with pc := toU16 (s.pc + 4) }
        else
          .ok { s with pc := toU16 (s.pc + 2), key := Function.update s.key (s.V X) UNPRESSED }
      else do
        -- `key[V[X]]` past the end of `key`: the byte `56 + V[X]` of the object
        let k ← peek s (56 + s.V X)
        if k = UNPRESSED then .ok { s with pc := toU16 (s.pc + 4) }
        else poke { s with pc := toU16 (s.pc + 2) } (56 + s.V X) UNPRESSED
    | _ => .error (.unknownOpcode opcode)
  | 0xF000 =>
    match opcode &&& 0x00FF with
    | 0x07 => .ok { setV s X s.delay_timer with pc := toU16 (s.pc + 2) }
    | 0x0A =>
      let r := scanKeys X s
      if r.2 = false then .ok s
      else .ok { s with V := r.1, pc := toU16 (s.pc + 2) }
    | 0x15 => .ok { s with delay_timer := s.V X, pc := toU16 (s.pc + 2) }
    | 0x18 => .ok { s with sound_timer := s.V X, pc := toU16 (s.pc + 2) }
    | 0x1E =>
      let s1 := if s.V X + s.I > 0xFFF then setV s 0xF 1 else setV s 0xF 0
      .ok { s1 with I := toU16 (s1.I + s1.V X), pc := toU16 (s1.pc + 2) }
    | 0x29 => .ok { s with I := toU16 (s.V X * 5), pc := toU16 (s.pc + 2) }
    | 0x33 => do
      let msb := s.V X / 100
      let lsb := s.V X % 10
      -- `V[X] % 100 - lsb` is never negative, so the subtraction is exact on `Nat`
      let mid := toU16 ((s.V X % 100 - lsb) % 10)
      let s1 ← writeMem s s.I msb
      let s2 ← writeMem s1 (s1.I + 1) mid
      let s3 ← writeMem s2 (s2.I + 2) lsb
      pure { s3 with pc := toU16 (s3.pc + 2) }
    | 0x55 => do
      let s1 ← storeRegs X s
      pure { s1 with pc := toU16 (s1.pc + 2) }
    | 0x65 => do
      let s1 ← loadRegs X s
      pure { s1 with pc := toU16 (s1.pc + 2) }
    | _ => .ok s
  | _ => .error (.unknownOpcode opcode)

/-- Body of the copy loop of `Chip8::loadGame` for one index: `memory[0x200 + i] = buffer[i]`,
the element converted from `char` to `unsigned char`. -/
def loadByte (buffer : List Int) (t : Chip8) (i : Nat) : Except Fault Chip8 :=
  writeMem t (0x200 + i) (toU8 (buffer.getD i 0))

/-- The copy loop of `Chip8::loadGame`: `for i < gameSize: memory[0x200 + i] = buffer[i]`,
where `gameSize` is the length of the file contents `buffer`. -/
def loadGame (buffer : List Int) (s : Chip8) : Except Fault Chip8 :=
  (List.range buffer.length).foldlM (loadByte buffer) s

end Layout

/-- What stores into the object bytes `[lo, hi)`, with `54 ≤ lo`, leave unchanged: `I` and the
registers; a timer, a memory byte and the framebuffer when they lie outside the
range. -/
def StoreFrame (lo hi : Nat) (s t : Chip8) : Prop :=
  t.I = s.I ∧ t.V = s.V ∧
  ((hi ≤ 4168 ∨ 4168 < lo) → t.delay_timer = s.delay_timer) ∧
  ((hi ≤ 4169 ∨ 4169 < lo) → t.sound_timer = s.sound_timer) ∧
  (∀ a, (hi ≤ 72 + a ∨ 72 + a < lo) → t.memory a = s.memory a) ∧
  (hi ≤ 4172 → t.gfx = s.gfx)

/-- What one call of `Layout.emulate` that returns can change in the timers, in memory and
in the framebuffer, for the instruction word `op`: besides FX15 and FX18 (timers), FX33 and
FX55 (memory at `I ..`), it is the store of an index that has left its array. -/
structure CycleFrame (op : Nat) (s s' : Chip8) : Prop where
  delay : s'.delay_timer = s.delay_timer ∨
    (op &&& 0xF000 = 0xF000 ∧ op &&& 0x00FF = 0x15 ∧
      s'.delay_timer = s.V ((op &&& 0x0F00) >>> 8)) ∨
    (op &&& 0xF000 = 0xF000 ∧ op &&& 0x00FF = 0x33 ∧ s.I ≤ 4096 ∧ 4096 ≤ s.I + 2) ∨
    (op &&& 0xF000 = 0xF000 ∧ op &&& 0x00FF = 0x55 ∧
      s.I ≤ 4096 ∧ 4096 ≤ s.I + (op &&& 0x0F00) >>> 8) ∨
    (op &&& 0xF000 = 0x2000 ∧ s.sp = 2073)
  sound : s'.sound_timer = s.sound_timer ∨
    (op &&& 0xF000 = 0xF000 ∧ op &&& 0x00FF = 0x18 ∧
      s'.sound_timer = s.V ((op &&& 0x0F00) >>> 8)) ∨
    (op &&& 0xF000 = 0xF000 ∧ op &&& 0x00FF = 0x33 ∧ s.I ≤ 4097 ∧ 4097 ≤ s.I + 2) ∨
    (op &&& 0xF000 = 0xF000 ∧ op &&& 0x00FF = 0x55 ∧
      s.I ≤ 4097 ∧ 4097 ≤ s.I + (op &&& 0x0F00) >>> 8) ∨
    (op &&& 0xF000 = 0x2000 ∧ s.sp = 2073)
  memory : ∀ a, s'.memory a = s.memory a ∨
    (op &&& 0xF000 = 0xF000 ∧ op &&& 0x00FF = 0x33 ∧ s.I ≤ a ∧ a ≤ s.I + 2) ∨
    (op &&& 0xF000 = 0xF000 ∧ op &&& 0x00FF = 0x55 ∧
      s.I ≤ a ∧ a ≤ s.I + (op &&& 0x0F00) >>> 8) ∨
    (op &&& 0xF000 = 0xE000 ∧ (op &&& 0x00FF = 0x9E ∨ op &&& 0x00FF = 0xA1) ∧
      s.V ((op &&& 0x0F00) >>> 8) = 16 + a) ∨
    (op &&& 0xF000 = 0x2000 ∧ 2 * s.sp ≤ 50 + a ∧ 50 + a ≤ 2 * s.sp + 1)
  gfx : BinaryGfx s.gfx → BinaryGfx s'.gfx ∨
    (op &&& 0xF000 = 0xF000 ∧ op &&& 0x00FF = 0x33 ∧ 4100 ≤ s.I + 2) ∨
    (op &&& 0xF000 = 0xF000 ∧ op &&& 0x00FF = 0x55 ∧
      4100 ≤ s.I + (op &&& 0x0F00) >>> 8) ∨
    (op &&& 0xF000 = 0x2000 ∧ 2075 ≤ s.sp)

/-- State used to evaluate FX33 at the end of memory: `I = 0xFFF`, `V0 = 123`, delay timer 4,
sound timer 6, instruction `F033`. -/
def timerOverrunState : Chip8 :=
  withInstr (setV { blank with I := 0xFFF, delay_timer := 4, sound_timer := 6 } 0 123) 0xF033

/-- State used to evaluate EXA1 on an index past the end of `key`: `V0 = 0x60`,
`memory[0x050] = 0xF0`, instruction `E0A1`. -/
def keyOverrunState : Chip8 :=
  withInstr (setV { blank with memory := Function.update blank.memory 0x050 0xF0 } 0 0x60) 0xE0A1

/-- State used to evaluate 2NNN on a stack pointer past the end of `stack`: `sp = 65`,
`memory[0x051] = 0xF0`, instruction `2300` at `0x200`. -/
def callOverrunState : Chip8 :=
  withInstr { blank with sp := 65, memory := Function.update blank.memory 0x051 0xF0 } 0x2300

/-- State used to evaluate FX55 at the end of memory: `I = 0xFF8`, `V12 = 5`, a blank
framebuffer, instruction `FF55`. -/
def gfxOverrunState : Chip8 := withInstr (setV { blank with I := 0xFF8 } 12 5) 0xFF55

/-! ## Fetch and decode -/

theorem fetch_ok_bound {s : Chip8} {op : Nat} (h : fetch s = .ok op) : s.pc + 1 < 4096 := by
  unfold fetch readMem at h
  by_contra hc
  have h1 : ¬ (s.pc + 1 < 4096) := hc
  by_cases h0 : s.pc < 4096 <;> simp [h0, h1, bind, Except.bind] at h

theorem toU16_pc_add {s : Chip8} {op : Nat} (h : fetch s = .ok op) (k : Nat) (hk : k ≤ 4) :
    toU16 (s.pc + k) = s.pc + k := by
  have := fetch_ok_bound h
  unfold toU16
  omega

theorem decode_7XNN : ∀ X < 16, ∀ NN < 256,
    (0x7000 + 0x100 * X + NN) &&& 0xF000 = 0x7000 ∧
    ((0x7000 + 0x100 * X + NN) &&& 0x0F00) >>> 8 = X ∧
    (0x7000 + 0x100 * X + NN) &&& 0x00FF = NN := by
  decide!

theorem emulate_7XNN (s : Chip8) (X NN : Nat) (hX : X < 16) (hNN : NN < 256)
    (hf : fetch s = .ok (0x7000 + 0x100 * X + NN)) :
    emulate s = .ok { setV { s with opcode := 0x7000 + 0x100 * X + NN } X ((s.V X + NN) % 256) with
      pc := s.pc + 2 } := by
  obtain ⟨h1, h2, h3⟩ := decode_7XNN X hX NN hNN
  have hp := toU16_pc_add hf 2 (by omega)
  simp [emulate, hf, h1, h2, h3, hp, bind, Except.bind, setV]

theorem decode_8XYN : ∀ X < 16, ∀ Y < 16, ∀ N < 16,
    (0x8000 + 0x100 * X + 0x10 * Y + N) &&& 0xF000 = 0x8000 ∧
    ((0x8000 + 0x100 * X + 0x10 * Y + N) &&& 0x0F00) >>> 8 = X ∧
    ((0x8000 + 0x100 * X + 0x10 * Y + N) &&& 0x00F0) >>> 4 = Y ∧
    (0x8000 + 0x100 * X + 0x10 * Y + N) &&& 0x000F = N := by
  decide!

theorem toU8_cast (z : Int) : ((toU8 z : Nat) : Int) = z % 256 := by
  unfold toU8
  exact Int.toNat_of_nonneg (Int.emod_nonneg z (by decide))

/-- C1, evaluation of the code at `VX = 156`: FX33 writes 1, 0, 6 to `memory[I..I+2]`
(the tens digit 5 is lost, the stored middle byte is 0); `pc` advances by 2. -/
theorem C1_fx33_156_writes_1_0_6 :
    (emulate bcdState).toOption.map
      (fun t => (t.memory 0x300, t.memory 0x301, t.memory 0x302, t.pc))
      = some (1, 0, 6, 0x202) := by
  decide

/-- The middle byte written by FX33 is 0 for every register value: the source
computes `(V[X] % 100 - V[X] % 10) % 10`. -/
theorem fx33_mid_zero (v : Nat) : toU16 ((v % 100 - v % 10) % 10) = 0 := by
  unfold toU16
  omega

/-- C7: 7XNN sets `VX` to `(VX + NN) mod 256`, changes no other register and
advances `pc` by 2. -/
theorem C7_add_immediate_wraps (s : Chip8) (X NN : Nat) (hX : X < 16) (hNN : NN < 256)
    (hf : fetch s = .ok (0x7000 + 0x100 * X + NN)) :
    ∃ s', emulate s = .ok s' ∧ s'.V X = (s.V X + NN) % 256 ∧
      (∀ i, i ≠ X → s'.V i = s.V i) ∧ s'.pc = s.pc + 2 := by
  refine ⟨_, emulate_7XNN s X NN hX hNN hf, ?_, ?_, ?_⟩
  · simp [setV]
  · intro i hi
    simp [setV, Function.update_noteq hi]
  · rfl

/-- C7 at `VX = 0xFF`, `NN = 0x02`: the result is `VX = 0x01`, `VF` is untouched. -/
theorem C7_add_immediate_wraps_witness :
    (fetch addImmState = .ok (0x7000 + 0x100 * 4 + 0x02) ∧
    ∃ s', emulate addImmState = .ok s' ∧ s'.V 4 = (addImmState.V 4 + 0x02) % 256 ∧
      (∀ i, i ≠ 4 → s'.V i = addImmState.V i) ∧ s'.pc = addImmState.pc + 2) ∧
    (emulate addImmState).toOption.map (fun t => (t.V 4, t.V 0xF, t.pc)) = some (0x01, 0, 0x202) :=
  ⟨⟨rfl, C7_add_immediate_wraps addImmState 4 0x02 (by decide) (by decide) rfl⟩, by decide⟩

/-! ## 8XY4, 8XY5, 8XY7: flag first, then the result -/

theorem emulate_8XY4 (s : Chip8) (X Y : Nat) (hX : X < 16) (hY : Y < 16)
    (hf : fetch s = .ok (0x8000 + 0x100 * X + 0x10 * Y + 4)) :
    emulate s = .ok
      (setV (setV { s with opcode := 0x8000 + 0x100 * X + 0x10 * Y + 4, pc := s.pc + 2 } 0xF
          (if s.V X + s.V Y > 255 then 1 else 0)) X
        ((Function.update s.V 0xF (if s.V X + s.V Y > 255 then 1 else 0) X +
          Function.update s.V 0xF (if s.V X + s.V Y > 255 then 1 else 0) Y) % 256)) := by
  obtain ⟨h1, h2, h3, h4⟩ := decode_8XYN X hX Y hY 4 (by decide)
  have hp := toU16_pc_add hf 2 (by omega)
  by_cases hc : s.V X + s.V Y > 255 <;>
    simp [emulate, hf, h1, h2, h3, h4, hp, bind, Except.bind, setV, hc]

theorem emulate_8XY5 (s : Chip8) (X Y : Nat) (hX : X < 16) (hY : Y < 16)
    (hf : fetch s = .ok (0x8000 + 0x100 * X + 0x10 * Y + 5)) :
    emulate s = .ok
      (setV (setV { s with opcode := 0x8000 + 0x100 * X + 0x10 * Y + 5, pc := s.pc + 2 } 0xF
          (if s.V Y > s.V X then 0 else 1)) X
        (toU8 ((Function.update s.V 0xF (if s.V Y > s.V X then 0 else 1) X : Int) -
          (Function.update s.V 0xF (if s.V Y > s.V X then 0 else 1) Y : Int)))) := by
  obtain ⟨h1, h2, h3, h4⟩ := decode_8XYN X hX Y hY 5 (by decide)
  have hp := toU16_pc_add hf 2 (by omega)
  by_cases hc : s.V Y > s.V X <;>
    simp [emulate, hf, h1, h2, h3, h4, hp, bind, Except.bind, setV, hc]

theorem emulate_8XY7 (s : Chip8) (X Y : Nat) (hX : X < 16) (hY : Y < 16)
    (hf : fetch s = .ok (0x8000 + 0x100 * X + 0x10 * Y + 7)) :
    emulate s = .ok
      (setV (setV { s with opcode := 0x8000 + 0x100 * X + 0x10 * Y + 7, pc := s.pc + 2 } 0xF
          (if s.V X > s.V Y then 0 else 1)) X
        (toU8 ((Function.update s.V 0xF (if s.V X > s.V Y then 0 else 1) Y : Int) -
          (Function.update s.V 0xF (if s.V X > s.V Y then 0 else 1) X : Int)))) := by
  obtain ⟨h1, h2, h3, h4⟩ := decode_8XYN X hX Y hY 7 (by decide)
  have hp := toU16_pc_add hf 2 (by omega)
  by_cases hc : s.V X > s.V Y <;>
    simp [emulate, hf, h1, h2, h3, h4, hp, bind, Except.bind, setV, hc]

/-- C4: 8XY4 with `X, Y ≤ 14` sets `VF` to the carry of `VX + VY`, `VX` to the sum
modulo 256, leaves the other registers alone and advances `pc` by 2. -/
theorem C4_add_registers_carry (s : Chip8) (X Y : Nat) (hX : X ≤ 14) (hY : Y ≤ 14)
    (hf : fetch s = .ok (0x8000 + 0x100 * X + 0x10 * Y + 4)) :
    ∃ s', emulate s = .ok s' ∧
      s'.V 0xF = (if s.V X + s.V Y > 255 then 1 else 0) ∧
      s'.V X = (s.V X + s.V Y) % 256 ∧
      (∀ i, i ≠ X → i ≠ 0xF → s'.V i = s.V i) ∧
      s'.pc = s.pc + 2 := by
  have hX15 : X ≠ 15 := by omega
  have hY15 : Y ≠ 15 := by omega
  refine ⟨_, emulate_8XY4 s X Y (by omega) (by omega) hf, ?_, ?_, ?_, ?_⟩
  · simp [setV, Function.update_apply, hX15.symm]
  · simp [setV, Function.update_apply, hX15, hY15]
  · intro i hi hi15
    simp [setV, Function.update_apply, hi, hi15]
  · rfl

/-- C4 at `VX = 0x80`, `VY = 0x90`: the theorem applies, and the values are
`VX = 0x10`, `VF = 1`; at `VX = 0x01`, `VY = 0x01` they are `VX = 0x02`, `VF = 0`. -/
theorem C4_add_registers_carry_witness :
    (fetch addCarryState = .ok (0x8000 + 0x100 * 1 + 0x10 * 2 + 4) ∧
      ∃ s', emulate addCarryState = .ok s' ∧
        s'.V 0xF = (if addCarryState.V 1 + addCarryState.V 2 > 255 then 1 else 0) ∧
        s'.V 1 = (addCarryState.V 1 + addCarryState.V 2) % 256 ∧
        (∀ i, i ≠ 1 → i ≠ 0xF → s'.V i = addCarryState.V i) ∧
        s'.pc = addCarryState.pc + 2) ∧
    (emulate addCarryState).toOption.map (fun t => (t.V 1, t.V 0xF)) = some (0x10, 1) ∧
    (emulate addNoCarryState).toOption.map (fun t => (t.V 1, t.V 0xF)) = some (0x02, 0) :=
  ⟨⟨rfl, C4_add_registers_carry addCarryState 1 2 (by decide) (by decide) rfl⟩, by decide,
    by decide⟩

/-- C5: 8XY5 with `X, Y ≤ 14` sets `VF` to 0 when `VY > VX` and to 1 otherwise, `VX`
to `(VX - VY) mod 256`, leaves the other registers alone and advances `pc` by 2. -/
theorem C5_sub_registers_borrow (s : Chip8) (X Y : Nat) (hX : X ≤ 14) (hY : Y ≤ 14)
    (hf : fetch s = .ok (0x8000 + 0x100 * X + 0x10 * Y + 5)) :
    ∃ s', emulate s = .ok s' ∧
      s'.V 0xF = (if s.V Y > s.V X then 0 else 1) ∧
      (s'.V X : Int) = ((s.V X : Int) - (s.V Y : Int)) % 256 ∧
      (∀ i, i ≠ X → i ≠ 0xF → s'.V i = s.V i) ∧
      s'.pc = s.pc + 2 := by
  have hX15 : X ≠ 15 := by omega
  have hY15 : Y ≠ 15 := by omega
  refine ⟨_, emulate_8XY5 s X Y (by omega) (by omega) hf, ?_, ?_, ?_, ?_⟩
  · simp [setV, Function.update_apply, hX15.symm]
  · simp [setV, Function.update_apply, hX15, hY15, toU8_cast]
  · intro i hi hi15
    simp [setV, Function.update_apply, hi, hi15]
  · rfl

/-- C5 at `VX = 0x05`, `VY = 0x0A`: the theorem applies, and the values are
`VX = 0xFB`, `VF = 0`. -/
theorem C5_sub_registers_borrow_witness :
    (fetch subBorrowState = .ok (0x8000 + 0x100 * 1 + 0x10 * 2 + 5) ∧
      ∃ s', emulate subBorrowState = .ok s' ∧
        s'.V 0xF = (if subBorrowState.V 2 > subBorrowState.V 1 then 0 else 1) ∧
        (s'.V 1 : Int) = ((subBorrowState.V 1 : Int) - (subBorrowState.V 2 : Int)) % 256 ∧
        (∀ i, i ≠ 1 → i ≠ 0xF → s'.V i = subBorrowState.V i) ∧
        s'.pc = subBorrowState.pc + 2) ∧
    (emulate subBorrowState).toOption.map (fun t => (t.V 1, t.V 0xF)) = some (0xFB, 0) :=
  ⟨⟨rfl, C5_sub_registers_borrow subBorrowState 1 2 (by decide) (by decide) rfl⟩, by decide⟩

/-! ## VF as the source operand of 8XY4, 8XY5, 8XY7 -/

/-- C6 fails as stated: with `V0 = 1`, `VF = 5` the instruction 80F4 leaves `V0 = 1`
(not `1 + 5 = 6`); with `V0 = 10`, `VF = 3` the instruction 80F5 leaves `V0 = 9`
(not `10 - 3 = 7`); with `V0 = 3`, `VF = 10` the instruction 80F7 leaves `V0 = 254`
(not `10 - 3 = 7`). -/
theorem C6_old_flag_not_used :
    ((emulate addFlagState).toOption.map (fun t => t.V 0) = some 1 ∧
      (addFlagState.V 0 + addFlagState.V 0xF) % 256 = 6) ∧
    ((emulate subFlagState).toOption.map (fun t => t.V 0) = some 9 ∧
      toU8 ((subFlagState.V 0 : Int) - (subFlagState.V 0xF : Int)) = 7) ∧
    ((emulate rsubFlagState).toOption.map (fun t => t.V 0) = some 254 ∧
      toU8 ((rsubFlagState.V 0xF : Int) - (rsubFlagState.V 0 : Int)) = 7) := by
  decide

/-- C6 as amended: for `X ≤ 14` and `Y = 0xF` the flag is written to `VF` first and the
new `VX` is computed from that flag: 8XF4 gives `VX = (VX + c) mod 256` with `c` the carry
of `VX + VF`; 8XF5 gives `VX = (VX - b) mod 256` with `b = 0` if `VF > VX` and `1`
otherwise; 8XF7 gives `VX = (b - VX) mod 256` with `b = 0` if `VX > VF` and `1` otherwise
(all values on the right are those before the instruction). -/
theorem C6_flag_operand_reads_new_flag (s : Chip8) (X : Nat) (hX : X ≤ 14) :
    (fetch s = .ok (0x8000 + 0x100 * X + 0x10 * 0xF + 4) →
      ∃ s', emulate s = .ok s' ∧
        s'.V X = (s.V X + (if s.V X + s.V 0xF > 255 then 1 else 0)) % 256) ∧
    (fetch s = .ok (0x8000 + 0x100 * X + 0x10 * 0xF + 5) →
      ∃ s', emulate s = .ok s' ∧
        (s'.V X : Int) = ((s.V X : Int) - (if s.V 0xF > s.V X then 0 else 1)) % 256) ∧
    (fetch s = .ok (0x8000 + 0x100 * X + 0x10 * 0xF + 7) →
      ∃ s', emulate s = .ok s' ∧
        (s'.V X : Int) = ((if s.V X > s.V 0xF then 0 else 1) - (s.V X : Int)) % 256) := by
  have hX15 : X ≠ 15 := by omega
  refine ⟨fun hf => ?_, fun hf => ?_, fun hf => ?_⟩
  · refine ⟨_, emulate_8XY4 s X 0xF (by omega) (by decide) hf, ?_⟩
    simp [setV, Function.update_apply, hX15]
  · refine ⟨_, emulate_8XY5 s X 0xF (by omega) (by decide) hf, ?_⟩
    by_cases hc : s.V 15 > s.V X <;>
      simp [setV, Function.update_apply, hX15, toU8_cast, hc]
  · refine ⟨_, emulate_8XY7 s X 0xF (by omega) (by decide) hf, ?_⟩
    by_cases hc : s.V X > s.V 15 <;>
      simp [setV, Function.update_apply, hX15, toU8_cast, hc]

/-- C6 as amended, at the three states of the counterexample (`X = 0`). -/
theorem C6_flag_operand_reads_new_flag_witness :
    (fetch addFlagState = .ok (0x8000 + 0x100 * 0 + 0x10 * 0xF + 4) ∧
      ∃ s', emulate addFlagState = .ok s' ∧
        s'.V 0 = (addFlagState.V 0 +
          (if addFlagState.V 0 + addFlagState.V 0xF > 255 then 1 else 0)) % 256) ∧
    (fetch subFlagState = .ok (0x8000 + 0x100 * 0 + 0x10 * 0xF + 5) ∧
      ∃ s', emulate subFlagState = .ok s' ∧
        (s'.V 0 : Int) = ((subFlagState.V 0 : Int) -
          (if subFlagState.V 0xF > subFlagState.V 0 then 0 else 1)) % 256) ∧
    (fetch rsubFlagState = .ok (0x8000 + 0x100 * 0 + 0x10 * 0xF + 7) ∧
      ∃ s', emulate rsubFlagState = .ok s' ∧
        (s'.V 0 : Int) = ((if rsubFlagState.V 0 > rsubFlagState.V 0xF then 0 else 1) -
          (rsubFlagState.V 0 : Int)) % 256) :=
  ⟨⟨rfl, (C6_flag_operand_reads_new_flag addFlagState 0 (by decide)).1 rfl⟩,
   ⟨rfl, (C6_flag_operand_reads_new_flag subFlagState 0 (by decide)).2.1 rfl⟩,
   ⟨rfl, (C6_flag_operand_reads_new_flag rsubFlagState 0 (by decide)).2.2 rfl⟩⟩

/-! ## FX0A: wait for a key -/

theorem decode_FXNN : ∀ X < 16, ∀ NN < 256,
    (0xF000 + 0x100 * X + NN) &&& 0xF000 = 0xF000 ∧
    ((0xF000 + 0x100 * X + NN) &&& 0x0F00) >>> 8 = X ∧
    (0xF000 + 0x100 * X + NN) &&& 0x00FF = NN := by
  decide!

theorem scanKeysUpTo_spec (X : Nat) (s : Chip8) (n : Nat) :
    ((scanKeysUpTo n X s).2 = false ∧ (scanKeysUpTo n X s).1 = s.V ∧ ∀ i < n, s.key i = 0) ∨
    ((scanKeysUpTo n X s).2 = true ∧ ∃ k < n, s.key k ≠ 0 ∧ (∀ j < n, s.key j ≠ 0 → j ≤ k) ∧
      (scanKeysUpTo n X s).1 = Function.update s.V X k) := by
  induction n with
  | zero => left; simp [scanKeysUpTo]
  | succ n ih =>
    have hstep : scanKeysUpTo (n + 1) X s =
        if s.key n ≠ 0 then (Function.update (scanKeysUpTo n X s).1 X n, true)
        else scanKeysUpTo n X s := by
      simp [scanKeysUpTo, List.range_succ, List.foldl_append]
    by_cases hk : s.key n ≠ 0
    · right
      rw [hstep, if_pos hk]
      refine ⟨rfl, n, Nat.lt_succ_self n, hk, fun j hj _ => Nat.lt_succ_iff.mp hj, ?_⟩
      rcases ih with ⟨_, h1, _⟩ | ⟨_, k, _, _, _, h1⟩
      · simp [h1]
      · simp [h1]
    · rw [hstep, if_neg hk]
      have hk0 : s.key n = 0 := by simpa using hk
      rcases ih with ⟨h0, h1, h2⟩ | ⟨h0, k, hkn, hkp, hmax, h1⟩
      · left
        refine ⟨h0, h1, fun i hi => ?_⟩
        rcases Nat.lt_succ_iff_lt_or_eq.mp hi with h | h
        · exact h2 i h
        · rw [h]; exact hk0
      · right
        refine ⟨h0, k, Nat.lt_succ_of_lt hkn, hkp, fun j hj hjp => ?_, h1⟩
        rcases Nat.lt_succ_iff_lt_or_eq.mp hj with h | h
        · exact hmax j h hjp
        · rw [h] at hjp; exact absurd hk0 hjp

theorem scanKeys_eq (X : Nat) (s : Chip8) : scanKeys X s = scanKeysUpTo 16 X s := rfl

theorem emulate_FX0A (s : Chip8) (X : Nat) (hX : X < 16)
    (hf : fetch s = .ok (0xF000 + 0x100 * X + 0x0A)) :
    emulate s =
      if (scanKeys X { s with opcode := 0xF000 + 0x100 * X + 0x0A }).2 = false then
        .ok { s with opcode := 0xF000 + 0x100 * X + 0x0A }
      else
        .ok { s with opcode := 0xF000 + 0x100 * X + 0x0A,
                     V := (scanKeys X { s with opcode := 0xF000 + 0x100 * X + 0x0A }).1,
                     pc := s.pc + 2 } := by
  obtain ⟨h1, h2, h3⟩ := decode_FXNN X hX 0x0A (by decide)
  have hp := toU16_pc_add hf 2 (by omega)
  simp [emulate, hf, h1, h2, h3, hp, bind, Except.bind]

/-- C2 fails as stated: with keys 1 and 2 pressed (key 0 unpressed, so the lowest pressed
index is 1) F00A sets `V0 = 2`, and advances `pc` by 2. -/
theorem C2_lowest_key_not_chosen :
    twoKeysState.key 0 = 0 ∧ twoKeysState.key 1 ≠ 0 ∧ twoKeysState.key 2 ≠ 0 ∧
    (emulate twoKeysState).toOption.map (fun t => (t.V 0, t.pc)) = some (2, 0x202) := by
  decide

/-- C2 as amended: when some key is pressed, FX0A advances `pc` by 2 and sets `VX` to the
highest index whose key is pressed; no other register changes. -/
theorem C2_wait_key_takes_highest (s : Chip8) (X : Nat) (hX : X < 16)
    (hf : fetch s = .ok (0xF000 + 0x100 * X + 0x0A))
    (hkey : ∃ i < 16, s.key i ≠ 0) :
    ∃ s' k, emulate s = .ok s' ∧ s'.pc = s.pc + 2 ∧
      k < 16 ∧ s.key k ≠ 0 ∧ (∀ j < 16, s.key j ≠ 0 → j ≤ k) ∧
      s'.V X = k ∧ (∀ i, i ≠ X → s'.V i = s.V i) := by
  obtain ⟨i, hi, hik⟩ := hkey
  have hs := scanKeysUpTo_spec X { s with opcode := 0xF000 + 0x100 * X + 0x0A } 16
  rw [← scanKeys_eq] at hs
  rcases hs with ⟨_, _, h2⟩ | ⟨h0, k, hk, hkp, hmax, h1⟩
  · exact absurd (h2 i hi) hik
  · have he := emulate_FX0A s X hX hf
    rw [if_neg (by simp [h0])] at he
    refine ⟨_, k, he, rfl, hk, hkp, hmax, ?_, ?_⟩
    · simp [h1]
    · intro j hj
      simp [h1, Function.update_apply, hj]

/-- C2 as amended, at the state with keys 1 and 2 pressed. -/
theorem C2_wait_key_takes_highest_witness :
    fetch twoKeysState = .ok (0xF000 + 0x100 * 0 + 0x0A) ∧
    (∃ i < 16, twoKeysState.key i ≠ 0) ∧
    ∃ s' k, emulate twoKeysState = .ok s' ∧ s'.pc = twoKeysState.pc + 2 ∧
      k < 16 ∧ twoKeysState.key k ≠ 0 ∧ (∀ j < 16, twoKeysState.key j ≠ 0 → j ≤ k) ∧
      s'.V 0 = k ∧ (∀ i, i ≠ 0 → s'.V i = twoKeysState.V i) :=
  ⟨rfl, ⟨1, by decide, by decide⟩,
    C2_wait_key_takes_highest twoKeysState 0 (by decide) rfl ⟨1, by decide, by decide⟩⟩

/-- C3: with all 16 keys unpressed, FX0A returns the state it was given, up to the
field `opcode` that the fetch fills in: `pc`, registers, `I`, `sp`, stack, memory, timers,
keys, framebuffer and change log are unchanged; the same holds after any number
`n ≥ 1` of calls, so `pc` never moves. -/
theorem C3_wait_key_idles (s : Chip8) (X : Nat) (hX : X < 16)
    (hf : fetch s = .ok (0xF000 + 0x100 * X + 0x0A))
    (hkey : ∀ i < 16, s.key i = 0) :
    (∃ s', emulate s = .ok s' ∧ s'.pc = s.pc ∧ s'.V = s.V ∧ s'.I = s.I ∧ s'.sp = s.sp ∧
      s'.stack = s.stack ∧ s'.memory = s.memory ∧ s'.delay_timer = s.delay_timer ∧
      s'.sound_timer = s.sound_timer ∧ s'.key = s.key ∧ s'.gfx = s.gfx ∧
      s'.graphics = s.graphics) ∧
    ∀ n, 1 ≤ n →
      emulateN n s = .ok { s with opcode := 0xF000 + 0x100 * X + 0x0A } ∧
      ∃ s', emulateN n s = .ok s' ∧ s'.pc = s.pc := by
  have idle : ∀ t : Chip8, fetch t = .ok (0xF000 + 0x100 * X + 0x0A) →
      (∀ i < 16, t.key i = 0) →
      emulate t = .ok { t with opcode := 0xF000 + 0x100 * X + 0x0A } := by
    intro t htf htk
    have hs := scanKeysUpTo_spec X { t with opcode := 0xF000 + 0x100 * X + 0x0A } 16
    rw [← scanKeys_eq] at hs
    rcases hs with ⟨h0, _, _⟩ | ⟨_, k, hk, hkp, _, _⟩
    · rw [emulate_FX0A t X hX htf, if_pos h0]
    · exact absurd (htk k hk) hkp
  have many : ∀ n (t : Chip8), fetch t = .ok (0xF000 + 0x100 * X + 0x0A) →
      (∀ i < 16, t.key i = 0) →
      emulateN (n + 1) t = .ok { t with opcode := 0xF000 + 0x100 * X + 0x0A } := by
    intro n
    induction n with
    | zero =>
      intro t htf htk
      simp [emulateN, idle t htf htk, bind, Except.bind]
    | succ n ih =>
      intro t htf htk
      have h1 := ih { t with opcode := 0xF000 + 0x100 * X + 0x0A } htf htk
      rw [emulateN, idle t htf htk]
      simpa [bind, Except.bind] using h1
  refine ⟨⟨_, idle s hf hkey, rfl, rfl, rfl, rfl, rfl, rfl, rfl, rfl, rfl, rfl, rfl⟩, ?_⟩
  intro n hn
  obtain ⟨m, rfl⟩ : ∃ m, n = m + 1 := ⟨n - 1, by omega⟩
  exact ⟨many m s hf hkey, _, many m s hf hkey, rfl⟩

/-- C3 at a state with no key pressed, instruction `F30A`. -/
theorem C3_wait_key_idles_witness :
    fetch noKeyState = .ok (0xF000 + 0x100 * 3 + 0x0A) ∧ (∀ i < 16, noKeyState.key i = 0) ∧
    ∀ n, 1 ≤ n → ∃ s', emulateN n noKeyState = .ok s' ∧ s'.pc = noKeyState.pc :=
  ⟨rfl, fun _ _ => rfl,
    fun n hn => ((C3_wait_key_idles noKeyState 3 (by decide) rfl (fun _ _ => rfl)).2 n hn).2⟩

/-! ## DXYN: the sprite loops as a list of toggled cells -/

theorem togglePixel_gfx (t : Chip8) (p : Nat × Nat) (x y : Nat) :
    (togglePixel t p).gfx x y = if (x, y) = p then t.gfx x y ^^^ 1 else t.gfx x y := by
  obtain ⟨a, b⟩ := p
  by_cases hx : x = a
  · by_cases hy : y = b
    · subst hx; subst hy; simp [togglePixel]
    · subst hx; simp [togglePixel, Function.update_apply, hy]
  · simp [togglePixel, Function.update_apply, hx]

theorem togglePixel_V (t : Chip8) (p : Nat × Nat) (i : Nat) :
    (togglePixel t p).V i = if i = 15 ∧ t.gfx p.1 p.2 = 1 then 1 else t.V i := by
  by_cases h : t.gfx p.1 p.2 = 1
  · by_cases hi : i = 15 <;> simp [togglePixel, setV, h, hi, Function.update_apply]
  · simp [togglePixel, h]

theorem togglePixel_frame (t : Chip8) (p : Nat × Nat) :
    (togglePixel t p).opcode = t.opcode ∧ (togglePixel t p).I = t.I ∧
    (togglePixel t p).pc = t.pc ∧ (togglePixel t p).stack = t.stack ∧
    (togglePixel t p).sp = t.sp ∧ (togglePixel t p).key = t.key ∧
    (togglePixel t p).memory = t.memory ∧ (togglePixel t p).delay_timer = t.delay_timer ∧
    (togglePixel t p).sound_timer = t.sound_timer ∧ (togglePixel t p).drawFlag = t.drawFlag ∧
    (togglePixel t p).clearScreen = t.clearScreen ∧ (togglePixel t p).randSeq = t.randSeq ∧
    (togglePixel t p).randCalls = t.randCalls ∧
    (togglePixel t p).graphics = t.graphics ++ [p] := by
  by_cases h : t.gfx p.1 p.2 = 1 <;> simp [togglePixel, setV, h]

theorem foldl_toggle_frame (ps : List (Nat × Nat)) : ∀ t : Chip8,
    (ps.foldl togglePixel t).opcode = t.opcode ∧ (ps.foldl togglePixel t).I = t.I ∧
    (ps.foldl togglePixel t).pc = t.pc ∧ (ps.foldl togglePixel t).stack = t.stack ∧
    (ps.foldl togglePixel t).sp = t.sp ∧ (ps.foldl togglePixel t).key = t.key ∧
    (ps.foldl togglePixel t).memory = t.memory ∧
    (ps.foldl togglePixel t).delay_timer = t.delay_timer ∧
    (ps.foldl togglePixel t).sound_timer = t.sound_timer ∧
    (ps.foldl togglePixel t).drawFlag = t.drawFlag ∧
    (ps.foldl togglePixel t).clearScreen = t.clearScreen ∧
    (ps.foldl togglePixel t).randSeq = t.randSeq ∧
    (ps.foldl togglePixel t).randCalls = t.randCalls ∧
    (ps.foldl togglePixel t).graphics = t.graphics ++ ps := by
  induction ps with
  | nil => intro t; simp
  | cons p ps ih =>
    intro t
    obtain ⟨h1, h2, h3, h4, h5, h6, h7, h8, h9, h10, h11, h12, h13, h14⟩ := ih (togglePixel t p)
    obtain ⟨g1, g2, g3, g4, g5, g6, g7, g8, g9, g10, g11, g12, g13, g14⟩ := togglePixel_frame t p
    simp only [List.foldl_cons]
    refine ⟨h1.trans g1, h2.trans g2, h3.trans g3, h4.trans g4, h5.trans g5, h6.trans g6,
      h7.trans g7, h8.trans g8, h9.trans g9, h10.trans g10, h11.trans g11, h12.trans g12,
      h13.trans g13, ?_⟩
    rw [h14, g14]
    simp

theorem foldl_toggle_V (ps : List (Nat × Nat)) : ∀ (t : Chip8) (i : Nat), i ≠ 15 →
    (ps.foldl togglePixel t).V i = t.V i := by
  induction ps with
  | nil => intro t i _; rfl
  | cons p ps ih =>
    intro t i hi
    simp only [List.foldl_cons]
    rw [ih (togglePixel t p) i hi, togglePixel_V]
    simp [hi]

theorem foldl_toggle_gfx (ps : List (Nat × Nat)) : ∀ t : Chip8, ps.Nodup → ∀ x y,
    (ps.foldl togglePixel t).gfx x y = if (x, y) ∈ ps then t.gfx x y ^^^ 1 else t.gfx x y := by
  induction ps with
  | nil => intro t _ x y; simp
  | cons p ps ih =>
    intro t hnd x y
    obtain ⟨hp, hps⟩ := List.nodup_cons.mp hnd
    simp only [List.foldl_cons]
    rw [ih (togglePixel t p) hps x y, togglePixel_gfx]
    by_cases h1 : (x, y) = p
    · have h2 : (x, y) ∉ ps := by rw [h1]; exact hp
      simp [h1, hp]
    · by_cases h2 : (x, y) ∈ ps <;> simp [h1, h2]

theorem foldl_toggle_flag (ps : List (Nat × Nat)) : ∀ t : Chip8, ps.Nodup →
    ((∃ p ∈ ps, t.gfx p.1 p.2 = 1) → (ps.foldl togglePixel t).V 15 = 1) ∧
    ((¬ ∃ p ∈ ps, t.gfx p.1 p.2 = 1) → (ps.foldl togglePixel t).V 15 = t.V 15) := by
  induction ps with
  | nil => intro t _; simp
  | cons p ps ih =>
    intro t hnd
    obtain ⟨hp, hps⟩ := List.nodup_cons.mp hnd
    obtain ⟨ih1, ih2⟩ := ih (togglePixel t p) hps
    have hsame : ∀ q ∈ ps, (togglePixel t p).gfx q.1 q.2 = t.gfx q.1 q.2 := by
      intro q hq
      rw [togglePixel_gfx]
      have : (q.1, q.2) ≠ p := by
        intro h
        apply hp
        rw [← h]
        exact hq
      simp [this]
    have hiff : (∃ q ∈ ps, (togglePixel t p).gfx q.1 q.2 = 1) ↔ ∃ q ∈ ps, t.gfx q.1 q.2 = 1 := by
      constructor
      · rintro ⟨q, hq, h⟩
        exact ⟨q, hq, (hsame q hq) ▸ h⟩
      · rintro ⟨q, hq, h⟩
        exact ⟨q, hq, (hsame q hq).trans h⟩
    simp only [List.foldl_cons]
    constructor
    · rintro ⟨q, hq, h⟩
      by_cases hrest : ∃ q ∈ ps, t.gfx q.1 q.2 = 1
      · exact ih1 (hiff.mpr hrest)
      · rw [ih2 (fun h' => hrest (hiff.mp h')), togglePixel_V]
        rcases List.mem_cons.mp hq with h' | h'
        · subst h'
          simp [h]
        · exact absurd ⟨q, h', h⟩ hrest
    · intro hno
      have hrest : ¬ ∃ q ∈ ps, t.gfx q.1 q.2 = 1 := by
        rintro ⟨q, hq, h⟩
        exact hno ⟨q, List.mem_cons_of_mem _ hq, h⟩
      have hp1 : ¬ t.gfx p.1 p.2 = 1 := by
        intro h
        exact hno ⟨p, List.mem_cons_self _ _, h⟩
      rw [ih2 (fun h' => hrest (hiff.mp h')), togglePixel_V]
      simp [hp1]

theorem decode_DXYN : ∀ X < 16, ∀ Y < 16, ∀ N < 16,
    (0xD000 + 0x100 * X + 0x10 * Y + N) &&& 0xF000 = 0xD000 ∧
    ((0xD000 + 0x100 * X + 0x10 * Y + N) &&& 0x0F00) >>> 8 = X ∧
    ((0xD000 + 0x100 * X + 0x10 * Y + N) &&& 0x00F0) >>> 4 = Y ∧
    (0xD000 + 0x100 * X + 0x10 * Y + N) &&& 0x000F = N := by
  decide!

theorem emulate_DXYN (s : Chip8) (X Y N : Nat) (hX : X < 16) (hY : Y < 16) (hN : N < 16)
    (hf : fetch s = .ok (0xD000 + 0x100 * X + 0x10 * Y + N)) :
    emulate s =
      (drawSprite X Y N { s with opcode := 0xD000 + 0x100 * X + 0x10 * Y + N }).bind
        (fun s1 => .ok { s1 with drawFlag := 1, pc := toU16 (s1.pc + 2) }) := by
  obtain ⟨h1, h2, h3, h4⟩ := decode_DXYN X hX Y hY N hN
  simp [emulate, hf, h1, h2, h3, h4, bind, Except.bind, pure, Except.pure]

theorem drawPixel_inRange (X Y pixel r : Nat) (t : Chip8) (c : Nat)
    (hx : t.V X + c < 64) (hy : t.V Y + r < 32) :
    drawPixel X Y pixel r t c =
      .ok (if pixel &&& (0x80 >>> c) ≠ 0 then togglePixel t (t.V X + c, t.V Y + r) else t) := by
  have h1 : toU16 (t.V X + c) = t.V X + c := by unfold toU16; omega
  have h2 : toU16 (t.V Y + r) = t.V Y + r := by unfold toU16; omega
  unfold drawPixel
  by_cases hb : pixel &&& (0x80 >>> c) ≠ 0
  · rw [if_pos hb, if_pos hb]
    simp only [h1, h2]
    rw [if_pos ⟨hx, hy⟩]
    by_cases hg : t.gfx (t.V X + c) (t.V Y + r) = 1 <;> simp [togglePixel, hg, setV]
  · rw [if_neg hb, if_neg hb]

theorem foldlM_drawPixel (X Y pixel r vx vy : Nat) (hX : X ≠ 15) (hY : Y ≠ 15)
    (hy : vy + r < 32) : ∀ (cs : List Nat) (t : Chip8), (∀ c ∈ cs, vx + c < 64) →
    t.V X = vx → t.V Y = vy →
    cs.foldlM (drawPixel X Y pixel r) t = .ok ((rowCells vx vy pixel r cs).foldl togglePixel t) := by
  intro cs
  induction cs with
  | nil => intro t _ _ _; rfl
  | cons c cs ih =>
    intro t hcs hvx hvy
    have hc : t.V X + c < 64 := by rw [hvx]; exact hcs c (List.mem_cons_self _ _)
    have hr : t.V Y + r < 32 := by rw [hvy]; exact hy
    have hcs' : ∀ c' ∈ cs, vx + c' < 64 := fun c' h => hcs c' (List.mem_cons_of_mem _ h)
    rw [List.foldlM_cons, drawPixel_inRange X Y pixel r t c hc hr]
    by_cases hb : pixel &&& (0x80 >>> c) ≠ 0
    · have hrow : rowCells vx vy pixel r (c :: cs) = (vx + c, vy + r) :: rowCells vx vy pixel r cs := by
        simp [rowCells, hb]
      rw [if_pos hb, hrow, List.foldl_cons, hvx, hvy]
      have h1 : (togglePixel t (vx + c, vy + r)).V X = vx := by
        rw [togglePixel_V]; simp [hX, hvx]
      have h2 : (togglePixel t (vx + c, vy + r)).V Y = vy := by
        rw [togglePixel_V]; simp [hY, hvy]
      exact ih _ hcs' h1 h2
    · have hrow : rowCells vx vy pixel r (c :: cs) = rowCells vx vy pixel r cs := by
        simp [rowCells, hb]
      rw [if_neg hb, hrow]
      exact ih _ hcs' hvx hvy

theorem foldlM_drawRow (X Y vx vy I : Nat) (mem : Nat → Nat) (hX : X ≠ 15) (hY : Y ≠ 15)
    (hx : vx + 7 < 64) : ∀ (rs : List Nat) (t : Chip8),
    (∀ r ∈ rs, vy + r < 32 ∧ I + r < 4096) →
    t.V X = vx → t.V Y = vy → t.I = I → t.memory = mem →
    rs.foldlM (drawRow X Y) t = .ok ((spriteCells mem I vx vy rs).foldl togglePixel t) := by
  intro rs
  induction rs with
  | nil => intro t _ _ _ _ _; rfl
  | cons r rs ih =>
    intro t hrs hvx hvy hI hmem
    obtain ⟨hr1, hr2⟩ := hrs r (List.mem_cons_self _ _)
    have hrs' : ∀ r' ∈ rs, vy + r' < 32 ∧ I + r' < 4096 :=
      fun r' h => hrs r' (List.mem_cons_of_mem _ h)
    have hcols : ∀ c ∈ List.range 8, vx + c < 64 := by
      intro c hc
      have := List.mem_range.mp hc
      omega
    have hrow : drawRow X Y t r =
        .ok ((rowCells vx vy (mem (I + r)) r (List.range 8)).foldl togglePixel t) := by
      unfold drawRow readMem
      rw [hI, if_pos hr2, hmem]
      exact foldlM_drawPixel X Y (mem (I + r)) r vx vy hX hY hr1 (List.range 8) t hcols hvx hvy
    have hcells : spriteCells mem I vx vy (r :: rs) =
        rowCells vx vy (mem (I + r)) r (List.range 8) ++ spriteCells mem I vx vy rs := by
      simp [spriteCells]
    rw [List.foldlM_cons, hrow, hcells, List.foldl_append]
    obtain ⟨_, f2, _, _, _, _, f7, _⟩ :=
      foldl_toggle_frame (rowCells vx vy (mem (I + r)) r (List.range 8)) t
    exact ih _ hrs'
      ((foldl_toggle_V _ t X hX).trans hvx) ((foldl_toggle_V _ t Y hY).trans hvy)
      (f2.trans hI) (f7.trans hmem)

/-- In range and with `X, Y ≠ 0xF`, the loops of DXYN are the fold of `togglePixel` over
the target cells of the set sprite bits, started from the state with `VF = 0`. -/
theorem drawSprite_inRange (X Y N : Nat) (s : Chip8) (hX : X ≠ 15) (hY : Y ≠ 15)
    (hx : s.V X + 7 ≤ 63) (hy : s.V Y + N - 1 ≤ 31) (hI : s.I + N ≤ 4096) :
    drawSprite X Y N s = .ok
      ((spriteCells s.memory s.I (s.V X) (s.V Y) (List.range N)).foldl togglePixel (setV s 0xF 0)) := by
  unfold drawSprite
  apply foldlM_drawRow X Y (s.V X) (s.V Y) s.I s.memory hX hY (by omega)
  · intro r hr
    have := List.mem_range.mp hr
    omega
  · simp [setV, Function.update_apply, hX]
  · simp [setV, Function.update_apply, hY]
  · rfl
  · rfl

theorem bit_iff_testBit (p c : Nat) (hc : c < 8) :
    p &&& (0x80 >>> c) ≠ 0 ↔ p.testBit (7 - c) = true := by
  have h2 : (0x80 >>> c) = 2 ^ (7 - c) := by
    interval_cases c <;> rfl
  rw [h2, Nat.and_two_pow]
  cases p.testBit (7 - c) <;> simp

theorem mem_rowCells (vx vy pixel r : Nat) (cs : List Nat) (p : Nat × Nat) :
    p ∈ rowCells vx vy pixel r cs ↔
      ∃ c ∈ cs, pixel &&& (0x80 >>> c) ≠ 0 ∧ p = (vx + c, vy + r) := by
  unfold rowCells
  simp only [List.mem_map, List.mem_filter, decide_eq_true_eq]
  constructor
  · rintro ⟨c, ⟨hc, hb⟩, rfl⟩
    exact ⟨c, hc, hb, rfl⟩
  · rintro ⟨c, hc, hb, rfl⟩
    exact ⟨c, ⟨hc, hb⟩, rfl⟩

theorem mem_spriteCells (mem : Nat → Nat) (I vx vy : Nat) (rs : List Nat) (p : Nat × Nat) :
    p ∈ spriteCells mem I vx vy rs ↔
      ∃ r ∈ rs, ∃ c < 8, mem (I + r) &&& (0x80 >>> c) ≠ 0 ∧ p = (vx + c, vy + r) := by
  unfold spriteCells
  simp only [List.mem_flatMap, mem_rowCells, List.mem_range]

theorem nodup_rowCells (vx vy pixel r : Nat) (cs : List Nat) (h : cs.Nodup) :
    (rowCells vx vy pixel r cs).Nodup := by
  unfold rowCells
  apply List.Nodup.map _ (h.filter _)
  intro a b hab
  simp only [Prod.mk.injEq] at hab
  omega

theorem nodup_spriteCells (mem : Nat → Nat) (I vx vy : Nat) (rs : List Nat) (h : rs.Nodup) :
    (spriteCells mem I vx vy rs).Nodup := by
  unfold spriteCells
  rw [List.nodup_flatMap]
  refine ⟨fun r _ => nodup_rowCells vx vy _ r _ (List.nodup_range 8), ?_⟩
  refine List.Pairwise.imp ?_ h
  intro a b hab
  simp only [Function.onFun]
  rw [List.disjoint_left]
  intro p hp1 hp2
  obtain ⟨c1, _, _, h1⟩ := (mem_rowCells _ _ _ _ _ _).mp hp1
  obtain ⟨c2, _, _, h2⟩ := (mem_rowCells _ _ _ _ _ _).mp hp2
  rw [h1] at h2
  simp only [Prod.mk.injEq] at h2
  omega

theorem fetch_congr (s t : Chip8) (hpc : s.pc = t.pc) (hmem : s.memory = t.memory) :
    fetch s = fetch t := by
  unfold fetch readMem
  rw [hpc, hmem]

/-- DXYN in range with `X, Y ≤ 14`: the call returns, and the state it returns is
described cell by cell through the list of target cells of the set sprite bits. -/
theorem draw_spec (s : Chip8) (X Y N : Nat) (hX : X ≤ 14) (hY : Y ≤ 14) (hN : N < 16)
    (hf : fetch s = .ok (0xD000 + 0x100 * X + 0x10 * Y + N))
    (hx : s.V X + 7 ≤ 63) (hy : s.V Y + N - 1 ≤ 31) (hI : s.I + N ≤ 4096) :
    ∃ s', emulate s = .ok s' ∧
      (∀ x y, s'.gfx x y =
        if (x, y) ∈ spriteCells s.memory s.I (s.V X) (s.V Y) (List.range N)
        then s.gfx x y ^^^ 1 else s.gfx x y) ∧
      ((∃ p ∈ spriteCells s.memory s.I (s.V X) (s.V Y) (List.range N), s.gfx p.1 p.2 = 1) →
        s'.V 15 = 1) ∧
      ((¬ ∃ p ∈ spriteCells s.memory s.I (s.V X) (s.V Y) (List.range N), s.gfx p.1 p.2 = 1) →
        s'.V 15 = 0) ∧
      (∀ i, i ≠ 15 → s'.V i = s.V i) ∧
      s'.graphics = s.graphics ++ spriteCells s.memory s.I (s.V X) (s.V Y) (List.range N) ∧
      s'.I = s.I ∧ s'.memory = s.memory ∧ s'.pc = s.pc + 2 ∧ s'.drawFlag = 1 := by
  have hX15 : X ≠ 15 := by omega
  have hY15 : Y ≠ 15 := by omega
  have hp := toU16_pc_add hf 2 (by omega)
  have he := emulate_DXYN s X Y N (by omega) (by omega) hN hf
  have hd := drawSprite_inRange X Y N { s with opcode := 0xD000 + 0x100 * X + 0x10 * Y + N }
    hX15 hY15 hx hy hI
  rw [hd] at he
  change emulate s = .ok _ at he
  have hnd := nodup_spriteCells s.memory s.I (s.V X) (s.V Y) (List.range N) (List.nodup_range N)
  obtain ⟨_, f2, f3, _, _, _, f7, _, _, _, _, _, _, f14⟩ :=
    foldl_toggle_frame (spriteCells s.memory s.I (s.V X) (s.V Y) (List.range N))
      (setV { s with opcode := 0xD000 + 0x100 * X + 0x10 * Y + N } 0xF 0)
  obtain ⟨g1, g2⟩ :=
    foldl_toggle_flag (spriteCells s.memory s.I (s.V X) (s.V Y) (List.range N))
      (setV { s with opcode := 0xD000 + 0x100 * X + 0x10 * Y + N } 0xF 0) hnd
  refine ⟨_, he, ?_, ?_, ?_, ?_, ?_, ?_, ?_, ?_, ?_⟩
  · intro x y
    exact foldl_toggle_gfx _ _ hnd x y
  · exact g1
  · intro h
    exact (g2 h).trans (by simp [setV])
  · intro i hi
    exact (foldl_toggle_V _ _ i hi).trans (by simp [setV, Function.update_apply, hi])
  · exact f14
  · exact f2
  · exact f7
  · show toU16 (_ + 2) = s.pc + 2
    rw [f3]
    exact hp
  · rfl

/-! ## DXYN: the claims -/

theorem xor_one_xor_one (g : Nat) : (g ^^^ 1) ^^^ 1 = g := by
  rw [Nat.xor_assoc, Nat.xor_self, Nat.xor_zero]

theorem xor_one_ne (g : Nat) : g ^^^ 1 ≠ g := by
  intro h
  have h1 : (g ^^^ 1) ^^^ g = g ^^^ g := by rw [h]
  rw [Nat.xor_comm g 1, Nat.xor_assoc, Nat.xor_self, Nat.xor_zero] at h1
  exact absurd h1 (by decide)

theorem mem_spriteCells_offset (mem : Nat → Nat) (I vx vy N r c : Nat) (hr : r < N) (hc : c < 8) :
    (vx + c, vy + r) ∈ spriteCells mem I vx vy (List.range N) ↔
      (mem (I + r)).testBit (7 - c) = true := by
  rw [mem_spriteCells, ← bit_iff_testBit _ _ hc]
  constructor
  · rintro ⟨r', _, c', _, hb, heq⟩
    simp only [Prod.mk.injEq] at heq
    have h1 : c = c' := by omega
    have h2 : r = r' := by omega
    rw [h1, h2]
    exact hb
  · intro hb
    exact ⟨r, List.mem_range.mpr hr, c, hc, hb, rfl⟩

/-- C8 fails as stated for `X = 0xF`: with `VF = 5`, `V0 = 0`, sprite byte `0x80` and
`N = 1` on a blank framebuffer, every hypothesis of the claim holds and bit 7 of
`memory[I]` is set, yet the cell `(old VX + 0, old VY + 0) = (5, 0)` is still 0 after
DF01; the cell toggled is `(0, 0)`. -/
theorem C8_draw_from_flag_register :
    drawFromFlagState.V 0xF + 7 ≤ 63 ∧ drawFromFlagState.V 0 + 1 - 1 ≤ 31 ∧
    drawFromFlagState.I + 1 ≤ 4096 ∧
    (∀ x < 64, ∀ y < 32, drawFromFlagState.gfx x y = 0 ∨ drawFromFlagState.gfx x y = 1) ∧
    fetch drawFromFlagState = .ok (0xD000 + 0x100 * 0xF + 0x10 * 0 + 1) ∧
    (drawFromFlagState.memory (drawFromFlagState.I + 0)).testBit (7 - 0) = true ∧
    drawFromFlagState.gfx (drawFromFlagState.V 0xF + 0) (drawFromFlagState.V 0 + 0) = 0 ∧
    (emulate drawFromFlagState).toOption.map
      (fun t => (t.gfx (drawFromFlagState.V 0xF + 0) (drawFromFlagState.V 0 + 0), t.gfx 0 0))
      = some (0, 1) :=
  ⟨by decide, by decide, by decide, fun _ _ _ _ => Or.inl rfl, rfl, by decide, by decide,
    by decide⟩

/-- C8 as amended (`X, Y ≤ 14`): in range and on a binary framebuffer, DXYN toggles the cell
`(VX + c, VY + r)`, `r < N`, `c < 8`, exactly when bit `7 - c` of `memory[I + r]` is set,
leaves every other cell unchanged, sets `VF` to 1 if a toggled cell was 1 before and to 0
otherwise, sets `drawFlag`, leaves `I` and memory unchanged and advances `pc` by 2. -/
theorem C8_draw_toggles_sprite_cells (s : Chip8) (X Y N : Nat)
    (hX : X ≤ 14) (hY : Y ≤ 14) (hN : N < 16)
    (hf : fetch s = .ok (0xD000 + 0x100 * X + 0x10 * Y + N))
    (hx : s.V X + 7 ≤ 63) (hy : s.V Y + N - 1 ≤ 31) (hI : s.I + N ≤ 4096)
    (hbin : ∀ x < 64, ∀ y < 32, s.gfx x y = 0 ∨ s.gfx x y = 1) :
    ∃ s', emulate s = .ok s' ∧
      (∀ r < N, ∀ c < 8, s'.gfx (s.V X + c) (s.V Y + r) =
        if (s.memory (s.I + r)).testBit (7 - c) = true
        then 1 - s.gfx (s.V X + c) (s.V Y + r) else s.gfx (s.V X + c) (s.V Y + r)) ∧
      (∀ x y, (¬ ∃ r < N, ∃ c < 8, x = s.V X + c ∧ y = s.V Y + r) → s'.gfx x y = s.gfx x y) ∧
      ((∃ r < N, ∃ c < 8, (s.memory (s.I + r)).testBit (7 - c) = true ∧
          s.gfx (s.V X + c) (s.V Y + r) = 1) → s'.V 0xF = 1) ∧
      ((¬ ∃ r < N, ∃ c < 8, (s.memory (s.I + r)).testBit (7 - c) = true ∧
          s.gfx (s.V X + c) (s.V Y + r) = 1) → s'.V 0xF = 0) ∧
      s'.drawFlag = 1 ∧ s'.I = s.I ∧ s'.memory = s.memory ∧ s'.pc = s.pc + 2 := by
  obtain ⟨s', he, hg, hv1, hv0, _, _, hI', hm, hpc, hd⟩ := draw_spec s X Y N hX hY hN hf hx hy hI
  refine ⟨s', he, ?_, ?_, ?_, ?_, hd, hI', hm, hpc⟩
  · intro r hr c hc
    rw [hg, if_congr (mem_spriteCells_offset s.memory s.I (s.V X) (s.V Y) N r c hr hc) rfl rfl]
    by_cases hb : (s.memory (s.I + r)).testBit (7 - c) = true
    · rw [if_pos hb, if_pos hb]
      rcases hbin (s.V X + c) (by omega) (s.V Y + r) (by omega) with h | h <;> rw [h] <;> rfl
    · rw [if_neg hb, if_neg hb]
  · intro x y hno
    rw [hg, if_neg]
    intro hmem
    obtain ⟨r, hr, c, hc, _, heq⟩ := (mem_spriteCells _ _ _ _ _ _).mp hmem
    simp only [Prod.mk.injEq] at heq
    exact hno ⟨r, List.mem_range.mp hr, c, hc, heq.1, heq.2⟩
  · rintro ⟨r, hr, c, hc, hb, h1⟩
    exact hv1 ⟨(s.V X + c, s.V Y + r),
      (mem_spriteCells_offset s.memory s.I (s.V X) (s.V Y) N r c hr hc).mpr hb, h1⟩
  · intro hno
    apply hv0
    rintro ⟨p, hp, h1⟩
    obtain ⟨r, hr, c, hc, hb, heq⟩ := (mem_spriteCells _ _ _ _ _ _).mp hp
    rw [heq] at h1
    exact hno ⟨r, List.mem_range.mp hr, c, hc, (bit_iff_testBit _ _ hc).mp hb, h1⟩

/-- C8 as amended, at `V1 = 3`, `V2 = 4`, sprite `0xA0`, `0x40` (instruction `D122`). -/
theorem C8_draw_toggles_sprite_cells_witness :
    (fetch drawState = .ok (0xD000 + 0x100 * 1 + 0x10 * 2 + 2) ∧
      drawState.V 1 + 7 ≤ 63 ∧ drawState.V 2 + 2 - 1 ≤ 31 ∧ drawState.I + 2 ≤ 4096 ∧
      (∀ x < 64, ∀ y < 32, drawState.gfx x y = 0 ∨ drawState.gfx x y = 1)) ∧
    ∃ s', emulate drawState = .ok s' ∧
      (∀ r < 2, ∀ c < 8, s'.gfx (drawState.V 1 + c) (drawState.V 2 + r) =
        if (drawState.memory (drawState.I + r)).testBit (7 - c) = true
        then 1 - drawState.gfx (drawState.V 1 + c) (drawState.V 2 + r)
        else drawState.gfx (drawState.V 1 + c) (drawState.V 2 + r)) ∧
      (∀ x y, (¬ ∃ r < 2, ∃ c < 8, x = drawState.V 1 + c ∧ y = drawState.V 2 + r) →
        s'.gfx x y = drawState.gfx x y) ∧
      ((∃ r < 2, ∃ c < 8, (drawState.memory (drawState.I + r)).testBit (7 - c) = true ∧
          drawState.gfx (drawState.V 1 + c) (drawState.V 2 + r) = 1) → s'.V 0xF = 1) ∧
      ((¬ ∃ r < 2, ∃ c < 8, (drawState.memory (drawState.I + r)).testBit (7 - c) = true ∧
          drawState.gfx (drawState.V 1 + c) (drawState.V 2 + r) = 1) → s'.V 0xF = 0) ∧
      s'.drawFlag = 1 ∧ s'.I = drawState.I ∧ s'.memory = drawState.memory ∧
      s'.pc = drawState.pc + 2 :=
  ⟨⟨rfl, by decide, by decide, by decide, fun _ _ _ _ => Or.inl rfl⟩,
    C8_draw_toggles_sprite_cells drawState 1 2 2 (by decide) (by decide) (by decide) rfl
      (by decide) (by decide) (by decide) (fun _ _ _ _ => Or.inl rfl)⟩

/-- C9: in range and with `X, Y ≤ 14`, two consecutive executions of the same DXYN return,
and leave every framebuffer cell as it was before the first; if the first draw turned a
cell from 0 to 1 (in particular if the framebuffer was blank and the sprite has a set bit),
the second draw leaves `VF = 1`. -/
theorem C9_draw_twice_restores (s : Chip8) (X Y N : Nat)
    (hX : X ≤ 14) (hY : Y ≤ 14) (hN : N < 16)
    (hf : fetch s = .ok (0xD000 + 0x100 * X + 0x10 * Y + N))
    (hf2 : fetch { s with pc := s.pc + 2 } = .ok (0xD000 + 0x100 * X + 0x10 * Y + N))
    (hx : s.V X + 7 ≤ 63) (hy : s.V Y + N - 1 ≤ 31) (hI : s.I + N ≤ 4096) :
    ∃ s1 s2, emulate s = .ok s1 ∧ emulate s1 = .ok s2 ∧ emulateN 2 s = .ok s2 ∧
      (∀ x y, s2.gfx x y = s.gfx x y) ∧
      ((∃ x y, s.gfx x y = 0 ∧ s1.gfx x y = 1) → s2.V 0xF = 1) ∧
      ((∀ x y, s.gfx x y = 0) →
        (∃ r < N, ∃ c < 8, (s.memory (s.I + r)).testBit (7 - c) = true) → s2.V 0xF = 1) := by
  have hX15 : X ≠ 15 := by omega
  have hY15 : Y ≠ 15 := by omega
  obtain ⟨s1, he1, hg1, _, _, hV1, _, hI1, hm1, hpc1, _⟩ :=
    draw_spec s X Y N hX hY hN hf hx hy hI
  have hf1 : fetch s1 = .ok (0xD000 + 0x100 * X + 0x10 * Y + N) := by
    rw [fetch_congr s1 { s with pc := s.pc + 2 } hpc1 hm1]
    exact hf2
  obtain ⟨s2, he2, hg2, hv2, _, _, _, _, _, _, _⟩ :=
    draw_spec s1 X Y N hX hY hN hf1 (by rw [hV1 X hX15]; exact hx)
      (by rw [hV1 Y hY15]; exact hy) (by rw [hI1]; exact hI)
  rw [hm1, hI1, hV1 X hX15, hV1 Y hY15] at hg2 hv2
  have hon : (∃ x y, s.gfx x y = 0 ∧ s1.gfx x y = 1) → s2.V 0xF = 1 := by
    rintro ⟨x, y, h0, h1⟩
    apply hv2
    refine ⟨(x, y), ?_, h1⟩
    by_contra hno
    rw [hg1, if_neg hno, h0] at h1
    exact absurd h1 (by decide)
  refine ⟨s1, s2, he1, he2, ?_, ?_, hon, ?_⟩
  · simp [emulateN, he1, he2, bind, Except.bind]
  · intro x y
    rw [hg2, hg1]
    by_cases hmem : (x, y) ∈ spriteCells s.memory s.I (s.V X) (s.V Y) (List.range N)
    · rw [if_pos hmem, if_pos hmem, xor_one_xor_one]
    · rw [if_neg hmem, if_neg hmem]
  · rintro hblank ⟨r, hr, c, hc, hb⟩
    apply hon
    refine ⟨s.V X + c, s.V Y + r, hblank _ _, ?_⟩
    rw [hg1, if_pos ((mem_spriteCells_offset s.memory s.I (s.V X) (s.V Y) N r c hr hc).mpr hb),
      hblank]
    rfl

/-- C9 at a blank framebuffer with the instruction `D122` stored twice in a row. -/
theorem C9_draw_twice_restores_witness :
    (fetch drawTwiceState = .ok (0xD000 + 0x100 * 1 + 0x10 * 2 + 2) ∧
      fetch { drawTwiceState with pc := drawTwiceState.pc + 2 }
        = .ok (0xD000 + 0x100 * 1 + 0x10 * 2 + 2) ∧
      drawTwiceState.V 1 + 7 ≤ 63 ∧ drawTwiceState.V 2 + 2 - 1 ≤ 31 ∧
      drawTwiceState.I + 2 ≤ 4096) ∧
    ∃ s1 s2, emulate drawTwiceState = .ok s1 ∧ emulate s1 = .ok s2 ∧
      emulateN 2 drawTwiceState = .ok s2 ∧
      (∀ x y, s2.gfx x y = drawTwiceState.gfx x y) ∧
      ((∃ x y, drawTwiceState.gfx x y = 0 ∧ s1.gfx x y = 1) → s2.V 0xF = 1) ∧
      ((∀ x y, drawTwiceState.gfx x y = 0) →
        (∃ r < 2, ∃ c < 8,
          (drawTwiceState.memory (drawTwiceState.I + r)).testBit (7 - c) = true) →
        s2.V 0xF = 1) :=
  ⟨⟨rfl, rfl, by decide, by decide, by decide⟩,
    C9_draw_twice_restores drawTwiceState 1 2 2 (by decide) (by decide) (by decide) rfl rfl
      (by decide) (by decide) (by decide)⟩

theorem toggledCells_eq (s : Chip8) (X Y N : Nat) :
    toggledCells s X Y N = spriteCells s.memory s.I (s.V X) (s.V Y) (List.range N) := by
  unfold toggledCells spriteCells rowCells
  congr 1
  funext r
  congr 1
  apply List.filter_congr
  intro c hc
  have hc8 := List.mem_range.mp hc
  by_cases hb : (s.memory (s.I + r)).testBit (7 - c) = true
  · rw [hb]
    exact (decide_eq_true ((bit_iff_testBit _ _ hc8).mpr hb)).symm
  · have hb' : ¬ (s.memory (s.I + r) &&& (0x80 >>> c) ≠ 0) :=
      fun h => hb ((bit_iff_testBit _ _ hc8).mp h)
    rw [Bool.not_eq_true] at hb
    rw [hb]
    exact (decide_eq_false hb').symm

theorem length_toggledCells (s : Chip8) (X Y N : Nat) :
    (toggledCells s X Y N).length = setBits s N := by
  unfold toggledCells setBits
  rw [List.length_flatMap]
  simp [Function.comp_def]

/-- C10: in range and with `X, Y ≤ 14`, DXYN returns with the change log extended by the
coordinates `(VX + c, VY + r)` of the set sprite bits in scan order; these are exactly the
cells whose value changed, each listed once, and their number is the number of set bits of
`memory[I .. I + N)`. -/
theorem C10_draw_appends_toggles (s : Chip8) (X Y N : Nat)
    (hX : X ≤ 14) (hY : Y ≤ 14) (hN : N < 16)
    (hf : fetch s = .ok (0xD000 + 0x100 * X + 0x10 * Y + N))
    (hx : s.V X + 7 ≤ 63) (hy : s.V Y + N - 1 ≤ 31) (hI : s.I + N ≤ 4096) :
    ∃ s', emulate s = .ok s' ∧
      s'.graphics = s.graphics ++ toggledCells s X Y N ∧
      (∀ x y, (x, y) ∈ toggledCells s X Y N ↔ s'.gfx x y ≠ s.gfx x y) ∧
      (toggledCells s X Y N).Nodup ∧
      s'.graphics.length = s.graphics.length + setBits s N := by
  obtain ⟨s', he, hg, _, _, _, hlog, _, _, _, _⟩ := draw_spec s X Y N hX hY hN hf hx hy hI
  rw [← toggledCells_eq s X Y N] at hg hlog
  refine ⟨s', he, hlog, ?_, ?_, ?_⟩
  · intro x y
    rw [hg]
    by_cases hmem : (x, y) ∈ toggledCells s X Y N
    · rw [if_pos hmem]
      exact ⟨fun _ => xor_one_ne _, fun _ => hmem⟩
    · rw [if_neg hmem]
      exact ⟨fun h => absurd h hmem, fun h => absurd rfl h⟩
  · rw [toggledCells_eq]
    exact nodup_spriteCells _ _ _ _ _ (List.nodup_range N)
  · rw [hlog, List.length_append, length_toggledCells]

/-- C10 at `V1 = 3`, `V2 = 4`, sprite `0xA0`, `0x40`: the log `[(9, 9)]` becomes
`[(9, 9), (3, 4), (5, 4), (4, 5)]`. -/
theorem C10_draw_appends_toggles_witness :
    (fetch drawLogState = .ok (0xD000 + 0x100 * 1 + 0x10 * 2 + 2) ∧
      drawLogState.V 1 + 7 ≤ 63 ∧ drawLogState.V 2 + 2 - 1 ≤ 31 ∧ drawLogState.I + 2 ≤ 4096) ∧
    (∃ s', emulate drawLogState = .ok s' ∧
      s'.graphics = drawLogState.graphics ++ toggledCells drawLogState 1 2 2 ∧
      (∀ x y, (x, y) ∈ toggledCells drawLogState 1 2 2 ↔ s'.gfx x y ≠ drawLogState.gfx x y) ∧
      (toggledCells drawLogState 1 2 2).Nodup ∧
      s'.graphics.length = drawLogState.graphics.length + setBits drawLogState 2) ∧
    drawLogState.graphics ++ toggledCells drawLogState 1 2 2 = [(9, 9), (3, 4), (5, 4), (4, 5)] ∧
    setBits drawLogState 2 = 3 :=
  ⟨⟨rfl, by decide, by decide, by decide⟩,
    C10_draw_appends_toggles drawLogState 1 2 2 (by decide) (by decide) (by decide) rfl
      (by decide) (by decide) (by decide),
    by decide, by decide⟩

/-! ## 00E0: clear the screen -/

theorem clearRow_spec (i : Nat) (g : Nat → Nat → Nat) (m x y : Nat) :
    ((List.range m).foldl (fun g j => Function.update g i (Function.update (g i) j 0)) g) x y =
      if x = i ∧ y < m then 0 else g x y := by
  induction m with
  | zero => simp
  | succ m ih =>
    rw [List.range_succ m, List.foldl_append]
    simp only [List.foldl_cons, List.foldl_nil]
    by_cases hx : x = i
    · subst hx
      rw [Function.update_same]
      by_cases hy : y = m
      · subst hy; simp
      · rw [Function.update_noteq hy, ih]
        have : y < m + 1 ↔ y < m :=
          ⟨fun h => lt_of_le_of_ne (Nat.lt_succ_iff.mp h) hy, fun h => Nat.lt_succ_of_lt h⟩
        simp [this]
    · rw [Function.update_noteq hx, ih]
      simp [hx]

theorem clearGfx_upTo (g : Nat → Nat → Nat) (n x y : Nat) :
    ((List.range n).foldl
      (fun g i => (List.range 32).foldl
        (fun g j => Function.update g i (Function.update (g i) j 0)) g) g) x y =
      if x < n ∧ y < 32 then 0 else g x y := by
  induction n with
  | zero => simp
  | succ n ih =>
    rw [List.range_succ n, List.foldl_append]
    simp only [List.foldl_cons, List.foldl_nil]
    rw [clearRow_spec, ih]
    by_cases hx : x = n
    · subst hx
      by_cases hy : y < 32 <;> simp [hy]
    · have : x < n + 1 ↔ x < n :=
        ⟨fun h => lt_of_le_of_ne (Nat.lt_succ_iff.mp h) hx, fun h => Nat.lt_succ_of_lt h⟩
      simp [hx, this]

theorem clearGfx_spec (g : Nat → Nat → Nat) (x y : Nat) :
    clearGfx g x y = if x < 64 ∧ y < 32 then 0 else g x y :=
  clearGfx_upTo g 64 x y

theorem emulate_00E0 (s : Chip8) (hf : fetch s = .ok 0x00E0) :
    emulate s = .ok { s with opcode := 0x00E0, gfx := clearGfx s.gfx, clearScreen := true,
                             pc := s.pc + 2 } := by
  have hp := toU16_pc_add hf 2 (by omega)
  simp [emulate, hf, hp, bind, Except.bind]

/-- C11 fails as stated: 00E0 on a state whose change log holds `(1, 1)` returns a state
whose change log still holds `(1, 1)`. -/
theorem C11_clear_keeps_change_log :
    clearLogState.graphics = [(1, 1)] ∧
    (emulate clearLogState).toOption.map (fun t => t.graphics) = some [(1, 1)] := by
  decide

/-- C11 as amended: 00E0 returns with every cell of the 64x32 framebuffer 0 and the
clear-requested flag set, leaves the change log, the registers, `I`, memory and the stack
unchanged, and advances `pc` by 2. -/
theorem C11_clear_screen (s : Chip8) (hf : fetch s = .ok 0x00E0) :
    ∃ s', emulate s = .ok s' ∧
      (∀ x < 64, ∀ y < 32, s'.gfx x y = 0) ∧
      s'.clearScreen = true ∧ s'.graphics = s.graphics ∧
      s'.V = s.V ∧ s'.I = s.I ∧ s'.memory = s.memory ∧ s'.stack = s.stack ∧
      s'.pc = s.pc + 2 := by
  refine ⟨_, emulate_00E0 s hf, ?_, rfl, rfl, rfl, rfl, rfl, rfl, rfl⟩
  intro x hx y hy
  show clearGfx s.gfx x y = 0
  rw [clearGfx_spec, if_pos ⟨hx, hy⟩]

/-- C11 as amended, at a state with a lit pixel and a logged change. -/
theorem C11_clear_screen_witness :
    fetch clearLogState = .ok 0x00E0 ∧
    ∃ s', emulate clearLogState = .ok s' ∧
      (∀ x < 64, ∀ y < 32, s'.gfx x y = 0) ∧
      s'.clearScreen = true ∧ s'.graphics = clearLogState.graphics ∧
      s'.V = clearLogState.V ∧ s'.I = clearLogState.I ∧ s'.memory = clearLogState.memory ∧
      s'.stack = clearLogState.stack ∧ s'.pc = clearLogState.pc + 2 :=
  ⟨rfl, C11_clear_screen clearLogState rfl⟩

/-! ## timerTick -/

theorem toU8_pred (d : Nat) (h0 : d > 0) (h : d < 256) : toU8 ((d : Int) - 1) = d - 1 := by
  have h1 := toU8_cast ((d : Int) - 1)
  omega

/-- C12: with 8-bit timer values, `timerTick` takes each timer to its value minus 1 when it
was above 0 and leaves it at 0 when it was 0, independently of the other timer; no other
field of the state changes. -/
theorem C12_timer_tick_floors_at_zero (s : Chip8)
    (hd : s.delay_timer < 256) (hs : s.sound_timer < 256) :
    (timerTick s).delay_timer = (if s.delay_timer > 0 then s.delay_timer - 1 else 0) ∧
    (timerTick s).sound_timer = (if s.sound_timer > 0 then s.sound_timer - 1 else 0) ∧
    timerTick s = { s with delay_timer := (timerTick s).delay_timer,
                           sound_timer := (timerTick s).sound_timer } := by
  by_cases h1 : s.delay_timer > 0 <;> by_cases h2 : s.sound_timer > 0
  · simp [timerTick, h1, h2, toU8_pred _ h1 hd, toU8_pred _ h2 hs]
  · have h2' : s.sound_timer = 0 := by omega
    simp [timerTick, h1, h2', toU8_pred _ h1 hd]
  · have h1' : s.delay_timer = 0 := by omega
    simp [timerTick, h1', h2, toU8_pred _ h2 hs]
  · have h1' : s.delay_timer = 0 := by omega
    have h2' : s.sound_timer = 0 := by omega
    cases s
    simp only at h1' h2'
    subst h1' h2'
    simp [timerTick]

/-- C12 at delay timer 0 and sound timer 5: the result is 0 and 4. -/
theorem C12_timer_tick_floors_at_zero_witness :
    (timerState.delay_timer < 256 ∧ timerState.sound_timer < 256) ∧
    ((timerTick timerState).delay_timer
        = (if timerState.delay_timer > 0 then timerState.delay_timer - 1 else 0) ∧
      (timerTick timerState).sound_timer
        = (if timerState.sound_timer > 0 then timerState.sound_timer - 1 else 0) ∧
      timerTick timerState = { timerState with
        delay_timer := (timerTick timerState).delay_timer
        sound_timer := (timerTick timerState).sound_timer }) ∧
    ((timerTick timerState).delay_timer, (timerTick timerState).sound_timer) = (0, 4) :=
  ⟨⟨by decide, by decide⟩,
    C12_timer_tick_floors_at_zero timerState (by decide) (by decide), by decide⟩

/-! ## Words outside the opcode table -/

theorem decode_0NNN_bytes : ∀ a < 16, ∀ b < 256, (0x100 * a + b) &&& 0xF000 = 0 := by
  decide!

theorem decode_0NNN (NNN : Nat) (h : NNN < 4096) : NNN &&& 0xF000 = 0 := by
  have h1 := decode_0NNN_bytes (NNN / 256) (by omega) (NNN % 256) (by omega)
  have h2 : 0x100 * (NNN / 256) + NNN % 256 = NNN := by omega
  rw [h2] at h1
  exact h1

theorem decode_EXNN : ∀ X < 16, ∀ NN < 256,
    (0xE000 + 0x100 * X + NN) &&& 0xF000 = 0xE000 ∧
    ((0xE000 + 0x100 * X + NN) &&& 0x0F00) >>> 8 = X ∧
    (0xE000 + 0x100 * X + NN) &&& 0x00FF = NN := by
  decide!

theorem decode_5XYN : ∀ X < 16, ∀ Y < 16, ∀ N < 16,
    (0x5000 + 0x100 * X + 0x10 * Y + N) &&& 0xF000 = 0x5000 ∧
    ((0x5000 + 0x100 * X + 0x10 * Y + N) &&& 0x0F00) >>> 8 = X ∧
    ((0x5000 + 0x100 * X + 0x10 * Y + N) &&& 0x00F0) >>> 4 = Y := by
  decide!

theorem decode_9XYN : ∀ X < 16, ∀ Y < 16, ∀ N < 16,
    (0x9000 + 0x100 * X + 0x10 * Y + N) &&& 0xF000 = 0x9000 ∧
    ((0x9000 + 0x100 * X + 0x10 * Y + N) &&& 0x0F00) >>> 8 = X ∧
    ((0x9000 + 0x100 * X + 0x10 * Y + N) &&& 0x00F0) >>> 4 = Y := by
  decide!

theorem emulate_0NNN_unknown (s : Chip8) (NNN : Nat) (h : NNN < 4096)
    (hE0 : NNN ≠ 0xE0) (hEE : NNN ≠ 0xEE) (hf : fetch s = .ok NNN) :
    emulate s = .error (.unknownOpcode NNN) := by
  have h0 := decode_0NNN NNN h
  simp [emulate, hf, h0, bind, Except.bind]

theorem emulate_8XYN_unknown (s : Chip8) (X Y N : Nat) (hX : X < 16) (hY : Y < 16)
    (hN : (8 ≤ N ∧ N ≤ 0xD) ∨ N = 0xF)
    (hf : fetch s = .ok (0x8000 + 0x100 * X + 0x10 * Y + N)) :
    emulate s = .error (.unknownOpcode (0x8000 + 0x100 * X + 0x10 * Y + N)) := by
  have hN16 : N < 16 := by omega
  obtain ⟨h1, h2, h3, h4⟩ := decode_8XYN X hX Y hY N hN16
  have hcases : N = 8 ∨ N = 9 ∨ N = 10 ∨ N = 11 ∨ N = 12 ∨ N = 13 ∨ N = 15 := by omega
  rcases hcases with h | h | h | h | h | h | h <;> subst h <;>
    simp [emulate, hf, h1, h4, bind, Except.bind]

theorem emulate_EXNN_unknown (s : Chip8) (X NN : Nat) (hX : X < 16) (hNN : NN < 256)
    (h9E : NN ≠ 0x9E) (hA1 : NN ≠ 0xA1)
    (hf : fetch s = .ok (0xE000 + 0x100 * X + NN)) :
    emulate s = .error (.unknownOpcode (0xE000 + 0x100 * X + NN)) := by
  obtain ⟨h1, h2, h3⟩ := decode_EXNN X hX NN hNN
  simp [emulate, hf, h1, h2, h3, bind, Except.bind]

theorem emulate_5XYN (s : Chip8) (X Y N : Nat) (hX : X < 16) (hY : Y < 16) (hN : N < 16)
    (hf : fetch s = .ok (0x5000 + 0x100 * X + 0x10 * Y + N)) :
    emulate s = .ok { s with opcode := 0x5000 + 0x100 * X + 0x10 * Y + N,
                             pc := s.pc + (if s.V X = s.V Y then 4 else 2) } := by
  obtain ⟨h1, h2, h3⟩ := decode_5XYN X hX Y hY N hN
  have hp2 := toU16_pc_add hf 2 (by omega)
  have hp4 := toU16_pc_add hf 4 (by omega)
  by_cases hc : s.V X = s.V Y <;>
    simp [emulate, hf, h1, h2, h3, hp2, hp4, bind, Except.bind, hc]

theorem emulate_9XYN (s : Chip8) (X Y N : Nat) (hX : X < 16) (hY : Y < 16) (hN : N < 16)
    (hf : fetch s = .ok (0x9000 + 0x100 * X + 0x10 * Y + N)) :
    emulate s = .ok { s with opcode := 0x9000 + 0x100 * X + 0x10 * Y + N,
                             pc := s.pc + (if s.V X ≠ s.V Y then 4 else 2) } := by
  obtain ⟨h1, h2, h3⟩ := decode_9XYN X hX Y hY N hN
  have hp2 := toU16_pc_add hf 2 (by omega)
  have hp4 := toU16_pc_add hf 4 (by omega)
  by_cases hc : s.V X = s.V Y <;>
    simp [emulate, hf, h1, h2, h3, hp2, hp4, bind, Except.bind, hc]

/-- C13 fails as stated: the word `5121` (a 5XYN with `N = 1`) is executed as the skip
5XY0 (`V1 = V2`, so `pc` goes from `0x200` to `0x204`), the word `9121` as the skip 9XY0
(`pc` goes to `0x202`), and the word `F0FF` returns normally with `pc` still `0x200`;
none of the three calls ends in a failure. -/
theorem C13_words_outside_table_accepted :
    (fetch wordState5 = .ok 0x5121 ∧
      (emulate wordState5).toOption.map (fun t => t.pc) = some 0x204) ∧
    (fetch wordState9 = .ok 0x9121 ∧
      (emulate wordState9).toOption.map (fun t => t.pc) = some 0x202) ∧
    (fetch wordStateF = .ok 0xF0FF ∧
      (emulate wordStateF).toOption.map (fun t => t.pc) = some 0x200) :=
  ⟨⟨rfl, by decide⟩, ⟨rfl, by decide⟩, ⟨rfl, by decide⟩⟩

/-- C13 as amended: a word 0NNN other than 00E0 and 00EE, a word 8XYN with `N` in
`{8, ..., 0xD, 0xF}` and a word EXNN with `NN` not in `{0x9E, 0xA1}` end `emulate` in the
unknown-opcode failure carrying that word; a word 5XYN or 9XYN is decoded on its top nibble
alone and executed as 5XY0 or 9XY0 whatever `N` is. -/
theorem C13_unknown_opcode_families (s : Chip8) :
    (∀ NNN < 4096, NNN ≠ 0xE0 → NNN ≠ 0xEE → fetch s = .ok NNN →
      emulate s = .error (.unknownOpcode NNN)) ∧
    (∀ X < 16, ∀ Y < 16, ∀ N, ((8 ≤ N ∧ N ≤ 0xD) ∨ N = 0xF) →
      fetch s = .ok (0x8000 + 0x100 * X + 0x10 * Y + N) →
      emulate s = .error (.unknownOpcode (0x8000 + 0x100 * X + 0x10 * Y + N))) ∧
    (∀ X < 16, ∀ NN < 256, NN ≠ 0x9E → NN ≠ 0xA1 →
      fetch s = .ok (0xE000 + 0x100 * X + NN) →
      emulate s = .error (.unknownOpcode (0xE000 + 0x100 * X + NN))) ∧
    (∀ X < 16, ∀ Y < 16, ∀ N < 16,
      fetch s = .ok (0x5000 + 0x100 * X + 0x10 * Y + N) →
      ∃ s', emulate s = .ok s' ∧ s'.pc = s.pc + (if s.V X = s.V Y then 4 else 2)) ∧
    (∀ X < 16, ∀ Y < 16, ∀ N < 16,
      fetch s = .ok (0x9000 + 0x100 * X + 0x10 * Y + N) →
      ∃ s', emulate s = .ok s' ∧ s'.pc = s.pc + (if s.V X ≠ s.V Y then 4 else 2)) :=
  ⟨fun NNN h hE0 hEE hf => emulate_0NNN_unknown s NNN h hE0 hEE hf,
   fun X hX Y hY N hN hf => emulate_8XYN_unknown s X Y N hX hY hN hf,
   fun X hX NN hNN h9E hA1 hf => emulate_EXNN_unknown s X NN hX hNN h9E hA1 hf,
   fun X hX Y hY N hN hf => ⟨_, emulate_5XYN s X Y N hX hY hN hf, rfl⟩,
   fun X hX Y hY N hN hf => ⟨_, emulate_9XYN s X Y N hX hY hN hf, rfl⟩⟩

/-- C13 as amended, at the words `0123`, `8128`, `E1FF`, `5121` and `9121`. -/
theorem C13_unknown_opcode_families_witness :
    (fetch wordState0 = .ok 0x0123 ∧ emulate wordState0 = .error (.unknownOpcode 0x0123)) ∧
    (fetch wordState8 = .ok (0x8000 + 0x100 * 1 + 0x10 * 2 + 8) ∧
      emulate wordState8 = .error (.unknownOpcode (0x8000 + 0x100 * 1 + 0x10 * 2 + 8))) ∧
    (fetch wordStateE = .ok (0xE000 + 0x100 * 1 + 0xFF) ∧
      emulate wordStateE = .error (.unknownOpcode (0xE000 + 0x100 * 1 + 0xFF))) ∧
    (fetch wordState5 = .ok (0x5000 + 0x100 * 1 + 0x10 * 2 + 1) ∧
      ∃ s', emulate wordState5 = .ok s' ∧
        s'.pc = wordState5.pc + (if wordState5.V 1 = wordState5.V 2 then 4 else 2)) ∧
    (fetch wordState9 = .ok (0x9000 + 0x100 * 1 + 0x10 * 2 + 1) ∧
      ∃ s', emulate wordState9 = .ok s' ∧
        s'.pc = wordState9.pc + (if wordState9.V 1 ≠ wordState9.V 2 then 4 else 2)) :=
  ⟨⟨rfl, (C13_unknown_opcode_families wordState0).1 0x0123 (by decide) (by decide)
      (by decide) rfl⟩,
   ⟨rfl, (C13_unknown_opcode_families wordState8).2.1 1 (by decide) 2 (by decide) 8
      (Or.inl ⟨by decide, by decide⟩) rfl⟩,
   ⟨rfl, (C13_unknown_opcode_families wordStateE).2.2.1 1 (by decide) 0xFF (by decide)
      (by decide) (by decide) rfl⟩,
   ⟨rfl, (C13_unknown_opcode_families wordState5).2.2.2.1 1 (by decide) 2 (by decide) 1
      (by decide) rfl⟩,
   ⟨rfl, (C13_unknown_opcode_families wordState9).2.2.2.2 1 (by decide) 2 (by decide) 1
      (by decide) rfl⟩⟩

/-! ## init -/

theorem clearRegs_upTo (s : Chip8) (n : Nat) :
    (List.range n).foldl
      (fun t i => { t with stack := Function.update t.stack i 0, V := Function.update t.V i 0 }) s =
    { s with stack := fun a => if a < n then 0 else s.stack a,
             V := fun a => if a < n then 0 else s.V a } := by
  induction n with
  | zero => simp
  | succ n ih =>
    rw [List.range_succ n, List.foldl_append, ih]
    simp only [List.foldl_cons, List.foldl_nil, Chip8.mk.injEq, true_and, and_true]
    constructor <;>
    · funext a
      by_cases ha : a = n
      · subst ha; simp
      · have : a < n + 1 ↔ a < n :=
          ⟨fun h => lt_of_le_of_ne (Nat.lt_succ_iff.mp h) ha, fun h => Nat.lt_succ_of_lt h⟩
        simp [Function.update_noteq ha, this]

theorem clearMem_upTo (s : Chip8) (n : Nat) :
    (List.range n).foldl (fun t i => { t with memory := Function.update t.memory i 0 }) s =
    { s with memory := fun a => if a < n then 0 else s.memory a } := by
  induction n with
  | zero => simp
  | succ n ih =>
    rw [List.range_succ n, List.foldl_append, ih]
    simp only [List.foldl_cons, List.foldl_nil, Chip8.mk.injEq, true_and, and_true]
    funext a
    by_cases ha : a = n
    · subst ha; simp
    · have : a < n + 1 ↔ a < n :=
        ⟨fun h => lt_of_le_of_ne (Nat.lt_succ_iff.mp h) ha, fun h => Nat.lt_succ_of_lt h⟩
      simp [Function.update_noteq ha, this]

theorem loadFont_upTo (s : Chip8) (n : Nat) :
    (List.range n).foldl
      (fun t i => { t with memory := Function.update t.memory (0x050 + i) (fontset.getD i 0) }) s =
    { s with memory := fun a =>
        if 0x050 ≤ a ∧ a < 0x050 + n then fontset.getD (a - 0x050) 0 else s.memory a } := by
  induction n with
  | zero =>
    have h : (fun a => if 0x050 ≤ a ∧ a < 0x050 + 0 then fontset.getD (a - 0x050) 0
        else s.memory a) = s.memory := by
      funext a
      have : ¬ (0x050 ≤ a ∧ a < 0x050 + 0) := fun h => absurd h.2 (Nat.not_lt.mpr h.1)
      rw [if_neg this]
    simp only [List.range_zero, List.foldl_nil]
    rw [h]
  | succ n ih =>
    rw [List.range_succ n, List.foldl_append, ih]
    simp only [List.foldl_cons, List.foldl_nil, Chip8.mk.injEq, true_and, and_true]
    clear ih
    funext a
    by_cases ha : a = 0x050 + n
    · subst ha
      have h1 : 0x050 ≤ 0x050 + n ∧ 0x050 + n < 0x050 + (n + 1) := by omega
      rw [Function.update_same, if_pos h1, Nat.add_sub_cancel_left]
    · rw [Function.update_noteq ha]
      have : (0x050 ≤ a ∧ a < 0x050 + (n + 1)) ↔ (0x050 ≤ a ∧ a < 0x050 + n) := by omega
      rw [if_congr this rfl rfl]

/-- The state returned by `init`, field by field. -/
theorem init_eq (s : Chip8) :
    init s =
      { s with
        pc := 0x200
        sp := 0
        I := 0
        opcode := 0
        drawFlag := 0
        gfx := clearGfx s.gfx
        stack := fun a => if a < 16 then 0 else s.stack a
        V := fun a => if a < 16 then 0 else s.V a
        memory := fun a =>
          if 0x050 ≤ a ∧ a < 0x050 + 80 then fontset.getD (a - 0x050) 0
          else if a < 4096 then 0 else s.memory a } := by
  unfold init
  simp only [clearRegs_upTo, clearMem_upTo, loadFont_upTo]

theorem init_fields (s : Chip8) :
    (init s).pc = 0x200 ∧ (init s).sp = 0 ∧ (init s).I = 0 ∧ (init s).drawFlag = 0 ∧
    (init s).opcode = 0 := by
  rw [init_eq]
  exact ⟨rfl, rfl, rfl, rfl, rfl⟩

theorem init_regs (s : Chip8) (i : Nat) (hi : i < 16) :
    (init s).V i = 0 ∧ (init s).stack i = 0 := by
  rw [init_eq]
  constructor
  · show (if i < 16 then 0 else s.V i) = 0
    rw [if_pos hi]
  · show (if i < 16 then 0 else s.stack i) = 0
    rw [if_pos hi]

theorem init_gfx (s : Chip8) (x y : Nat) (hx : x < 64) (hy : y < 32) : (init s).gfx x y = 0 := by
  rw [init_eq]
  show clearGfx s.gfx x y = 0
  rw [clearGfx_spec, if_pos ⟨hx, hy⟩]

theorem init_memory_font (s : Chip8) (i : Nat) (hi : i < 80) :
    (init s).memory (0x050 + i) = fontset.getD i 0 := by
  rw [init_eq]
  show (if 0x050 ≤ 0x050 + i ∧ 0x050 + i < 0x050 + 80 then fontset.getD (0x050 + i - 0x050) 0
    else if 0x050 + i < 4096 then 0 else s.memory (0x050 + i)) = fontset.getD i 0
  rw [if_pos ⟨by omega, by omega⟩, Nat.add_sub_cancel_left]

theorem init_memory_zero (s : Chip8) (a : Nat) (ha : a < 4096) (hout : a < 0x050 ∨ 0x0A0 ≤ a) :
    (init s).memory a = 0 := by
  rw [init_eq]
  show (if 0x050 ≤ a ∧ a < 0x050 + 80 then fontset.getD (a - 0x050) 0
    else if a < 4096 then 0 else s.memory a) = 0
  rw [if_neg (by omega), if_pos ha]

/-- C15: from any state, `init` returns a state with `pc = 0x200`, `sp = 0`, `I = 0`, the
16 registers and the 16 stack slots 0, the 64x32 framebuffer cells 0, `drawFlag` false, the
80 font bytes at `0x050 ..`, and every other memory byte below 4096 equal to 0. -/
theorem C15_init_reset_state (s : Chip8) :
    (init s).pc = 0x200 ∧ (init s).sp = 0 ∧ (init s).I = 0 ∧
    (∀ i < 16, (init s).V i = 0) ∧ (∀ i < 16, (init s).stack i = 0) ∧
    (∀ x < 64, ∀ y < 32, (init s).gfx x y = 0) ∧ (init s).drawFlag = 0 ∧
    (∀ i < 80, (init s).memory (0x050 + i) = fontset.getD i 0) ∧
    (∀ a < 4096, (a < 0x050 ∨ 0x0A0 ≤ a) → (init s).memory a = 0) :=
  ⟨(init_fields s).1, (init_fields s).2.1, (init_fields s).2.2.1,
    fun i hi => (init_regs s i hi).1, fun i hi => (init_regs s i hi).2,
    fun x hx y hy => init_gfx s x y hx hy, (init_fields s).2.2.2.1,
    fun i hi => init_memory_font s i hi, fun a ha hout => init_memory_zero s a ha hout⟩

/-- C16 fails as stated: `init` on a state with delay timer 7, sound timer 3, key 2 pressed,
the clear flag set and one logged change returns a state with exactly these values. -/
theorem C16_init_keeps_timers_keys_log :
    (init dirtyState).delay_timer = 7 ∧ (init dirtyState).sound_timer = 3 ∧
    (init dirtyState).key 2 = 1 ∧ (init dirtyState).clearScreen = true ∧
    (init dirtyState).graphics = [(1, 1)] := by
  rw [init_eq]
  decide

/-- C16 as amended: `init` does not touch the delay timer, the sound timer, the keys, the
clear-requested flag or the change log; each has the value it had before the call. -/
theorem C16_init_leaves_timers_keys_log (s : Chip8) :
    (init s).delay_timer = s.delay_timer ∧ (init s).sound_timer = s.sound_timer ∧
    (init s).key = s.key ∧ (init s).clearScreen = s.clearScreen ∧
    (init s).graphics = s.graphics := by
  rw [init_eq]
  exact ⟨rfl, rfl, rfl, rfl, rfl⟩

theorem emulate_FX29 (s : Chip8) (X : Nat) (hX : X < 16)
    (hf : fetch s = .ok (0xF000 + 0x100 * X + 0x29)) :
    emulate s = .ok { s with opcode := 0xF000 + 0x100 * X + 0x29, I := toU16 (s.V X * 5),
                             pc := s.pc + 2 } := by
  obtain ⟨h1, h2, h3⟩ := decode_FXNN X hX 0x29 (by decide)
  have hp := toU16_pc_add hf 2 (by omega)
  simp [emulate, hf, h1, h2, h3, hp, bind, Except.bind]

/-- FX29 on a state `t` with `pc = 0x200` and zero bytes below `0x050`, after `VX = d` and
the instruction word are stored: `I = 5 * d`, and `memory[I .. I + 4]` are 0. -/
theorem fx29_below_font (t : Chip8) (X d : Nat) (hX : X < 16) (hd : d < 16)
    (hpc : t.pc = 0x200) (hzero : ∀ a < 0x050, t.memory a = 0) :
    fetch (withInstr (setV t X d) (0xF000 + 0x100 * X + 0x29))
      = .ok (0xF000 + 0x100 * X + 0x29) ∧
    ∃ s', emulate (withInstr (setV t X d) (0xF000 + 0x100 * X + 0x29)) = .ok s' ∧
      s'.I = 5 * d ∧ s'.pc = 0x202 ∧ ∀ k < 5, s'.memory (s'.I + k) = 0 := by
  have hfetch : fetch (withInstr (setV t X d) (0xF000 + 0x100 * X + 0x29))
      = .ok (0xF000 + 0x100 * X + 0x29) := by
    have hbytes : ∀ X < 16, toU16 (((0xF000 + 0x100 * X + 0x29) >>> 8) <<< 8 |||
        ((0xF000 + 0x100 * X + 0x29) &&& 0xFF)) = 0xF000 + 0x100 * X + 0x29 := by
      decide
    simp [fetch, readMem, withInstr, setV, hpc, bind, Except.bind, pure, Except.pure,
      hbytes X hX]
  have h5 : toU16 (d * 5) = 5 * d := by unfold toU16; omega
  refine ⟨hfetch, _, emulate_FX29 _ X hX hfetch, ?_, ?_, ?_⟩
  · show toU16 (Function.update t.V X d X * 5) = 5 * d
    rw [Function.update_same, h5]
  · show t.pc + 2 = 0x202
    rw [hpc]
  · intro k hk
    show Function.update (Function.update t.memory t.pc _) (t.pc + 1) _
      (toU16 (Function.update t.V X d X * 5) + k) = 0
    rw [Function.update_same, h5, hpc,
      Function.update_noteq (by omega), Function.update_noteq (by omega)]
    exact hzero _ (by omega)

/-- C14, evaluation of the code at `d = 1`: after `init`, with `V0 = 1`, the instruction
`F029` sets `I = 5`, `pc = 0x202`, and `memory[5 .. 9]` holds 0, 0, 0, 0, 0, while glyph 1
is `fontset[5 .. 9] = 0x20, 0x60, 0x20, 0x20, 0x70`, stored by `init` at `0x055 ..`. -/
theorem C14_fx29_misses_font_base :
    (∃ s', emulate fontState = .ok s' ∧ s'.I = 5 ∧ s'.pc = 0x202 ∧
      ∀ k < 5, s'.memory (s'.I + k) = 0) ∧
    (fontset.getD 5 0, fontset.getD 6 0, fontset.getD 7 0, fontset.getD 8 0, fontset.getD 9 0)
      = (0x20, 0x60, 0x20, 0x20, 0x70) ∧
    (∀ k < 5, (init blank).memory (0x050 + (5 + k)) = fontset.getD (5 + k) 0) := by
  refine ⟨?_, by decide, fun k hk => init_memory_font blank (5 + k) (by omega)⟩
  exact (fx29_below_font (init blank) 0 1 (by decide) (by decide) (init_fields blank).1
    (fun a ha => init_memory_zero blank a (by omega) (Or.inl ha))).2

/-! ## loadGame -/

theorem loadBytes_upTo (buffer : List Int) (s : Chip8) (n : Nat) (hn : 0x200 + n ≤ 4096) :
    (List.range n).foldlM (loadByte buffer) s = .ok
      { s with memory := fun a =>
          if 0x200 ≤ a ∧ a < 0x200 + n then toU8 (buffer.getD (a - 0x200) 0) else s.memory a } := by
  induction n with
  | zero =>
    have h : (fun a => if 0x200 ≤ a ∧ a < 0x200 + 0 then toU8 (buffer.getD (a - 0x200) 0)
        else s.memory a) = s.memory := by
      funext a
      have : ¬ (0x200 ≤ a ∧ a < 0x200 + 0) := fun h => absurd h.2 (Nat.not_lt.mpr h.1)
      rw [if_neg this]
    rw [h]
    rfl
  | succ n ih =>
    have hn' : 0x200 + n ≤ 4096 := Nat.le_of_succ_le hn
    have hlt : 0x200 + n < 4096 := hn
    rw [List.range_succ n, List.foldlM_append, ih hn']
    clear ih
    simp only [List.foldlM_cons, List.foldlM_nil, bind, Except.bind, loadByte, if_pos hlt, pure,
      Except.pure, Except.ok.injEq, Chip8.mk.injEq, true_and, and_true]
    funext a
    by_cases ha : a = 0x200 + n
    · subst ha
      have h1 : 0x200 ≤ 0x200 + n ∧ 0x200 + n < 0x200 + (n + 1) := by omega
      rw [Function.update_same, if_pos h1, Nat.add_sub_cancel_left]
    · rw [Function.update_noteq ha]
      have : (0x200 ≤ a ∧ a < 0x200 + (n + 1)) ↔ (0x200 ≤ a ∧ a < 0x200 + n) := by omega
      rw [if_congr this rfl rfl]

theorem loadBytes_overrun (buffer : List Int) (s : Chip8) (m : Nat) :
    (List.range (3585 + m)).foldlM (loadByte buffer) s = .error .outOfBounds := by
  induction m with
  | zero =>
    rw [Nat.add_zero, List.range_succ 3584, List.foldlM_append,
      loadBytes_upTo buffer s 3584 (by decide)]
    simp [bind, Except.bind, loadByte]
  | succ m ih =>
    rw [← Nat.add_assoc, List.range_succ (3585 + m), List.foldlM_append, ih]
    rfl

theorem bigImage_length : bigImage.length = 3585 := by
  rw [bigImage, List.length_replicate]

/-- C18: for an image of `n ≤ 3584` bytes the load returns; afterwards `memory[0x200 + i]`
is byte `i` of the image converted to `unsigned char` for every `i < n`, every byte below
`0x200` and every byte from `0x200 + n` on is unchanged, and no other field changes; for
`n = 3584` the last byte of the image is at `0xFFF`. -/
theorem C18_load_fitting_image (buffer : List Int) (s : Chip8) (h : buffer.length ≤ 3584) :
    ∃ s', loadGame buffer s = .ok s' ∧
      (∀ i < buffer.length, s'.memory (0x200 + i) = toU8 (buffer.getD i 0)) ∧
      (∀ a, (a < 0x200 ∨ 0x200 + buffer.length ≤ a) → s'.memory a = s.memory a) ∧
      s' = { s with memory := s'.memory } ∧
      (buffer.length = 3584 → s'.memory 0xFFF = toU8 (buffer.getD 3583 0)) := by
  refine ⟨_, loadBytes_upTo buffer s buffer.length (by omega), ?_, ?_, rfl, ?_⟩
  · intro i hi
    show (if 0x200 ≤ 0x200 + i ∧ 0x200 + i < 0x200 + buffer.length
      then toU8 (buffer.getD (0x200 + i - 0x200) 0) else s.memory (0x200 + i))
      = toU8 (buffer.getD i 0)
    rw [if_pos ⟨by omega, by omega⟩, Nat.add_sub_cancel_left]
  · intro a ha
    show (if 0x200 ≤ a ∧ a < 0x200 + buffer.length
      then toU8 (buffer.getD (a - 0x200) 0) else s.memory a) = s.memory a
    rw [if_neg (by omega)]
  · intro hlen
    show (if 0x200 ≤ 0xFFF ∧ 0xFFF < 0x200 + buffer.length
      then toU8 (buffer.getD (0xFFF - 0x200) 0) else s.memory 0xFFF)
      = toU8 (buffer.getD 3583 0)
    rw [if_pos ⟨by omega, by omega⟩]

/-- C18 at the three-byte image `0x12, -1, 0x34` loaded into the state after `init`: the
bytes at `0x200 ..` are `0x12, 0xFF, 0x34`. -/
theorem C18_load_fitting_image_witness :
    smallImage.length ≤ 3584 ∧
    (∃ s', loadGame smallImage (init blank) = .ok s' ∧
      (∀ i < smallImage.length, s'.memory (0x200 + i) = toU8 (smallImage.getD i 0)) ∧
      (∀ a, (a < 0x200 ∨ 0x200 + smallImage.length ≤ a) →
        s'.memory a = (init blank).memory a) ∧
      s' = { init blank with memory := s'.memory } ∧
      (smallImage.length = 3584 → s'.memory 0xFFF = toU8 (smallImage.getD 3583 0))) ∧
    (toU8 (smallImage.getD 0 0), toU8 (smallImage.getD 1 0), toU8 (smallImage.getD 2 0))
      = (0x12, 0xFF, 0x34) :=
  ⟨by decide, C18_load_fitting_image smallImage (init blank) (by decide), by decide⟩

/-! ## FX55 and FX65 -/

theorem storeRegs_upTo (s : Chip8) (n : Nat) (h : s.I + n ≤ 4096) :
    (List.range n).foldlM (fun t i => writeMem t (t.I + i) (t.V i)) s = .ok
      { s with memory := fun a =>
          if s.I ≤ a ∧ a < s.I + n then s.V (a - s.I) % 256 else s.memory a } := by
  induction n with
  | zero =>
    have h0 : (fun a => if s.I ≤ a ∧ a < s.I + 0 then s.V (a - s.I) % 256 else s.memory a)
        = s.memory := by
      funext a
      have : ¬ (s.I ≤ a ∧ a < s.I + 0) := fun h => absurd h.2 (Nat.not_lt.mpr h.1)
      rw [if_neg this]
    rw [h0]
    rfl
  | succ n ih =>
    have hn' : s.I + n ≤ 4096 := Nat.le_of_succ_le h
    have hlt : s.I + n < 4096 := h
    rw [List.range_succ n, List.foldlM_append, ih hn']
    clear ih
    simp only [List.foldlM_cons, List.foldlM_nil, bind, Except.bind, writeMem, if_pos hlt, pure,
      Except.pure, Except.ok.injEq, Chip8.mk.injEq, true_and, and_true]
    funext a
    by_cases ha : a = s.I + n
    · subst ha
      have h1 : s.I ≤ s.I + n ∧ s.I + n < s.I + (n + 1) := by omega
      rw [Function.update_same, if_pos h1, Nat.add_sub_cancel_left]
    · rw [Function.update_noteq ha]
      have : (s.I ≤ a ∧ a < s.I + (n + 1)) ↔ (s.I ≤ a ∧ a < s.I + n) := by omega
      rw [if_congr this rfl rfl]

theorem loadRegs_upTo (s : Chip8) (n : Nat) (h : s.I + n ≤ 4096) :
    (List.range n).foldlM
      (fun t i => do
        let b ← readMem t (t.I + i)
        pure (setV t i b)) s = .ok
      { s with V := fun j => if j < n then s.memory (s.I + j) else s.V j } := by
  induction n with
  | zero => rfl
  | succ n ih =>
    have hn' : s.I + n ≤ 4096 := Nat.le_of_succ_le h
    have hlt : s.I + n < 4096 := h
    rw [List.range_succ n, List.foldlM_append, ih hn']
    clear ih
    simp only [List.foldlM_cons, List.foldlM_nil, bind, Except.bind, readMem, if_pos hlt, pure,
      Except.pure, setV, Except.ok.injEq, Chip8.mk.injEq, true_and, and_true]
    funext j
    by_cases hj : j = n
    · subst hj
      rw [Function.update_same, if_pos (Nat.lt_succ_self j)]
    · rw [Function.update_noteq hj]
      have : j < n + 1 ↔ j < n :=
        ⟨fun h => lt_of_le_of_ne (Nat.lt_succ_iff.mp h) hj, fun h => Nat.lt_succ_of_lt h⟩
      rw [if_congr this rfl rfl]

theorem emulate_FX55 (s : Chip8) (X : Nat) (hX : X < 16) (hI : s.I + X ≤ 0xFFF)
    (hf : fetch s = .ok (0xF000 + 0x100 * X + 0x55)) :
    emulate s = .ok
      { s with
        opcode := 0xF000 + 0x100 * X + 0x55
        memory := fun a => if s.I ≤ a ∧ a < s.I + (X + 1) then s.V (a - s.I) % 256 else s.memory a
        pc := s.pc + 2 } := by
  obtain ⟨h1, h2, h3⟩ := decode_FXNN X hX 0x55 (by decide)
  have hp := toU16_pc_add hf 2 (by omega)
  have hs := storeRegs_upTo { s with opcode := 0xF000 + 0x100 * X + 0x55 } (X + 1)
    (by show s.I + (X + 1) ≤ 4096; omega)
  simp [emulate, hf, h1, h2, h3, bind, Except.bind, storeRegs, hs, hp, pure, Except.pure]

theorem emulate_FX65 (s : Chip8) (X : Nat) (hX : X < 16) (hI : s.I + X ≤ 0xFFF)
    (hf : fetch s = .ok (0xF000 + 0x100 * X + 0x65)) :
    emulate s = .ok
      { s with
        opcode := 0xF000 + 0x100 * X + 0x65
        V := fun j => if j < X + 1 then s.memory (s.I + j) else s.V j
        pc := s.pc + 2 } := by
  obtain ⟨h1, h2, h3⟩ := decode_FXNN X hX 0x65 (by decide)
  have hp := toU16_pc_add hf 2 (by omega)
  have hs : loadRegs X { s with opcode := 0xF000 + 0x100 * X + 0x65 } = _ :=
    loadRegs_upTo { s with opcode := 0xF000 + 0x100 * X + 0x65 } (X + 1)
      (by show s.I + (X + 1) ≤ 4096; omega)
  simp [emulate, hf, h1, h2, h3, bind, Except.bind, hs, hp, pure, Except.pure]

/-- C19: with `I + X ≤ 0xFFF` and 8-bit register values, FX55 returns with
`memory[I + i] = Vi` for `i ≤ X`, no other memory byte, no register and not `I` changed, and
`pc` advanced by 2; FX65 returns with `Vi = memory[I + i]` for `i ≤ X`, no register above `X`,
no memory byte and not `I` changed, and `pc` advanced by 2.  Hence after FX55, in any state
with the memory FX55 left and the same `I` (whatever the registers hold), FX65 with the same
`X` gives `V0..VX` the values they had before FX55. -/
theorem C19_store_load_round_trip (s : Chip8) (X : Nat) (hX : X < 16)
    (hI : s.I + X ≤ 0xFFF) (hV : ∀ i < 16, s.V i < 256) :
    (fetch s = .ok (0xF000 + 0x100 * X + 0x55) →
      ∃ s', emulate s = .ok s' ∧
        (∀ i ≤ X, s'.memory (s.I + i) = s.V i) ∧
        (∀ a, (a < s.I ∨ s.I + X < a) → s'.memory a = s.memory a) ∧
        s'.V = s.V ∧ s'.I = s.I ∧ s'.pc = s.pc + 2 ∧
        (∀ t : Chip8, t.memory = s'.memory → t.I = s.I →
          fetch t = .ok (0xF000 + 0x100 * X + 0x65) →
          ∃ s2, emulate t = .ok s2 ∧ ∀ i ≤ X, s2.V i = s.V i)) ∧
    (fetch s = .ok (0xF000 + 0x100 * X + 0x65) →
      ∃ s', emulate s = .ok s' ∧
        (∀ i ≤ X, s'.V i = s.memory (s.I + i)) ∧
        (∀ i, X < i → s'.V i = s.V i) ∧
        s'.memory = s.memory ∧ s'.I = s.I ∧ s'.pc = s.pc + 2) := by
  have hstored : ∀ i ≤ X,
      (fun a => if s.I ≤ a ∧ a < s.I + (X + 1) then s.V (a - s.I) % 256 else s.memory a)
        (s.I + i) = s.V i := by
    intro i hi
    show (if s.I ≤ s.I + i ∧ s.I + i < s.I + (X + 1) then s.V (s.I + i - s.I) % 256
      else s.memory (s.I + i)) = s.V i
    rw [if_pos ⟨by omega, by omega⟩, Nat.add_sub_cancel_left]
    exact Nat.mod_eq_of_lt (hV i (by omega))
  constructor
  · intro hf
    refine ⟨_, emulate_FX55 s X hX hI hf, hstored, ?_, rfl, rfl, rfl, ?_⟩
    · intro a ha
      show (if s.I ≤ a ∧ a < s.I + (X + 1) then s.V (a - s.I) % 256 else s.memory a)
        = s.memory a
      rw [if_neg (by omega)]
    · intro t htm htI htf
      refine ⟨_, emulate_FX65 t X hX (by rw [htI]; exact hI) htf, ?_⟩
      intro i hi
      show (if i < X + 1 then t.memory (t.I + i) else t.V i) = s.V i
      rw [if_pos (by omega), htm, htI]
      exact hstored i hi
  · intro hf
    refine ⟨_, emulate_FX65 s X hX hI hf, ?_, ?_, rfl, rfl, rfl⟩
    · intro i hi
      show (if i < X + 1 then s.memory (s.I + i) else s.V i) = s.memory (s.I + i)
      rw [if_pos (by omega)]
    · intro i hi
      show (if i < X + 1 then s.memory (s.I + i) else s.V i) = s.V i
      rw [if_neg (by omega)]

/-- C19 at `X = 2`: FX55 on `V0..V2 = 1, 2, 3`, then all registers overwritten with `0xAA`,
then FX65 restores `V0..V2`; and FX65 on `memory[I ..] = 7, 8, 9`. -/
theorem C19_store_load_round_trip_witness :
    (storeState.I + 2 ≤ 0xFFF ∧ (∀ i < 16, storeState.V i < 256) ∧
      fetch storeState = .ok (0xF000 + 0x100 * 2 + 0x55) ∧
      ∃ s1 s2, emulate storeState = .ok s1 ∧
        emulate { s1 with V := fun _ => 0xAA } = .ok s2 ∧
        ∀ i ≤ 2, s2.V i = storeState.V i) ∧
    (fillState.I + 2 ≤ 0xFFF ∧ (∀ i < 16, fillState.V i < 256) ∧
      fetch fillState = .ok (0xF000 + 0x100 * 2 + 0x65) ∧
      ∃ s', emulate fillState = .ok s' ∧
        (∀ i ≤ 2, s'.V i = fillState.memory (fillState.I + i)) ∧
        (∀ i, 2 < i → s'.V i = fillState.V i) ∧
        s'.memory = fillState.memory ∧ s'.I = fillState.I ∧ s'.pc = fillState.pc + 2) := by
  have hv1 : ∀ i < 16, storeState.V i < 256 := by decide
  have hv2 : ∀ i < 16, fillState.V i < 256 := by decide
  refine ⟨⟨by decide, hv1, rfl, ?_⟩, ⟨by decide, hv2, rfl,
    (C19_store_load_round_trip fillState 2 (by decide) (by decide) hv2).2 rfl⟩⟩
  obtain ⟨s1, he, _, hframe, _, hI1, hpc, hrt⟩ :=
    (C19_store_load_round_trip storeState 2 (by decide) (by decide) hv1).1 rfl
  have hm2 : s1.memory 0x202 = 0xF2 := hframe 0x202 (Or.inl (by decide))
  have hm3 : s1.memory 0x203 = 0x65 := hframe 0x203 (Or.inl (by decide))
  have hpc' : s1.pc = 0x202 := hpc
  have hft : fetch { s1 with V := fun _ => 0xAA } = .ok (0xF000 + 0x100 * 2 + 0x65) := by
    simp [fetch, readMem, hpc', hm2, hm3, bind, Except.bind, pure, Except.pure, toU16]
  obtain ⟨s2, he2, hback⟩ := hrt { s1 with V := fun _ => 0xAA } rfl hI1 hft
  exact ⟨s1, s2, he, he2, hback⟩

/-! ## 2NNN and 00EE -/

theorem decode_2NNN_bytes : ∀ a < 16, ∀ b < 256,
    (0x2000 + (0x100 * a + b)) &&& 0xF000 = 0x2000 ∧
    (0x2000 + (0x100 * a + b)) &&& 0x0FFF = 0x100 * a + b := by
  decide!

theorem decode_2NNN (NNN : Nat) (h : NNN < 4096) :
    (0x2000 + NNN) &&& 0xF000 = 0x2000 ∧ (0x2000 + NNN) &&& 0x0FFF = NNN := by
  have h1 := decode_2NNN_bytes (NNN / 256) (by omega) (NNN % 256) (by omega)
  have h2 : 0x100 * (NNN / 256) + NNN % 256 = NNN := by omega
  rw [h2] at h1
  exact h1

theorem emulate_2NNN (s : Chip8) (NNN : Nat) (hN : NNN < 4096) (hsp : s.sp < 16)
    (hf : fetch s = .ok (0x2000 + NNN)) :
    emulate s = .ok { s with opcode := 0x2000 + NNN,
                             stack := Function.update s.stack s.sp s.pc,
                             sp := s.sp + 1, pc := NNN } := by
  obtain ⟨h1, h2⟩ := decode_2NNN NNN hN
  have hsp1 : toU16 (s.sp + 1) = s.sp + 1 := by unfold toU16; omega
  simp [emulate, hf, h1, h2, hsp, hsp1, bind, Except.bind]

theorem emulate_00EE (s : Chip8) (h1 : 1 ≤ s.sp) (h16 : s.sp ≤ 16)
    (hf : fetch s = .ok 0x00EE) :
    emulate s = .ok { s with opcode := 0x00EE, sp := s.sp - 1,
                             pc := toU16 (s.stack (s.sp - 1) + 2) } := by
  have hsp : toU16 (s.sp + 65535) = s.sp - 1 := by unfold toU16; omega
  have hlt : s.sp - 1 < 16 := by omega
  simp [emulate, hf, hsp, hlt, bind, Except.bind]

/-- C20: with `sp < 16`, 2NNN at address `p` returns with `pc = NNN`, `sp` one higher and
`stack[old sp] = p`; 00EE executed in that state (it is the instruction at `NNN`) returns
with `pc = p + 2` and `sp` as before the call.  The pair leaves the registers, `I`, memory,
the timers, the keys and every stack slot other than `stack[old sp]` unchanged. -/
theorem C20_call_return_round_trip (s : Chip8) (NNN : Nat) (hN : NNN < 4096)
    (hsp : s.sp < 16) (hf : fetch s = .ok (0x2000 + NNN))
    (hret : fetch { s with pc := NNN } = .ok 0x00EE) :
    ∃ s1 s2, emulate s = .ok s1 ∧ s1.pc = NNN ∧ s1.sp = s.sp + 1 ∧ s1.stack s.sp = s.pc ∧
      emulate s1 = .ok s2 ∧ s2.pc = s.pc + 2 ∧ s2.sp = s.sp ∧
      s2.V = s.V ∧ s2.I = s.I ∧ s2.memory = s.memory ∧
      s2.delay_timer = s.delay_timer ∧ s2.sound_timer = s.sound_timer ∧ s2.key = s.key ∧
      (∀ i, i ≠ s.sp → s2.stack i = s.stack i) := by
  have hp := toU16_pc_add hf 2 (by omega)
  have he1 := emulate_2NNN s NNN hN hsp hf
  have hf1 : fetch { s with opcode := 0x2000 + NNN,
                            stack := Function.update s.stack s.sp s.pc,
                            sp := s.sp + 1, pc := NNN } = .ok 0x00EE := by
    exact (fetch_congr _ { s with pc := NNN } rfl rfl).trans hret
  have he2 := emulate_00EE _ (by show 1 ≤ s.sp + 1; omega) (by show s.sp + 1 ≤ 16; omega) hf1
  refine ⟨_, _, he1, rfl, rfl, ?_, he2, ?_, ?_, rfl, rfl, rfl, rfl, rfl, rfl, ?_⟩
  · show Function.update s.stack s.sp s.pc s.sp = s.pc
    rw [Function.update_same]
  · show toU16 (Function.update s.stack s.sp s.pc (s.sp + 1 - 1) + 2) = s.pc + 2
    rw [Nat.add_sub_cancel, Function.update_same]
    exact hp
  · show s.sp + 1 - 1 = s.sp
    rw [Nat.add_sub_cancel]
  · intro i hi
    show Function.update s.stack s.sp s.pc i = s.stack i
    rw [Function.update_noteq hi]

/-- C20 at `sp = 3`, call `2300` at `0x200`, `00EE` at `0x300`: the pair ends with
`pc = 0x202` and `sp = 3`. -/
theorem C20_call_return_round_trip_witness :
    (callState.sp < 16 ∧ fetch callState = .ok (0x2000 + 0x300) ∧
      fetch { callState with pc := 0x300 } = .ok 0x00EE) ∧
    (∃ s1 s2, emulate callState = .ok s1 ∧ s1.pc = 0x300 ∧ s1.sp = callState.sp + 1 ∧
      s1.stack callState.sp = callState.pc ∧
      emulate s1 = .ok s2 ∧ s2.pc = callState.pc + 2 ∧ s2.sp = callState.sp ∧
      s2.V = callState.V ∧ s2.I = callState.I ∧ s2.memory = callState.memory ∧
      s2.delay_timer = callState.delay_timer ∧ s2.sound_timer = callState.sound_timer ∧
      s2.key = callState.key ∧
      (∀ i, i ≠ callState.sp → s2.stack i = callState.stack i)) ∧
    (emulateN 2 callState).toOption.map (fun t => (t.pc, t.sp)) = some (0x202, 3) :=
  ⟨⟨by decide, rfl, rfl⟩,
    C20_call_return_round_trip callState 0x300 (by decide) (by decide) rfl rfl, by decide⟩

/-! ## What a call of `emulate` leaves unchanged -/

theorem LoopFrame.refl (span : Nat) (s : Chip8) : LoopFrame span s s :=
  ⟨rfl, rfl, rfl, rfl, fun _ _ => rfl, fun h => h⟩

theorem LoopFrame.trans {span : Nat} {a b c : Chip8} (h1 : LoopFrame span a b)
    (h2 : LoopFrame span b c) : LoopFrame span a c := by
  obtain ⟨hI1, hd1, hs1, hp1, hm1, hg1⟩ := h1
  obtain ⟨hI2, hd2, hs2, hp2, hm2, hg2⟩ := h2
  refine ⟨hI2.trans hI1, hd2.trans hd1, hs2.trans hs1, hp2.trans hp1, ?_,
    fun h => hg2 (hg1 h)⟩
  intro x hx
  rw [hm2 x (by rw [hI1]; exact hx), hm1 x hx]

theorem foldlM_loopFrame {α : Type} (span : Nat) (f : Chip8 → α → Except Fault Chip8) :
    ∀ (l : List α) (s s' : Chip8),
      (∀ t a t', a ∈ l → f t a = .ok t' → LoopFrame span t t') →
      l.foldlM f s = .ok s' → LoopFrame span s s' := by
  intro l
  induction l with
  | nil =>
    intro s s' _ h
    simp only [List.foldlM_nil, pure, Except.pure, Except.ok.injEq] at h
    rw [← h]
    exact LoopFrame.refl span s
  | cons a l ih =>
    intro s s' hstep h
    rw [List.foldlM_cons] at h
    cases hfa : f s a with
    | error e => simp [hfa, bind, Except.bind] at h
    | ok t =>
      simp only [hfa, bind, Except.bind] at h
      exact (hstep s a t (List.mem_cons_self _ _) hfa).trans
        (ih t s' (fun t a t' ha => hstep t a t' (List.mem_cons_of_mem _ ha)) h)

theorem drawPixel_loopFrame (X Y pixel r : Nat) (t : Chip8) (c : Nat) (t' : Chip8)
    (h : drawPixel X Y pixel r t c = .ok t') : LoopFrame 0 t t' := by
  unfold drawPixel at h
  split at h
  · simp only at h
    split at h
    · rename_i hb hin
      simp only [Except.ok.injEq] at h
      subst h
      refine ⟨?_, ?_, ?_, ?_, ?_, ?_⟩
      · split <;> rfl
      · split <;> rfl
      · split <;> rfl
      · split <;> rfl
      · intro a _
        split <;> rfl
      · intro hbin x hx y hy
        have hg : ∀ u : Chip8, u.gfx = t.gfx → ∀ px py, px < 64 → py < 32 →
            (Function.update u.gfx px (Function.update (u.gfx px) py (u.gfx px py ^^^ 1)) x y = 0 ∨
             Function.update u.gfx px (Function.update (u.gfx px) py (u.gfx px py ^^^ 1)) x y = 1) := by
          intro u hu px py hpx hpy
          rw [hu]
          by_cases h1 : x = px
          · subst h1
            rw [Function.update_same]
            by_cases h2 : y = py
            · subst h2
              rw [Function.update_same]
              rcases hbin x hx y hy with h0 | h0 <;> rw [h0]
              · right; rfl
              · left; rfl
            · rw [Function.update_noteq h2]
              exact hbin x hx y hy
          · rw [Function.update_noteq h1]
            exact hbin x hx y hy
        split
        · exact hg _ rfl _ _ hin.1 hin.2
        · exact hg _ rfl _ _ hin.1 hin.2
    · cases h
  · simp only [Except.ok.injEq] at h
    subst h
    exact LoopFrame.refl 0 t

theorem LoopFrame.widen {span span' : Nat} {s t : Chip8} (h : LoopFrame span s t)
    (hle : span ≤ span') : LoopFrame span' s t := by
  obtain ⟨hI1, hd1, hs1, hp1, hm1, hg1⟩ := h
  exact ⟨hI1, hd1, hs1, hp1, fun a ha => hm1 a (by omega), hg1⟩

theorem LoopFrame.memory_eq {s t : Chip8} (h : LoopFrame 0 s t) : t.memory = s.memory := by
  funext a
  exact h.2.2.2.2.1 a (by omega)

theorem setKeys_mapped (s : Chip8) : ∀ p ∈ keyTable,
    setKeys p.1 s = { s with key := Function.update s.key p.2 PRESSED } := by
  intro p hp
  simp only [keyTable, List.mem_cons, List.mem_singleton, List.not_mem_nil, or_false] at hp
  rcases hp with k1 | k2 | k3 | k4 | kq | kw | ke | kr | ka | ks | kd | kf | kz | kx | kc | kv
  all_goals subst p
  all_goals rfl

theorem setKeys_unmapped (s : Chip8) (c : Char) (h : c ∉ keyTable.map Prod.fst) :
    setKeys c s = s := by
  simp only [keyTable, List.map_cons, List.map_nil, List.mem_cons, List.mem_singleton,
    List.not_mem_nil, or_false, not_or] at h
  unfold setKeys
  split <;> simp_all

/-- C27: `setKeys` follows the layout table: the 16 listed characters are distinct, their
16 keypad codes are distinct and are exactly `0x0 .. 0xF`; a listed character marks its key
pressed and leaves every other key as it was; any other character returns the state
unchanged; and a key that is pressed before the call is pressed after it. -/
theorem C27_set_keys_layout (s : Chip8) :
    (keyTable.map Prod.fst).Nodup ∧ (keyTable.map Prod.snd).Nodup ∧
    (∀ k, k < 16 ↔ k ∈ keyTable.map Prod.snd) ∧
    (∀ p ∈ keyTable, (setKeys p.1 s).key p.2 = PRESSED ∧
      (∀ i, i ≠ p.2 → (setKeys p.1 s).key i = s.key i) ∧
      setKeys p.1 s = { s with key := (setKeys p.1 s).key }) ∧
    (∀ c, c ∉ keyTable.map Prod.fst → setKeys c s = s) ∧
    (∀ c i, s.key i = PRESSED → (setKeys c s).key i = PRESSED) := by
  refine ⟨by decide, by decide, ?_, ?_, fun c h => setKeys_unmapped s c h, ?_⟩
  · intro k
    constructor
    · intro hk
      interval_cases k <;> decide
    · intro hk
      simp only [keyTable, List.map_cons, List.map_nil, List.mem_cons, List.mem_singleton,
        List.not_mem_nil, or_false] at hk
      omega
  · intro p hp
    rw [setKeys_mapped s p hp]
    refine ⟨?_, fun i hi => ?_, rfl⟩
    · show Function.update s.key p.2 PRESSED p.2 = PRESSED
      rw [Function.update_same]
    · show Function.update s.key p.2 PRESSED i = s.key i
      rw [Function.update_noteq hi]
  · intro c i hi
    by_cases hc : c ∈ keyTable.map Prod.fst
    · obtain ⟨p, hp, rfl⟩ := List.mem_map.mp hc
      rw [setKeys_mapped s p hp]
      show Function.update s.key p.2 PRESSED i = PRESSED
      by_cases h : i = p.2
      · rw [h, Function.update_same]
      · rw [Function.update_noteq h]; exact hi
    · rw [setKeys_unmapped s c hc]
      exact hi
/-! ## 8XYE -/

theorem emulate_8XYE (s : Chip8) (X Y : Nat) (hX : X < 16) (hY : Y < 16)
    (hf : fetch s = .ok (0x8000 + 0x100 * X + 0x10 * Y + 0xE)) :
    emulate s = .ok
      (setV (setV { s with opcode := 0x8000 + 0x100 * X + 0x10 * Y + 0xE, pc := s.pc + 2 } 0xF
          (s.V X &&& 0x80)) X
        ((Function.update s.V 0xF (s.V X &&& 0x80) X <<< 1) % 256)) := by
  obtain ⟨h1, h2, h3, h4⟩ := decode_8XYN X hX Y hY 0xE (by decide)
  have hp := toU16_pc_add hf 2 (by omega)
  simp [emulate, hf, h1, h2, h3, h4, hp, bind, Except.bind, setV]

theorem and_0x80 (v : Nat) : v &&& 0x80 = if v.testBit 7 = true then 128 else 0 := by
  have h := Nat.and_two_pow v 7
  have h2 : (2 : Nat) ^ 7 = 0x80 := by decide
  rw [h2] at h
  rw [h]
  cases v.testBit 7 <;> simp

/-- C24: 8XYE with `X ≤ 14` returns with `VF = old VX & 0x80`, which is 128 when bit 7 of the
old `VX` is set and 0 otherwise (never 1), with `VX = (2 * old VX) mod 256` and `pc`
advanced by 2. -/
theorem C24_shift_left_raw_flag (s : Chip8) (X Y : Nat) (hX : X ≤ 14) (hY : Y < 16)
    (hf : fetch s = .ok (0x8000 + 0x100 * X + 0x10 * Y + 0xE)) :
    ∃ s', emulate s = .ok s' ∧
      s'.V 0xF = s.V X &&& 0x80 ∧
      s'.V 0xF = (if (s.V X).testBit 7 = true then 128 else 0) ∧
      s'.V 0xF ≠ 1 ∧
      s'.V X = (2 * s.V X) % 256 ∧
      s'.pc = s.pc + 2 := by
  have hX15 : X ≠ 15 := by omega
  have hF : Function.update (Function.update s.V 0xF (s.V X &&& 0x80)) X
      ((Function.update s.V 0xF (s.V X &&& 0x80) X <<< 1) % 256) 0xF = s.V X &&& 0x80 := by
    rw [Function.update_noteq hX15.symm, Function.update_same]
  refine ⟨_, emulate_8XYE s X Y (by omega) hY hf, hF, ?_, ?_, ?_, rfl⟩
  · exact hF.trans (and_0x80 _)
  · show Function.update (Function.update s.V 0xF (s.V X &&& 0x80)) X
      ((Function.update s.V 0xF (s.V X &&& 0x80) X <<< 1) % 256) 0xF ≠ 1
    rw [hF, and_0x80]
    split <;> decide
  · show Function.update (Function.update s.V 0xF (s.V X &&& 0x80)) X
      ((Function.update s.V 0xF (s.V X &&& 0x80) X <<< 1) % 256) X = (2 * s.V X) % 256
    rw [Function.update_same, Function.update_noteq hX15, Nat.shiftLeft_eq, Nat.pow_one,
      Nat.mul_comm]

/-- C24 at `VX = 0xC1`: the result is `VF = 128`, `VX = 0x82`. -/
theorem C24_shift_left_raw_flag_witness :
    (fetch shiftState = .ok (0x8000 + 0x100 * 1 + 0x10 * 2 + 0xE) ∧
      ∃ s', emulate shiftState = .ok s' ∧
        s'.V 0xF = shiftState.V 1 &&& 0x80 ∧
        s'.V 0xF = (if (shiftState.V 1).testBit 7 = true then 128 else 0) ∧
        s'.V 0xF ≠ 1 ∧
        s'.V 1 = (2 * shiftState.V 1) % 256 ∧
        s'.pc = shiftState.pc + 2) ∧
    (emulate shiftState).toOption.map (fun t => (t.V 0xF, t.V 1)) = some (128, 0x82) :=
  ⟨⟨rfl, C24_shift_left_raw_flag shiftState 1 2 (by decide) (by decide) rfl⟩, by decide⟩

/-! ## EX9E and EXA1 -/

theorem emulate_EX9E (s : Chip8) (X : Nat) (hX : X < 16) (hV : s.V X < 16)
    (hf : fetch s = .ok (0xE000 + 0x100 * X + 0x9E)) :
    emulate s =
      if s.key (s.V X) = PRESSED then
        .ok { s with opcode := 0xE000 + 0x100 * X + 0x9E, pc := s.pc + 4,
                     key := Function.update s.key (s.V X) UNPRESSED }
      else .ok { s with opcode := 0xE000 + 0x100 * X + 0x9E, pc := s.pc + 2 } := by
  obtain ⟨h1, h2, h3⟩ := decode_EXNN X hX 0x9E (by decide)
  have hp2 := toU16_pc_add hf 2 (by omega)
  have hp4 := toU16_pc_add hf 4 (by omega)
  simp [emulate, hf, h1, h2, h3, hp2, hp4, hV, bind, Except.bind]

theorem emulate_EXA1 (s : Chip8) (X : Nat) (hX : X < 16) (hV : s.V X < 16)
    (hf : fetch s = .ok (0xE000 + 0x100 * X + 0xA1)) :
    emulate s =
      if s.key (s.V X) = UNPRESSED then
        .ok { s with opcode := 0xE000 + 0x100 * X + 0xA1, pc := s.pc + 4 }
      else .ok { s with opcode := 0xE000 + 0x100 * X + 0xA1, pc := s.pc + 2,
                        key := Function.update s.key (s.V X) UNPRESSED } := by
  obtain ⟨h1, h2, h3⟩ := decode_EXNN X hX 0xA1 (by decide)
  have hp2 := toU16_pc_add hf 2 (by omega)
  have hp4 := toU16_pc_add hf 4 (by omega)
  simp [emulate, hf, h1, h2, h3, hp2, hp4, hV, bind, Except.bind]

/-- C22: with `VX < 16` and `key[VX]` pressed or unpressed, EX9E returns with `pc` advanced
by 4 if `key[VX]` is pressed and by 2 otherwise, EXA1 with `pc` advanced by 4 if `key[VX]` is
not pressed and by 2 otherwise; neither changes a register, `I`, memory, the stack or a
timer.  Hence of EX9E and EXA1 executed on states with the same `VX` and the same `key[VX]`,
exactly one skips. -/
theorem C22_key_skips (s : Chip8) (X : Nat) (hX : X < 16) (hV : s.V X < 16)
    (hk : s.key (s.V X) = PRESSED ∨ s.key (s.V X) = UNPRESSED) :
    (fetch s = .ok (0xE000 + 0x100 * X + 0x9E) →
      ∃ s', emulate s = .ok s' ∧
        s'.pc = s.pc + (if s.key (s.V X) = PRESSED then 4 else 2) ∧
        s'.V = s.V ∧ s'.I = s.I ∧ s'.memory = s.memory ∧ s'.stack = s.stack ∧
        s'.delay_timer = s.delay_timer ∧ s'.sound_timer = s.sound_timer) ∧
    (fetch s = .ok (0xE000 + 0x100 * X + 0xA1) →
      ∃ s', emulate s = .ok s' ∧
        s'.pc = s.pc + (if s.key (s.V X) = PRESSED then 2 else 4) ∧
        s'.V = s.V ∧ s'.I = s.I ∧ s'.memory = s.memory ∧ s'.stack = s.stack ∧
        s'.delay_timer = s.delay_timer ∧ s'.sound_timer = s.sound_timer) ∧
    (∀ t : Chip8, t.V X = s.V X → t.key (t.V X) = s.key (s.V X) →
      fetch s = .ok (0xE000 + 0x100 * X + 0x9E) →
      fetch t = .ok (0xE000 + 0x100 * X + 0xA1) →
      ∃ s' t', emulate s = .ok s' ∧ emulate t = .ok t' ∧
        ((s'.pc = s.pc + 4 ∧ t'.pc = t.pc + 2) ∨ (s'.pc = s.pc + 2 ∧ t'.pc = t.pc + 4))) := by
  have h9 : ∀ u : Chip8, u.V X < 16 → fetch u = .ok (0xE000 + 0x100 * X + 0x9E) →
      ∃ u', emulate u = .ok u' ∧
        u'.pc = u.pc + (if u.key (u.V X) = PRESSED then 4 else 2) ∧
        u'.V = u.V ∧ u'.I = u.I ∧ u'.memory = u.memory ∧ u'.stack = u.stack ∧
        u'.delay_timer = u.delay_timer ∧ u'.sound_timer = u.sound_timer := by
    intro u huV hf
    have he := emulate_EX9E u X hX huV hf
    by_cases hp : u.key (u.V X) = PRESSED
    · rw [if_pos hp] at he
      exact ⟨_, he, by rw [if_pos hp], rfl, rfl, rfl, rfl, rfl, rfl⟩
    · rw [if_neg hp] at he
      exact ⟨_, he, by rw [if_neg hp], rfl, rfl, rfl, rfl, rfl, rfl⟩
  have hA : ∀ u : Chip8, u.V X < 16 →
      (u.key (u.V X) = PRESSED ∨ u.key (u.V X) = UNPRESSED) →
      fetch u = .ok (0xE000 + 0x100 * X + 0xA1) →
      ∃ u', emulate u = .ok u' ∧
        u'.pc = u.pc + (if u.key (u.V X) = PRESSED then 2 else 4) ∧
        u'.V = u.V ∧ u'.I = u.I ∧ u'.memory = u.memory ∧ u'.stack = u.stack ∧
        u'.delay_timer = u.delay_timer ∧ u'.sound_timer = u.sound_timer := by
    intro u huV huk hf
    have he := emulate_EXA1 u X hX huV hf
    rcases huk with hp | hu
    · have hnu : ¬ u.key (u.V X) = UNPRESSED := by rw [hp]; decide
      rw [if_neg hnu] at he
      exact ⟨_, he, by rw [if_pos hp], rfl, rfl, rfl, rfl, rfl, rfl⟩
    · have hnp : ¬ u.key (u.V X) = PRESSED := by rw [hu]; decide
      rw [if_pos hu] at he
      exact ⟨_, he, by rw [if_neg hnp], rfl, rfl, rfl, rfl, rfl, rfl⟩
  refine ⟨h9 s hV, hA s hV hk, ?_⟩
  intro t htV htk hfs hft
  obtain ⟨s', hes, hps, _⟩ := h9 s hV hfs
  obtain ⟨t', het, hpt, _⟩ := hA t (by rw [htV]; exact hV) (by rw [htk]; exact hk) hft
  refine ⟨s', t', hes, het, ?_⟩
  rw [htk] at hpt
  by_cases hp : s.key (s.V X) = PRESSED
  · left
    rw [if_pos hp] at hps hpt
    exact ⟨hps, hpt⟩
  · right
    rw [if_neg hp] at hps hpt
    exact ⟨hps, hpt⟩

/-- C22 at `V2 = 7` with key 7 pressed: E29E advances `pc` by 4 and E2A1 by 2. -/
theorem C22_key_skips_witness :
    (skipPressedState.V 2 < 16 ∧
      (skipPressedState.key (skipPressedState.V 2) = PRESSED ∨
        skipPressedState.key (skipPressedState.V 2) = UNPRESSED) ∧
      fetch skipPressedState = .ok (0xE000 + 0x100 * 2 + 0x9E) ∧
      fetch skipUnpressedState = .ok (0xE000 + 0x100 * 2 + 0xA1)) ∧
    (∃ s' t', emulate skipPressedState = .ok s' ∧ emulate skipUnpressedState = .ok t' ∧
      ((s'.pc = skipPressedState.pc + 4 ∧ t'.pc = skipUnpressedState.pc + 2) ∨
        (s'.pc = skipPressedState.pc + 2 ∧ t'.pc = skipUnpressedState.pc + 4))) ∧
    ((emulate skipPressedState).toOption.map (fun t => t.pc) = some 0x204 ∧
      (emulate skipUnpressedState).toOption.map (fun t => t.pc) = some 0x202) :=
  ⟨⟨by decide, Or.inl (by decide), rfl, rfl⟩,
    (C22_key_skips skipPressedState 2 (by decide) (by decide) (Or.inl (by decide))).2.2
      skipUnpressedState rfl rfl rfl rfl,
    by decide, by decide⟩

/-- C28 fails as stated: with `V0 = 0` and the byte `key[0] = 2` (neither pressed nor
unpressed), E09E takes the no-skip branch and returns with `key[0] = 2`, not unpressed. -/
theorem C28_odd_key_byte_survives :
    oddKeyState.V 0 < 16 ∧ fetch oddKeyState = .ok (0xE000 + 0x100 * 0 + 0x9E) ∧
    UNPRESSED = 0 ∧
    (emulate oddKeyState).toOption.map (fun t => (t.key (oddKeyState.V 0), t.pc))
      = some (2, 0x202) :=
  ⟨by decide, rfl, rfl, by decide⟩

/-! ## Invariants of `emulate` -/

theorem emulate_ok_fetch {s s' : Chip8} (he : emulate s = .ok s') : ∃ op, fetch s = .ok op := by
  unfold emulate at he
  cases hf : fetch s with
  | error e => simp [hf, bind, Except.bind] at he
  | ok op => exact ⟨op, rfl⟩

theorem emulate_FX15_masks (s : Chip8) (op : Nat) (hf : fetch s = .ok op)
    (h1 : op &&& 0xF000 = 0xF000) (h2 : op &&& 0x00FF = 0x15) :
    emulate s = .ok { s with opcode := op, delay_timer := s.V ((op &&& 0x0F00) >>> 8),
                             pc := toU16 (s.pc + 2) } := by
  simp [emulate, hf, h1, h2, bind, Except.bind]

theorem emulate_FX18_masks (s : Chip8) (op : Nat) (hf : fetch s = .ok op)
    (h1 : op &&& 0xF000 = 0xF000) (h2 : op &&& 0x00FF = 0x18) :
    emulate s = .ok { s with opcode := op, sound_timer := s.V ((op &&& 0x0F00) >>> 8),
                             pc := toU16 (s.pc + 2) } := by
  simp [emulate, hf, h1, h2, bind, Except.bind]

theorem register_field_lt (op : Nat) : (op &&& 0x0F00) >>> 8 < 16 := by
  have h : op &&& 0x0F00 ≤ 0x0F00 := Nat.and_le_right
  rw [Nat.shiftRight_eq_div_pow]
  omega

theorem drawPixel_detects_lit (X Y pixel r : Nat) (t : Chip8) (c : Nat) (t' : Chip8)
    (hbin : BinaryGfx t.gfx) (h : drawPixel X Y pixel r t c = .ok t')
    (hbit : pixel &&& (0x80 >>> c) ≠ 0)
    (hlit : t.gfx (toU16 (t.V X + c)) (toU16 (t.V Y + r)) ≠ 0) : t'.V 0xF = 1 := by
  unfold drawPixel at h
  rw [if_pos hbit] at h
  simp only at h
  split at h
  · rename_i hin
    have h1 : t.gfx (toU16 (t.V X + c)) (toU16 (t.V Y + r)) = 1 := by
      rcases hbin _ hin.1 _ hin.2 with h0 | h1
      · exact absurd h0 hlit
      · exact h1
    rw [if_pos h1] at h
    simp only [Except.ok.injEq] at h
    rw [← h]
    show Function.update t.V 0xF 1 0xF = 1
    rw [Function.update_same]
  · cases h

/-! ## Stores that leave their array -/

theorem storeFrame_same (lo hi : Nat) (s : Chip8) : StoreFrame lo hi s s :=
  ⟨rfl, rfl, fun _ => rfl, fun _ => rfl, fun _ _ => rfl, fun _ => rfl⟩

theorem storeFrame_chain {lo hi : Nat} {a b c : Chip8} (h1 : StoreFrame lo hi a b)
    (h2 : StoreFrame lo hi b c) : StoreFrame lo hi a c := by
  obtain ⟨hI1, hV1, hd1, hs1, hm1, hg1⟩ := h1
  obtain ⟨hI2, hV2, hd2, hs2, hm2, hg2⟩ := h2
  exact ⟨hI2.trans hI1, hV2.trans hV1, fun h => (hd2 h).trans (hd1 h),
    fun h => (hs2 h).trans (hs1 h), fun x hx => (hm2 x hx).trans (hm1 x hx),
    fun h => (hg2 h).trans (hg1 h)⟩

theorem storeFrame_wider {lo hi lo' hi' : Nat} {s t : Chip8} (h : StoreFrame lo hi s t)
    (hlo : lo' ≤ lo) (hhi : hi ≤ hi') : StoreFrame lo' hi' s t := by
  obtain ⟨hI1, hV1, hd1, hs1, hm1, hg1⟩ := h
  exact ⟨hI1, hV1, fun h => hd1 (by omega), fun h => hs1 (by omega),
    fun x hx => hm1 x (by omega), fun h => hg1 (by omega)⟩

theorem poke_storeFrame (s t : Chip8) (o v : Nat) (ho : 54 ≤ o)
    (h : Layout.poke s o v = .ok t) : StoreFrame o (o + 1) s t := by
  unfold Layout.poke at h
  repeat rw [if_neg (by omega)] at h
  split at h
  · cases h
    exact ⟨rfl, rfl, fun _ => rfl, fun _ => rfl, fun _ _ => rfl, fun _ => rfl⟩
  split at h
  · cases h
    exact ⟨rfl, rfl, fun _ => rfl, fun _ => rfl, fun _ _ => rfl, fun _ => rfl⟩
  split at h
  · cases h
    refine ⟨rfl, rfl, fun _ => rfl, fun _ => rfl, ?_, fun _ => rfl⟩
    intro a ha
    show Function.update s.memory (o - 72) (v % 256) a = s.memory a
    rw [Function.update_noteq (by omega)]
  split at h
  · cases h
    exact ⟨rfl, rfl, fun hd => absurd hd (by omega), fun _ => rfl, fun _ _ => rfl,
      fun _ => rfl⟩
  split at h
  · cases h
    exact ⟨rfl, rfl, fun _ => rfl, fun hd => absurd hd (by omega), fun _ _ => rfl,
      fun _ => rfl⟩
  split at h
  · cases h
    exact ⟨rfl, rfl, fun _ => rfl, fun _ => rfl, fun _ _ => rfl, fun _ => rfl⟩
  split at h
  · cases h
    exact ⟨rfl, rfl, fun _ => rfl, fun _ => rfl, fun _ _ => rfl,
      fun hd => absurd hd (by omega)⟩
  · cases h

theorem writeMem_storeFrame (s t : Chip8) (a v : Nat) (h : Layout.writeMem s a v = .ok t) :
    StoreFrame (72 + a) (72 + a + 1) s t := by
  unfold Layout.writeMem at h
  split at h
  · cases h
    refine ⟨rfl, rfl, fun _ => rfl, fun _ => rfl, ?_, fun _ => rfl⟩
    intro b hb
    show Function.update s.memory a (v % 256) b = s.memory b
    rw [Function.update_noteq (by omega)]
  · exact poke_storeFrame s t (72 + a) v (by omega) h

theorem poke16_storeFrame (s t : Chip8) (o w : Nat) (ho : 54 ≤ o)
    (h : Layout.poke16 s o w = .ok t) : StoreFrame o (o + 2) s t := by
  unfold Layout.poke16 at h
  cases h1 : Layout.poke s o (w % 256) with
  | error e => simp [h1, bind, Except.bind] at h
  | ok s1 =>
    simp only [h1, bind, Except.bind] at h
    exact storeFrame_chain
      (storeFrame_wider (poke_storeFrame s s1 o _ ho h1) (Nat.le_refl _) (by omega))
      (storeFrame_wider (poke_storeFrame s1 t (o + 1) _ (by omega) h) (by omega) (by omega))

theorem foldlM_storeFrame {α : Type} (lo hi : Nat) (f : Chip8 → α → Except Fault Chip8)
    (s : Chip8) : ∀ (l : List α) (t s' : Chip8),
      (∀ u a u', a ∈ l → StoreFrame lo hi s u → f u a = .ok u' → StoreFrame lo hi u u') →
      StoreFrame lo hi s t → l.foldlM f t = .ok s' → StoreFrame lo hi s s' := by
  intro l
  induction l with
  | nil =>
    intro t s' _ hst h
    simp only [List.foldlM_nil, pure, Except.pure, Except.ok.injEq] at h
    rw [← h]
    exact hst
  | cons a l ih =>
    intro t s' hstep hst h
    rw [List.foldlM_cons] at h
    cases hfa : f t a with
    | error e => simp [hfa, bind, Except.bind] at h
    | ok u =>
      simp only [hfa, bind, Except.bind] at h
      exact ih u s' (fun w b w' hb => hstep w b w' (List.mem_cons_of_mem _ hb))
        (storeFrame_chain hst (hstep t a u (List.mem_cons_self _ _) hst hfa)) h

theorem storeRegs_storeFrame (X : Nat) (s s' : Chip8) (h : Layout.storeRegs X s = .ok s') :
    StoreFrame (72 + s.I) (72 + s.I + X + 1) s s' := by
  unfold Layout.storeRegs at h
  refine foldlM_storeFrame _ _ _ s _ s s' ?_ (storeFrame_same _ _ s) h
  intro u i u' hi hsu hu
  have hi' := List.mem_range.mp hi
  have hI : u.I = s.I := hsu.1
  have := writeMem_storeFrame u u' (u.I + i) (u.V i) hu
  rw [hI] at this
  exact storeFrame_wider this (by omega) (by omega)

theorem peek_gfx (s : Chip8) (o c : Nat) (ho : 4172 ≤ o) (h : Layout.peek s o = .ok c) :
    o < 6220 ∧ c = s.gfx ((o - 4172) / 32) ((o - 4172) % 32) := by
  unfold Layout.peek at h
  repeat rw [if_neg (by omega)] at h
  split at h
  · rename_i hlt
    cases h
    exact ⟨hlt, rfl⟩
  · cases h

theorem poke_gfx (s t : Chip8) (o v : Nat) (ho : 4172 ≤ o) (h : Layout.poke s o v = .ok t) :
    o < 6220 ∧
    t = { s with gfx := Function.update s.gfx ((o - 4172) / 32)
                   (Function.update (s.gfx ((o - 4172) / 32)) ((o - 4172) % 32) (v % 256)) } := by
  unfold Layout.poke at h
  repeat rw [if_neg (by omega)] at h
  split at h
  · rename_i hlt
    cases h
    exact ⟨hlt, rfl⟩
  · cases h

theorem layout_drawPixel_inRange (X Y pixel r : Nat) (t : Chip8) (c : Nat)
    (hin : toU16 (t.V X + c) < 64 ∧ toU16 (t.V Y + r) < 32) :
    Layout.drawPixel X Y pixel r t c = drawPixel X Y pixel r t c := by
  unfold Layout.drawPixel drawPixel
  simp only [if_pos hin]

theorem binary_toggle (g : Nat → Nat → Nat) (hbin : BinaryGfx g) (px py : Nat)
    (hpx : px < 64) (hpy : py < 32) :
    BinaryGfx (Function.update g px (Function.update (g px) py ((g px py ^^^ 1) % 256))) := by
  intro x hx y hy
  by_cases h1 : x = px
  · subst h1
    rw [Function.update_same]
    by_cases h2 : y = py
    · subst h2
      rw [Function.update_same]
      rcases hbin x hx y hy with h0 | h0 <;> rw [h0]
      · right; rfl
      · left; rfl
    · rw [Function.update_noteq h2]
      exact hbin x hx y hy
  · rw [Function.update_noteq h1]
    exact hbin x hx y hy

theorem layout_drawPixel_loopFrame (X Y pixel r : Nat) (t : Chip8) (c : Nat) (t' : Chip8)
    (h : Layout.drawPixel X Y pixel r t c = .ok t') : LoopFrame 0 t t' := by
  by_cases hin : toU16 (t.V X + c) < 64 ∧ toU16 (t.V Y + r) < 32
  · rw [layout_drawPixel_inRange X Y pixel r t c hin] at h
    exact drawPixel_loopFrame X Y pixel r t c t' h
  · unfold Layout.drawPixel at h
    split at h
    · simp only [if_neg hin] at h
      cases hp : Layout.peek t (4172 + 32 * toU16 (t.V X + c) + toU16 (t.V Y + r)) with
      | error e => simp [hp, bind, Except.bind] at h
      | ok cell =>
        simp only [hp, bind, Except.bind] at h
        obtain ⟨hlt, hcell⟩ := peek_gfx t _ cell (by omega) hp
        have key : ∀ u : Chip8, u.I = t.I → u.delay_timer = t.delay_timer →
            u.sound_timer = t.sound_timer → u.pc = t.pc → u.memory = t.memory →
            u.gfx = t.gfx → ∀ u2, Layout.poke u
              (4172 + 32 * toU16 (t.V X + c) + toU16 (t.V Y + r)) (cell ^^^ 1) = .ok u2 →
            LoopFrame 0 t { u2 with graphics := u2.graphics ++
              [(toU16 (t.V X + c), toU16 (t.V Y + r))] } := by
          intro u hI hd hs hpc hm hg u2 hu2
          obtain ⟨_, hu2'⟩ := poke_gfx u u2 _ _ (by omega) hu2
          subst hu2'
          refine ⟨hI, hd, hs, hpc, fun a _ => by rw [← hm], ?_⟩
          intro hbin
          show BinaryGfx (Function.update u.gfx _ (Function.update (u.gfx _) _ _))
          rw [hg, hcell]
          exact binary_toggle t.gfx hbin _ _ (by omega) (Nat.mod_lt _ (by decide))
        by_cases h1 : cell = 1
        · rw [if_pos h1] at h
          cases hu : Layout.poke (setV t 0xF 1)
            (4172 + 32 * toU16 (t.V X + c) + toU16 (t.V Y + r)) (cell ^^^ 1) with
          | error e => simp [hu, pure, Except.pure] at h
          | ok u2 =>
            simp only [hu, pure, Except.pure, Except.ok.injEq] at h
            rw [← h]
            exact key (setV t 0xF 1) rfl rfl rfl rfl rfl rfl u2 hu
        · rw [if_neg h1] at h
          cases hu : Layout.poke t
            (4172 + 32 * toU16 (t.V X + c) + toU16 (t.V Y + r)) (cell ^^^ 1) with
          | error e => simp [hu, pure, Except.pure] at h
          | ok u2 =>
            simp only [hu, pure, Except.pure, Except.ok.injEq] at h
            rw [← h]
            exact key t rfl rfl rfl rfl rfl rfl u2 hu
    · simp only [Except.ok.injEq] at h
      subst h
      exact LoopFrame.refl 0 t

theorem layout_drawRow_loopFrame (X Y : Nat) (t : Chip8) (r : Nat) (t' : Chip8)
    (h : Layout.drawRow X Y t r = .ok t') : LoopFrame 0 t t' := by
  unfold Layout.drawRow at h
  cases hp : Layout.readMem t (t.I + r) with
  | error e => simp [hp, bind, Except.bind] at h
  | ok pixel =>
    simp only [hp, bind, Except.bind] at h
    exact foldlM_loopFrame 0 _ _ t t'
      (fun u c u' _ hu => layout_drawPixel_loopFrame X Y pixel r u c u' hu) h

theorem layout_drawSprite_loopFrame (X Y N : Nat) (s s' : Chip8)
    (h : Layout.drawSprite X Y N s = .ok s') : LoopFrame 0 s s' := by
  unfold Layout.drawSprite at h
  have h1 := foldlM_loopFrame 0 _ _ (setV s 0xF 0) s'
    (fun u r u' _ hu => layout_drawRow_loopFrame X Y u r u' hu) h
  exact LoopFrame.trans (LoopFrame.refl 0 s) h1

theorem layout_loadRegs_loopFrame (X : Nat) (s s' : Chip8)
    (h : Layout.loadRegs X s = .ok s') : LoopFrame 0 s s' := by
  unfold Layout.loadRegs at h
  refine foldlM_loopFrame 0 _ _ s s' ?_ h
  intro t i t' _ ht
  cases hp : Layout.readMem t (t.I + i) with
  | error e => simp [hp, bind, Except.bind] at ht
  | ok b =>
    simp only [hp, bind, Except.bind, pure, Except.pure, Except.ok.injEq] at ht
    subst ht
    exact LoopFrame.refl 0 t

theorem storeFrame_delay_cases {lo hi : Nat} {s t : Chip8} (h : StoreFrame lo hi s t) :
    t.delay_timer = s.delay_timer ∨ (lo ≤ 4168 ∧ 4168 < hi) := by
  by_cases hc : hi ≤ 4168 ∨ 4168 < lo
  · exact Or.inl (h.2.2.1 hc)
  · exact Or.inr (by omega)

theorem storeFrame_sound_cases {lo hi : Nat} {s t : Chip8} (h : StoreFrame lo hi s t) :
    t.sound_timer = s.sound_timer ∨ (lo ≤ 4169 ∧ 4169 < hi) := by
  by_cases hc : hi ≤ 4169 ∨ 4169 < lo
  · exact Or.inl (h.2.2.2.1 hc)
  · exact Or.inr (by omega)

theorem storeFrame_memory_cases {lo hi : Nat} {s t : Chip8} (h : StoreFrame lo hi s t)
    (a : Nat) : t.memory a = s.memory a ∨ (lo ≤ 72 + a ∧ 72 + a < hi) := by
  by_cases hc : hi ≤ 72 + a ∨ 72 + a < lo
  · exact Or.inl (h.2.2.2.2.1 a hc)
  · exact Or.inr (by omega)

theorem storeFrame_gfx_cases {lo hi : Nat} {s t : Chip8} (h : StoreFrame lo hi s t) :
    t.gfx = s.gfx ∨ 4172 < hi := by
  by_cases hc : hi ≤ 4172
  · exact Or.inl (h.2.2.2.2.2 hc)
  · exact Or.inr (by omega)

theorem layout_emulate_cycleFrame (s s' : Chip8) (op : Nat) (hV : ∀ i < 16, s.V i < 256)
    (hf : Layout.fetch s = .ok op) (he : Layout.emulate s = .ok s') : CycleFrame op s s' := by
  have hVX := hV _ (register_field_lt op)
  unfold Layout.emulate at he
  rw [hf] at he
  simp only [bind] at he
  rw [show ∀ (f : Nat → Except Fault Chip8), (Except.ok op).bind f = f op from fun _ => rfl] at he
  split at he
  all_goals (try split at he)
  all_goals (try split at he)
  all_goals (try split at he)
  all_goals (try simp only [Except.bind] at he)
  all_goals (try split at he)
  all_goals (try split at he)
  all_goals (try split at he)
  all_goals (try cases he)
  all_goals (try exact ⟨Or.inl rfl, Or.inl rfl, fun _ => Or.inl rfl, fun h => Or.inl h⟩)
  -- 00E0
  · refine ⟨Or.inl rfl, Or.inl rfl, fun _ => Or.inl rfl, fun _ => Or.inl ?_⟩
    intro x hx y hy
    left
    show clearGfx s.gfx x y = 0
    rw [clearGfx_spec, if_pos ⟨hx, hy⟩]
  -- 2NNN with `sp ≥ 16`
  · rename_i _ h2 hsp _ v hp
    have hp0 := poke16_storeFrame _ v _ _ (by omega) hp
    have hfr : StoreFrame (22 + 2 * s.sp) (22 + 2 * s.sp + 2) s v := hp0
    refine ⟨?_, ?_, ?_, ?_⟩
    · rcases storeFrame_delay_cases hfr with h | h
      · exact Or.inl h
      · exact Or.inr (Or.inr (Or.inr (Or.inr ⟨h2, by omega⟩)))
    · rcases storeFrame_sound_cases hfr with h | h
      · exact Or.inl h
      · exact Or.inr (Or.inr (Or.inr (Or.inr ⟨h2, by omega⟩)))
    · intro a
      rcases storeFrame_memory_cases hfr a with h | h
      · exact Or.inl h
      · exact Or.inr (Or.inr (Or.inr (Or.inr ⟨h2, by omega, by omega⟩)))
    · intro hb
      rcases storeFrame_gfx_cases hfr with h | h
      · left
        show BinaryGfx v.gfx
        rw [h]
        exact hb
      · exact Or.inr (Or.inr (Or.inr ⟨h2, by omega⟩))
  -- DXYN
  · rename_i _ _ _ v hd
    have hl := layout_drawSprite_loopFrame _ _ _ _ v hd
    exact ⟨Or.inl hl.2.1, Or.inl hl.2.2.1, fun a => Or.inl (congrFun hl.memory_eq a),
      fun hb => Or.inl (hl.2.2.2.2.2 hb)⟩
  -- EX9E with `VX ≥ 16`, byte pressed
  · rename_i _ h1 _ h2 hV _ k hk hkp
    have hp0 := poke_storeFrame _ s' _ _ (by omega) he
    have hfr : StoreFrame (56 + s.V ((op &&& 0x0F00) >>> 8))
        (56 + s.V ((op &&& 0x0F00) >>> 8) + 1) s s' := hp0
    refine ⟨Or.inl (hfr.2.2.1 (by omega)), Or.inl (hfr.2.2.2.1 (by omega)), ?_,
      fun hb => Or.inl ?_⟩
    · intro a
      rcases storeFrame_memory_cases hfr a with h | h
      · exact Or.inl h
      · exact Or.inr (Or.inr (Or.inr (Or.inl ⟨h1, Or.inl h2, by omega⟩)))
    · show BinaryGfx s'.gfx
      rw [hfr.2.2.2.2.2 (by omega)]
      exact hb
  -- EXA1 with `VX ≥ 16`, byte not unpressed
  · rename_i _ h1 _ h2 hV _ k hk hkp
    have hp0 := poke_storeFrame _ s' _ _ (by omega) he
    have hfr : StoreFrame (56 + s.V ((op &&& 0x0F00) >>> 8))
        (56 + s.V ((op &&& 0x0F00) >>> 8) + 1) s s' := hp0
    refine ⟨Or.inl (hfr.2.2.1 (by omega)), Or.inl (hfr.2.2.2.1 (by omega)), ?_,
      fun hb => Or.inl ?_⟩
    · intro a
      rcases storeFrame_memory_cases hfr a with h | h
      · exact Or.inl h
      · exact Or.inr (Or.inr (Or.inr (Or.inl ⟨h1, Or.inr h2, by omega⟩)))
    · show BinaryGfx s'.gfx
      rw [hfr.2.2.2.2.2 (by omega)]
      exact hb
  -- FX15
  · rename_i _ h1 _ h2
    exact ⟨Or.inr (Or.inl ⟨h1, h2, rfl⟩), Or.inl rfl, fun _ => Or.inl rfl, fun h => Or.inl h⟩
  -- FX18
  · rename_i _ h1 _ h2
    exact ⟨Or.inl rfl, Or.inr (Or.inl ⟨h1, h2, rfl⟩), fun _ => Or.inl rfl, fun h => Or.inl h⟩
  -- FX33
  · rename_i _ h1 _ h2 _ v1 hw1 _ v2 hw2 _ v3 hw3
    have f1 := writeMem_storeFrame _ v1 _ _ hw1
    have f2 := writeMem_storeFrame v1 v2 _ _ hw2
    have f3 := writeMem_storeFrame v2 v3 _ _ hw3
    have g1 : StoreFrame (72 + s.I) (72 + s.I + 3) s v1 :=
      storeFrame_wider f1 (Nat.le_refl _) (by omega)
    have e1 : v1.I = s.I := g1.1
    rw [e1] at f2
    have g2 : StoreFrame (72 + s.I) (72 + s.I + 3) v1 v2 :=
      storeFrame_wider f2 (by omega) (by omega)
    have e2 : v2.I = s.I := g2.1.trans e1
    rw [e2] at f3
    have g3 : StoreFrame (72 + s.I) (72 + s.I + 3) v2 v3 :=
      storeFrame_wider f3 (by omega) (by omega)
    have hfr : StoreFrame (72 + s.I) (72 + s.I + 3) s v3 :=
      storeFrame_chain (storeFrame_chain g1 g2) g3
    refine ⟨?_, ?_, ?_, ?_⟩
    · rcases storeFrame_delay_cases hfr with h | h
      · exact Or.inl h
      · exact Or.inr (Or.inr (Or.inl ⟨h1, h2, by omega, by omega⟩))
    · rcases storeFrame_sound_cases hfr with h | h
      · exact Or.inl h
      · exact Or.inr (Or.inr (Or.inl ⟨h1, h2, by omega, by omega⟩))
    · intro a
      rcases storeFrame_memory_cases hfr a with h | h
      · exact Or.inl h
      · exact Or.inr (Or.inl ⟨h1, h2, by omega, by omega⟩)
    · intro hb
      rcases storeFrame_gfx_cases hfr with h | h
      · left
        show BinaryGfx v3.gfx
        rw [h]
        exact hb
      · exact Or.inr (Or.inl ⟨h1, h2, by omega⟩)
  -- FX55
  · rename_i _ h1 _ h2 _ v hs
    have hp0 := storeRegs_storeFrame _ _ v hs
    have hfr : StoreFrame (72 + s.I) (72 + s.I + (op &&& 0x0F00) >>> 8 + 1) s v := hp0
    refine ⟨?_, ?_, ?_, ?_⟩
    · rcases storeFrame_delay_cases hfr with h | h
      · exact Or.inl h
      · exact Or.inr (Or.inr (Or.inr (Or.inl ⟨h1, h2, by omega, by omega⟩)))
    · rcases storeFrame_sound_cases hfr with h | h
      · exact Or.inl h
      · exact Or.inr (Or.inr (Or.inr (Or.inl ⟨h1, h2, by omega, by omega⟩)))
    · intro a
      rcases storeFrame_memory_cases hfr a with h | h
      · exact Or.inl h
      · exact Or.inr (Or.inr (Or.inl ⟨h1, h2, by omega, by omega⟩))
    · intro hb
      rcases storeFrame_gfx_cases hfr with h | h
      · left
        show BinaryGfx v.gfx
        rw [h]
        exact hb
      · exact Or.inr (Or.inr (Or.inl ⟨h1, h2, by omega⟩))
  -- FX65
  · rename_i _ _ _ _ _ v hs
    have hl := layout_loadRegs_loopFrame _ _ v hs
    exact ⟨Or.inl hl.2.1, Or.inl hl.2.2.1, fun a => Or.inl (congrFun hl.memory_eq a),
      fun hb => Or.inl (hl.2.2.2.2.2 hb)⟩

/-! ## The cycle of `Layout` extends the bound-checked cycle -/

theorem toU8_lt (z : Int) : toU8 z < 256 := by
  unfold toU8
  omega

theorem layout_loadByte_inBounds (b : List Int) (t : Chip8) (i : Nat) (h : 0x200 + i < 4096) :
    Layout.loadByte b t i = loadByte b t i := by
  unfold Layout.loadByte Layout.writeMem loadByte
  rw [if_pos h, if_pos h, Nat.mod_eq_of_lt (toU8_lt _)]

theorem layout_readMem_of_ok (s : Chip8) (a v : Nat) (h : readMem s a = .ok v) :
    Layout.readMem s a = .ok v := by
  unfold readMem at h
  unfold Layout.readMem
  split at h
  · rename_i hlt
    rw [if_pos hlt]
    exact h
  · cases h

theorem layout_writeMem_of_ok (s t : Chip8) (a v : Nat) (h : writeMem s a v = .ok t) :
    Layout.writeMem s a v = .ok t := by
  unfold writeMem at h
  unfold Layout.writeMem
  split at h
  · rename_i hlt
    rw [if_pos hlt]
    exact h
  · cases h

theorem layout_fetch_of_ok (s : Chip8) (op : Nat) (h : fetch s = .ok op) :
    Layout.fetch s = .ok op := by
  unfold fetch at h
  unfold Layout.fetch
  cases h1 : readMem s s.pc with
  | error e => simp [h1, bind, Except.bind] at h
  | ok hi =>
    cases h2 : readMem s (s.pc + 1) with
    | error e => simp [h1, h2, bind, Except.bind] at h
    | ok lo =>
      rw [layout_readMem_of_ok s _ hi h1, layout_readMem_of_ok s _ lo h2]
      simpa [h1, h2, bind, Except.bind] using h

theorem foldlM_of_ok {α : Type} (f g : Chip8 → α → Except Fault Chip8)
    (hfg : ∀ t a t', f t a = .ok t' → g t a = .ok t') :
    ∀ (l : List α) (s s' : Chip8), l.foldlM f s = .ok s' → l.foldlM g s = .ok s' := by
  intro l
  induction l with
  | nil => intro s s' h; exact h
  | cons a l ih =>
    intro s s' h
    rw [List.foldlM_cons] at h
    rw [List.foldlM_cons]
    cases hfa : f s a with
    | error e => simp [hfa, bind, Except.bind] at h
    | ok u =>
      simp only [hfa, bind, Except.bind] at h
      rw [hfg s a u hfa]
      simp only [bind, Except.bind]
      exact ih u s' h

theorem layout_drawPixel_of_ok (X Y pixel r : Nat) (t : Chip8) (c : Nat) (t' : Chip8)
    (h : drawPixel X Y pixel r t c = .ok t') : Layout.drawPixel X Y pixel r t c = .ok t' := by
  by_cases hin : toU16 (t.V X + c) < 64 ∧ toU16 (t.V Y + r) < 32
  · rw [layout_drawPixel_inRange X Y pixel r t c hin]
    exact h
  · unfold drawPixel at h
    unfold Layout.drawPixel
    split at h
    · simp only [if_neg hin] at h
      cases h
    · rename_i hb
      rw [if_neg hb]
      exact h

theorem layout_drawSprite_of_ok (X Y N : Nat) (s s' : Chip8)
    (h : drawSprite X Y N s = .ok s') : Layout.drawSprite X Y N s = .ok s' := by
  unfold drawSprite at h
  unfold Layout.drawSprite
  refine foldlM_of_ok _ _ ?_ _ _ _ h
  intro t r t' ht
  unfold drawRow at ht
  unfold Layout.drawRow
  cases hp : readMem t (t.I + r) with
  | error e => simp [hp, bind, Except.bind] at ht
  | ok pixel =>
    rw [layout_readMem_of_ok t _ pixel hp]
    simp only [hp, bind, Except.bind] at ht ⊢
    exact foldlM_of_ok _ _ (fun u c u' hu => layout_drawPixel_of_ok X Y pixel r u c u' hu)
      _ _ _ ht

theorem layout_storeRegs_of_ok (X : Nat) (s s' : Chip8) (h : storeRegs X s = .ok s') :
    Layout.storeRegs X s = .ok s' := by
  unfold storeRegs at h
  unfold Layout.storeRegs
  exact foldlM_of_ok _ _ (fun t i t' ht => layout_writeMem_of_ok t t' _ _ ht) _ _ _ h

theorem layout_loadRegs_of_ok (X : Nat) (s s' : Chip8) (h : loadRegs X s = .ok s') :
    Layout.loadRegs X s = .ok s' := by
  unfold loadRegs at h
  unfold Layout.loadRegs
  refine foldlM_of_ok _ _ ?_ _ _ _ h
  intro t i t' ht
  cases hp : readMem t (t.I + i) with
  | error e => simp [hp, bind, Except.bind] at ht
  | ok b =>
    rw [layout_readMem_of_ok t _ b hp]
    simpa [hp, bind, Except.bind] using ht

theorem layout_emulate_of_ok (s s' : Chip8) (he : emulate s = .ok s') :
    Layout.emulate s = .ok s' := by
  obtain ⟨op, hf⟩ := emulate_ok_fetch he
  unfold emulate at he
  rw [hf] at he
  unfold Layout.emulate
  rw [layout_fetch_of_ok s op hf]
  simp only [bind] at he ⊢
  rw [show ∀ (f : Nat → Except Fault Chip8), (Except.ok op).bind f = f op from fun _ => rfl]
    at he ⊢
  split at he
  all_goals (try split at he)
  all_goals (try split at he)
  all_goals (try split at he)
  all_goals (try cases he)
  all_goals (try (solve | simp only [*, if_true, if_false]))
  all_goals (try (solve | simp only [*, if_true, if_false, Bool.true_eq_false, ne_eq,
    not_false_eq_true, not_true_eq_false]))
  -- DXYN
  · cases hd : drawSprite ((op &&& 0x0F00) >>> 8) ((op &&& 0x00F0) >>> 4) (op &&& 0x000F)
        { s with opcode := op } with
    | error e => simp [hd, Except.bind] at he
    | ok v =>
      rw [layout_drawSprite_of_ok _ _ _ _ v hd]
      rw [hd] at he
      exact he
  -- FX33
  · cases hw1 : writeMem { s with opcode := op } s.I (s.V ((op &&& 0x0F00) >>> 8) / 100) with
    | error e => simp [hw1, Except.bind] at he
    | ok v1 =>
      rw [hw1] at he
      rw [layout_writeMem_of_ok _ v1 _ _ hw1]
      simp only [Except.bind] at he ⊢
      cases hw2 : writeMem v1 (v1.I + 1) (toU16 ((s.V ((op &&& 0x0F00) >>> 8) % 100 -
          s.V ((op &&& 0x0F00) >>> 8) % 10) % 10)) with
      | error e => simp [hw2] at he
      | ok v2 =>
        rw [hw2] at he
        rw [layout_writeMem_of_ok _ v2 _ _ hw2]
        simp only at he ⊢
        cases hw3 : writeMem v2 (v2.I + 2) (s.V ((op &&& 0x0F00) >>> 8) % 10) with
        | error e => simp [hw3] at he
        | ok v3 =>
          rw [hw3] at he
          rw [layout_writeMem_of_ok _ v3 _ _ hw3]
          exact he
  -- FX55
  · cases hd : storeRegs ((op &&& 0x0F00) >>> 8) { s with opcode := op } with
    | error e => simp [hd, Except.bind] at he
    | ok v =>
      rw [layout_storeRegs_of_ok _ _ v hd]
      rw [hd] at he
      exact he
  -- FX65
  · cases hd : loadRegs ((op &&& 0x0F00) >>> 8) { s with opcode := op } with
    | error e => simp [hd, Except.bind] at he
    | ok v =>
      rw [layout_loadRegs_of_ok _ _ v hd]
      rw [hd] at he
      exact he

theorem layout_loadGame_of_ok (b : List Int) (s s' : Chip8) (h : loadGame b s = .ok s') :
    Layout.loadGame b s = .ok s' := by
  unfold loadGame at h
  unfold Layout.loadGame
  refine foldlM_of_ok _ _ ?_ _ _ _ h
  intro t i t' ht
  unfold loadByte at ht
  split at ht
  · rename_i hlt
    rw [layout_loadByte_inBounds b t i hlt]
    unfold loadByte
    rw [if_pos hlt]
    exact ht
  · cases ht

/-! ## loadGame past the end of memory -/

theorem foldlM_congr_range (f g : Chip8 → Nat → Except Fault Chip8) (n : Nat):
    ∀ (k : Nat) (s : Chip8), k ≤ n → (∀ t, ∀ i < n, f t i = g t i) →
      (List.range k).foldlM f s = (List.range k).foldlM g s := by
  intro k
  induction k with
  | zero => intro s _ _; rfl
  | succ k ih =>
    intro s hk h
    rw [List.range_succ, List.foldlM_append, List.foldlM_append, ih s (by omega) h]
    cases (List.range k).foldlM g s with
    | error e => rfl
    | ok u =>
      simp only [bind, Except.bind, List.foldlM_cons, List.foldlM_nil]
      rw [h u k (by omega)]

theorem layout_load_head (b : List Int) (s : Chip8) (n : Nat) (hn : 0x200 + n ≤ 4096) :
    (List.range n).foldlM (Layout.loadByte b) s = .ok
      { s with memory := fun a =>
          if 0x200 ≤ a ∧ a < 0x200 + n then toU8 (b.getD (a - 0x200) 0) else s.memory a } := by
  rw [foldlM_congr_range (Layout.loadByte b) (loadByte b) n n s (Nat.le_refl _)
    (fun t i hi => layout_loadByte_inBounds b t i (by omega))]
  exact loadBytes_upTo b s n hn

theorem layout_loadByte_tail (b : List Int) (t : Chip8) (m : Nat) :
    Layout.loadByte b t (3584 + m) = Layout.poke t (4168 + m) (toU8 (b.getD (3584 + m) 0)) := by
  unfold Layout.loadByte Layout.writeMem
  rw [if_neg (by omega)]
  have : 72 + (0x200 + (3584 + m)) = 4168 + m := by omega
  rw [this]

theorem layout_load_tail (b : List Int) (t : Chip8) : ∀ m ≤ 2052,
    ∃ u, (List.range' 3584 m).foldlM (Layout.loadByte b) t = .ok u ∧
      (u.opcode = t.opcode ∧ u.V = t.V ∧ u.I = t.I ∧ u.pc = t.pc ∧ u.stack = t.stack ∧
        u.sp = t.sp ∧ u.key = t.key ∧ u.memory = t.memory ∧ u.graphics = t.graphics ∧
        u.clearScreen = t.clearScreen) ∧
      u.delay_timer = (if 0 < m then toU8 (b.getD 3584 0) else t.delay_timer) ∧
      u.sound_timer = (if 1 < m then toU8 (b.getD 3585 0) else t.sound_timer) ∧
      u.drawFlag = (if 3 < m then toU8 (b.getD 3586 0) + 256 * toU8 (b.getD 3587 0)
        else if 2 < m then Layout.setByte t.drawFlag 0 (toU8 (b.getD 3586 0))
        else t.drawFlag) ∧
      (∀ x y, u.gfx x y =
        if x < 64 ∧ y < 32 ∧ 4 + 32 * x + y < m then toU8 (b.getD (3588 + 32 * x + y) 0)
        else t.gfx x y) := by
  intro m
  induction m with
  | zero =>
    intro _
    refine ⟨t, rfl, ⟨rfl, rfl, rfl, rfl, rfl, rfl, rfl, rfl, rfl, rfl⟩, rfl, rfl, rfl, ?_⟩
    intro x y
    rw [if_neg (by omega)]
  | succ m ih =>
    intro hm
    obtain ⟨u, hu, ⟨h1, h2, h3, h4, h5, h6, h7, h8, h9, h10⟩, hd, hs, hf, hg⟩ := ih (by omega)
    rw [List.range'_concat, List.foldlM_append, hu]
    simp only [bind, Except.bind, List.foldlM_cons, List.foldlM_nil, Nat.one_mul]
    rw [layout_loadByte_tail]
    have hb := toU8_lt (b.getD (3584 + m) 0)
    have hlow : m < 4 → ∀ x y, u.gfx x y =
        if x < 64 ∧ y < 32 ∧ 4 + 32 * x + y < m + 1 then toU8 (b.getD (3588 + 32 * x + y) 0)
        else t.gfx x y := by
      intro hm4 x y
      rw [hg x y, if_neg (by omega), if_neg (by omega)]
    by_cases c0 : m = 0
    · subst c0
      exact ⟨_, rfl, ⟨h1, h2, h3, h4, h5, h6, h7, h8, h9, h10⟩,
        Nat.mod_eq_of_lt hb, hs, hf, hlow (by omega)⟩
    by_cases c1 : m = 1
    · subst c1
      exact ⟨_, rfl, ⟨h1, h2, h3, h4, h5, h6, h7, h8, h9, h10⟩,
        hd, Nat.mod_eq_of_lt hb, hf, hlow (by omega)⟩
    by_cases c2 : m = 2
    · subst c2
      refine ⟨_, rfl, ⟨h1, h2, h3, h4, h5, h6, h7, h8, h9, h10⟩, hd, hs, ?_, hlow (by omega)⟩
      show Layout.setByte u.drawFlag 0 _ = _
      rw [hf]
      rfl
    by_cases c3 : m = 3
    · subst c3
      refine ⟨_, rfl, ⟨h1, h2, h3, h4, h5, h6, h7, h8, h9, h10⟩, hd, hs, ?_, hlow (by omega)⟩
      have hb2 := toU8_lt (b.getD 3586 0)
      have hf' : u.drawFlag = t.drawFlag / 256 % 256 * 256 + toU8 (b.getD 3586 0) % 256 := hf
      show toU8 (b.getD (3584 + 3) 0) % 256 * 256 + u.drawFlag % 256 =
        toU8 (b.getD 3586 0) + 256 * toU8 (b.getD 3587 0)
      rw [hf']
      have e : (3584 + 3 : Nat) = 3587 := rfl
      rw [e]
      have hb3 := toU8_lt (b.getD 3587 0)
      omega
    · have hm4 : 4 ≤ m := by omega
      have hlt : 4168 + m < 6220 := by omega
      have hpk : Layout.poke u (4168 + m) (toU8 (b.getD (3584 + m) 0)) = .ok
          { u with gfx := Function.update u.gfx ((4168 + m - 4172) / 32)
                     (Function.update (u.gfx ((4168 + m - 4172) / 32)) ((4168 + m - 4172) % 32)
                       (toU8 (b.getD (3584 + m) 0) % 256)) } := by
        unfold Layout.poke
        repeat rw [if_neg (by omega)]
        rw [if_pos hlt]
      rw [hpk]
      refine ⟨_, rfl, ⟨h1, h2, h3, h4, h5, h6, h7, h8, h9, h10⟩, ?_, ?_, ?_, ?_⟩
      · show u.delay_timer = _
        rw [hd, if_pos (by omega), if_pos (by omega)]
      · show u.sound_timer = _
        rw [hs, if_pos (by omega), if_pos (by omega)]
      · show u.drawFlag = _
        rw [hf, if_pos (by omega), if_pos (by omega)]
      · intro x y
        show Function.update u.gfx ((4168 + m - 4172) / 32)
          (Function.update (u.gfx ((4168 + m - 4172) / 32)) ((4168 + m - 4172) % 32)
            (toU8 (b.getD (3584 + m) 0) % 256)) x y = _
        rw [Nat.mod_eq_of_lt hb]
        by_cases hx : x = (4168 + m - 4172) / 32
        · rw [hx, Function.update_same]
          by_cases hy : y = (4168 + m - 4172) % 32
          · rw [hy, Function.update_same, if_pos (by omega)]
            have e : 3588 + 32 * ((4168 + m - 4172) / 32) + (4168 + m - 4172) % 32 = 3584 + m := by
              omega
            rw [e]
          · rw [Function.update_noteq hy, hg]
            by_cases hc : (4168 + m - 4172) / 32 < 64 ∧ y < 32 ∧
                4 + 32 * ((4168 + m - 4172) / 32) + y < m
            · rw [if_pos hc, if_pos (by omega)]
            · rw [if_neg hc, if_neg (by omega)]
        · rw [Function.update_noteq hx, hg]
          by_cases hc : x < 64 ∧ y < 32 ∧ 4 + 32 * x + y < m
          · rw [if_pos hc, if_pos (by omega)]
          · rw [if_neg hc, if_neg (by omega)]

theorem range_split (n : Nat) (h : 3584 ≤ n) :
    List.range n = List.range 3584 ++ List.range' 3584 (n - 3584) := by
  rw [List.range_eq_range', List.range_eq_range', List.range'_append_1]
  congr 1
  omega

theorem bigImage_last : toU8 (bigImage.getD 3584 0) = 1 ∧ toU8 (bigImage.getD 3583 0) = 1 := by
  unfold bigImage
  rw [List.getD_eq_getElem?_getD, List.getD_eq_getElem?_getD,
    List.getElem?_replicate_of_lt (by omega), List.getElem?_replicate_of_lt (by omega)]
  exact ⟨rfl, rfl⟩

theorem layout_load_oversized (b : List Int) (s : Chip8) (h1 : 3584 < b.length)
    (h2 : b.length ≤ 5636) :
    ∃ s', Layout.loadGame b s = .ok s' ∧
      (s'.opcode = s.opcode ∧ s'.V = s.V ∧ s'.I = s.I ∧ s'.pc = s.pc ∧ s'.stack = s.stack ∧
        s'.sp = s.sp ∧ s'.key = s.key ∧ s'.graphics = s.graphics ∧
        s'.clearScreen = s.clearScreen) ∧
      (∀ a, s'.memory a =
        if 0x200 ≤ a ∧ a < 0x200 + 3584 then toU8 (b.getD (a - 0x200) 0) else s.memory a) ∧
      s'.delay_timer = toU8 (b.getD 3584 0) ∧
      s'.sound_timer = (if 3585 < b.length then toU8 (b.getD 3585 0) else s.sound_timer) ∧
      s'.drawFlag = (if 3587 < b.length then toU8 (b.getD 3586 0) + 256 * toU8 (b.getD 3587 0)
        else if 3586 < b.length then Layout.setByte s.drawFlag 0 (toU8 (b.getD 3586 0))
        else s.drawFlag) ∧
      (∀ x y, s'.gfx x y =
        if x < 64 ∧ y < 32 ∧ 3588 + 32 * x + y < b.length
        then toU8 (b.getD (3588 + 32 * x + y) 0) else s.gfx x y) := by
  obtain ⟨u, hu, ⟨e1, e2, e3, e4, e5, e6, e7, e8, e9, e10⟩, hd, hs, hf, hg⟩ :=
    layout_load_tail b
      { s with memory := fun a =>
          if 0x200 ≤ a ∧ a < 0x200 + 3584 then toU8 (b.getD (a - 0x200) 0) else s.memory a }
      (b.length - 3584) (by omega)
  refine ⟨u, ?_, ⟨e1, e2, e3, e4, e5, e6, e7, e9, e10⟩, fun a => by rw [e8], ?_, ?_, ?_, ?_⟩
  · unfold Layout.loadGame
    rw [range_split b.length (by omega), List.foldlM_append,
      layout_load_head b s 3584 (by decide)]
    simp only [bind, Except.bind]
    exact hu
  · rw [hd, if_pos (by omega)]
  · rw [hs]
    by_cases hc : 3585 < b.length
    · rw [if_pos hc, if_pos (by omega)]
    · rw [if_neg hc, if_neg (by omega)]
  · rw [hf]
    by_cases hc : 3587 < b.length
    · rw [if_pos hc, if_pos (by omega)]
    · rw [if_neg hc, if_neg (by omega)]
      by_cases hc2 : 3586 < b.length
      · rw [if_pos hc2, if_pos (by omega)]
      · rw [if_neg hc2, if_neg (by omega)]
  · intro x y
    rw [hg]
    by_cases hc : x < 64 ∧ y < 32 ∧ 3588 + 32 * x + y < b.length
    · rw [if_pos hc, if_pos (by omega)]
    · rw [if_neg hc, if_neg (by omega)]

/-- C17 fails as stated: loading the 3585-byte image into the blank state is not refused.
The copy loop returns a state; byte 3583 of the image is at `memory[0xFFF]` and the byte
after it is stored at `memory[4096]`, which is the delay timer: 0 before the load, 1 after
it. -/
theorem C17_oversized_image_overruns :
    bigImage.length = 3585 ∧ blank.delay_timer = 0 ∧
    ∃ s', Layout.loadGame bigImage blank = .ok s' ∧ s'.memory 0xFFF = 1 ∧
      s'.delay_timer = 1 := by
  obtain ⟨s', hl, _, hm, hd, _⟩ := layout_load_oversized bigImage blank
    (by rw [bigImage_length]; decide) (by rw [bigImage_length]; decide)
  refine ⟨bigImage_length, rfl, s', hl, ?_, hd.trans bigImage_last.1⟩
  rw [hm 0xFFF, if_pos (by decide)]
  exact bigImage_last.2

/-- C17 as amended: the load has no size check and no bound check.  For an image of `n`
bytes with `3584 < n ≤ 5636` the copy loop returns: bytes `0 .. 3583` are at
`0x200 .. 0xFFF`, byte 3584 is in the delay timer (`memory[4096]`), byte 3585 in the sound
timer, bytes 3586 and 3587 in `drawFlag` and byte `3588 + 32 * x + y` in `gfx[x][y]`; memory
below `0x200`, the registers, `I`, `pc`, the stack, `sp`, the keys and the change log are
unchanged. -/
theorem C17_oversized_image_no_check (buffer : List Int) (s : Chip8)
    (h : buffer.length > 3584) (hfit : buffer.length ≤ 3584 + 2 + 2 + 2048) :
    ∃ s', Layout.loadGame buffer s = .ok s' ∧
      (∀ i < 3584, s'.memory (0x200 + i) = toU8 (buffer.getD i 0)) ∧
      (∀ a < 0x200, s'.memory a = s.memory a) ∧
      s'.delay_timer = toU8 (buffer.getD 3584 0) ∧
      (3585 < buffer.length → s'.sound_timer = toU8 (buffer.getD 3585 0)) ∧
      (buffer.length ≤ 3585 → s'.sound_timer = s.sound_timer) ∧
      (3587 < buffer.length →
        s'.drawFlag = toU8 (buffer.getD 3586 0) + 256 * toU8 (buffer.getD 3587 0)) ∧
      (buffer.length ≤ 3586 → s'.drawFlag = s.drawFlag) ∧
      (∀ x < 64, ∀ y < 32, s'.gfx x y =
        if 3588 + 32 * x + y < buffer.length
        then toU8 (buffer.getD (3588 + 32 * x + y) 0) else s.gfx x y) ∧
      s'.V = s.V ∧ s'.I = s.I ∧ s'.pc = s.pc ∧ s'.stack = s.stack ∧ s'.sp = s.sp ∧
      s'.key = s.key ∧ s'.graphics = s.graphics := by
  obtain ⟨s', hl, ⟨_, e2, e3, e4, e5, e6, e7, e9, _⟩, hm, hd, hs, hf, hg⟩ :=
    layout_load_oversized buffer s h (by omega)
  refine ⟨s', hl, ?_, ?_, hd, ?_, ?_, ?_, ?_, ?_, e2, e3, e4, e5, e6, e7, e9⟩
  · intro i hi
    rw [hm, if_pos (by omega), Nat.add_sub_cancel_left]
  · intro a ha
    rw [hm, if_neg (by omega)]
  · intro hc
    rw [hs, if_pos hc]
  · intro hc
    rw [hs, if_neg (by omega)]
  · intro hc
    rw [hf, if_pos hc]
  · intro hc
    rw [hf, if_neg (by omega), if_neg (by omega)]
  · intro x hx y hy
    rw [hg]
    by_cases hc : 3588 + 32 * x + y < buffer.length
    · rw [if_pos ⟨hx, hy, hc⟩, if_pos hc]
    · rw [if_neg (fun h3 => hc h3.2.2), if_neg hc]

/-- C17 as amended, at the 3585-byte image loaded into the blank state: the call returns,
the last byte of the image is in the delay timer and the sound timer is unchanged. -/
theorem C17_oversized_image_no_check_witness :
    (bigImage.length > 3584 ∧ bigImage.length ≤ 3584 + 2 + 2 + 2048) ∧
    ∃ s', Layout.loadGame bigImage blank = .ok s' ∧
      (∀ i < 3584, s'.memory (0x200 + i) = toU8 (bigImage.getD i 0)) ∧
      s'.delay_timer = toU8 (bigImage.getD 3584 0) ∧ toU8 (bigImage.getD 3584 0) = 1 ∧
      s'.sound_timer = blank.sound_timer := by
  have h1 : bigImage.length > 3584 := by rw [bigImage_length]; decide
  have h2 : bigImage.length ≤ 3584 + 2 + 2 + 2048 := by rw [bigImage_length]; decide
  obtain ⟨s', hl, hm, _, hd, _, hs, _⟩ := C17_oversized_image_no_check bigImage blank h1 h2
  exact ⟨⟨h1, h2⟩, s', hl, hm, hd, bigImage_last.1,
    hs (by rw [bigImage_length])⟩

/-! ## Timers, memory and framebuffer over every instruction -/

theorem layout_emulate_FX15_masks (s : Chip8) (op : Nat) (hf : Layout.fetch s = .ok op)
    (h1 : op &&& 0xF000 = 0xF000) (h2 : op &&& 0x00FF = 0x15) :
    Layout.emulate s = .ok { s with opcode := op, delay_timer := s.V ((op &&& 0x0F00) >>> 8),
                                    pc := toU16 (s.pc + 2) } := by
  unfold Layout.emulate
  rw [hf]
  simp only [bind]
  rw [show ∀ (f : Nat → Except Fault Chip8), (Except.ok op).bind f = f op from fun _ => rfl]
  simp only [h1, h2]

theorem layout_emulate_FX18_masks (s : Chip8) (op : Nat) (hf : Layout.fetch s = .ok op)
    (h1 : op &&& 0xF000 = 0xF000) (h2 : op &&& 0x00FF = 0x18) :
    Layout.emulate s = .ok { s with opcode := op, sound_timer := s.V ((op &&& 0x0F00) >>> 8),
                                    pc := toU16 (s.pc + 2) } := by
  unfold Layout.emulate
  rw [hf]
  simp only [bind]
  rw [show ∀ (f : Nat → Except Fault Chip8), (Except.ok op).bind f = f op from fun _ => rfl]
  simp only [h1, h2]

/-- C23 fails as stated: with `I = 0xFFF`, `V0 = 123`, delay timer 4 and sound timer 6 the
instruction `F033`, which is neither FX15 nor FX18, stores its first digit at `memory[0xFFF]`
and the other two at `memory[4096]` and `memory[4097]`, which are the two timers: it returns
with delay timer 0 and sound timer 3. -/
theorem C23_bcd_store_reaches_timers :
    Layout.fetch timerOverrunState = .ok 0xF033 ∧
    timerOverrunState.delay_timer = 4 ∧ timerOverrunState.sound_timer = 6 ∧
    (Layout.emulate timerOverrunState).toOption.map
      (fun t => (t.memory 0xFFF, t.delay_timer, t.sound_timer)) = some (1, 0, 3) :=
  ⟨rfl, rfl, rfl, by decide⟩

/-- C23 as amended: with 8-bit registers, a call of `emulate` that returns leaves the delay
timer unchanged unless the instruction is FX15, which sets it to `VX`, or a store that has
left its array lands on it: FX33 or FX55 with `I ≤ 4096 ≤ I + 2` (`I + X` for FX55), or 2NNN
with `sp = 2073`.  The same holds for the sound timer with FX18 and the address 4097.  No
instruction decrements a timer. -/
theorem C23_timers_written_by_FX15_FX18_or_overrun (s s' : Chip8) (op : Nat)
    (hV : ∀ i < 16, s.V i < 256)
    (hf : Layout.fetch s = .ok op) (he : Layout.emulate s = .ok s') :
    (¬ (op &&& 0xF000 = 0xF000 ∧ op &&& 0x00FF = 0x15) →
      ¬ (op &&& 0xF000 = 0xF000 ∧ op &&& 0x00FF = 0x33 ∧ s.I ≤ 4096 ∧ 4096 ≤ s.I + 2) →
      ¬ (op &&& 0xF000 = 0xF000 ∧ op &&& 0x00FF = 0x55 ∧
          s.I ≤ 4096 ∧ 4096 ≤ s.I + (op &&& 0x0F00) >>> 8) →
      ¬ (op &&& 0xF000 = 0x2000 ∧ s.sp = 2073) →
      s'.delay_timer = s.delay_timer) ∧
    ((op &&& 0xF000 = 0xF000 ∧ op &&& 0x00FF = 0x15) →
      s'.delay_timer = s.V ((op &&& 0x0F00) >>> 8) ∧ s'.sound_timer = s.sound_timer) ∧
    (¬ (op &&& 0xF000 = 0xF000 ∧ op &&& 0x00FF = 0x18) →
      ¬ (op &&& 0xF000 = 0xF000 ∧ op &&& 0x00FF = 0x33 ∧ s.I ≤ 4097 ∧ 4097 ≤ s.I + 2) →
      ¬ (op &&& 0xF000 = 0xF000 ∧ op &&& 0x00FF = 0x55 ∧
          s.I ≤ 4097 ∧ 4097 ≤ s.I + (op &&& 0x0F00) >>> 8) →
      ¬ (op &&& 0xF000 = 0x2000 ∧ s.sp = 2073) →
      s'.sound_timer = s.sound_timer) ∧
    ((op &&& 0xF000 = 0xF000 ∧ op &&& 0x00FF = 0x18) →
      s'.sound_timer = s.V ((op &&& 0x0F00) >>> 8) ∧ s'.delay_timer = s.delay_timer) := by
  have hfr := layout_emulate_cycleFrame s s' op hV hf he
  refine ⟨?_, ?_, ?_, ?_⟩
  · intro n15 n33 n55 n2
    rcases hfr.delay with h | ⟨h1, h2, _⟩ | h | h | h
    · exact h
    · exact absurd ⟨h1, h2⟩ n15
    · exact absurd h n33
    · exact absurd h n55
    · exact absurd h n2
  · rintro ⟨h1, h2⟩
    have he2 := layout_emulate_FX15_masks s op hf h1 h2
    rw [he] at he2
    simp only [Except.ok.injEq] at he2
    rw [he2]
    exact ⟨rfl, rfl⟩
  · intro n18 n33 n55 n2
    rcases hfr.sound with h | ⟨h1, h2, _⟩ | h | h | h
    · exact h
    · exact absurd ⟨h1, h2⟩ n18
    · exact absurd h n33
    · exact absurd h n55
    · exact absurd h n2
  · rintro ⟨h1, h2⟩
    have he2 := layout_emulate_FX18_masks s op hf h1 h2
    rw [he] at he2
    simp only [Except.ok.injEq] at he2
    rw [he2]
    exact ⟨rfl, rfl⟩

/-- C23 as amended, at the instruction `F315` with `V3 = 9`, delay timer 4 and sound timer
6: the delay timer becomes 9 and the sound timer stays 6. -/
theorem C23_timers_written_by_FX15_FX18_or_overrun_witness :
    ((∀ i < 16, setDelayState.V i < 256) ∧ Layout.fetch setDelayState = .ok 0xF315 ∧
      Layout.emulate setDelayState = .ok { setDelayState with opcode := 0xF315,
                                                              delay_timer := 9, pc := 0x202 }) ∧
    ((0xF315 &&& 0xF000 = 0xF000 ∧ 0xF315 &&& 0x00FF = 0x15) →
      (9 : Nat) = setDelayState.V ((0xF315 &&& 0x0F00) >>> 8) ∧
      (6 : Nat) = setDelayState.sound_timer) :=
  ⟨⟨by decide, rfl, rfl⟩,
    (C23_timers_written_by_FX15_FX18_or_overrun setDelayState
      { setDelayState with opcode := 0xF315, delay_timer := 9, pc := 0x202 } 0xF315
      (by decide) rfl rfl).2.1⟩

/-- C25 fails as stated: with `I = 0x050`, `memory[0x050] = 0xF0` and `V0 = 200` the
instruction `F033` returns with `memory[0x050] = 2`: a font byte below `0x200` is
overwritten.  The same byte is cleared by `E0A1` with `V0 = 0x60`, whose `key[0x60]` is
`memory[0x050]`, and `memory[0x050 .. 0x051]` is overwritten with `pc` by `2300` with
`sp = 65`, whose `stack[65]` lies there. -/
theorem C25_bcd_writes_below_0x200 :
    (fetch fontWriteState = .ok 0xF033 ∧ fontWriteState.memory 0x050 = 0xF0 ∧
      (emulate fontWriteState).toOption.map (fun t => t.memory 0x050) = some 2) ∧
    (Layout.fetch keyOverrunState = .ok 0xE0A1 ∧ keyOverrunState.memory 0x050 = 0xF0 ∧
      (Layout.emulate keyOverrunState).toOption.map (fun t => t.memory 0x050) = some 0) ∧
    (Layout.fetch callOverrunState = .ok 0x2300 ∧ callOverrunState.memory 0x051 = 0xF0 ∧
      (Layout.emulate callOverrunState).toOption.map (fun t => t.memory 0x051) = some 2) :=
  ⟨⟨rfl, by decide, by decide⟩, ⟨rfl, by decide, by decide⟩, ⟨rfl, by decide, by decide⟩⟩

/-- C25 as amended: with 8-bit registers, a call of `emulate` that returns changes a memory
byte `a` only if the instruction is FX33 or FX55 and `a` lies in `I .. I + 2` (`I .. I + X`
for FX55), wherever `I` points, or if an index has left its array: EX9E or EXA1 with
`VX = 16 + a`, or 2NNN with `stack[sp]` on `a` (`sp = 25 + a / 2`).  Hence every byte below
`0x200` is unchanged provided `I ≥ 0x200` for FX33 and FX55, `VX < 16` for EX9E and EXA1 and
`sp` outside `25 .. 280` for 2NNN. -/
theorem C25_memory_written_at_index_or_overrun (s s' : Chip8) (op : Nat)
    (hV : ∀ i < 16, s.V i < 256)
    (hf : Layout.fetch s = .ok op) (he : Layout.emulate s = .ok s') :
    (∀ a, s'.memory a ≠ s.memory a →
      (op &&& 0xF000 = 0xF000 ∧ op &&& 0x00FF = 0x33 ∧ s.I ≤ a ∧ a ≤ s.I + 2) ∨
      (op &&& 0xF000 = 0xF000 ∧ op &&& 0x00FF = 0x55 ∧
        s.I ≤ a ∧ a ≤ s.I + (op &&& 0x0F00) >>> 8) ∨
      (op &&& 0xF000 = 0xE000 ∧ (op &&& 0x00FF = 0x9E ∨ op &&& 0x00FF = 0xA1) ∧
        s.V ((op &&& 0x0F00) >>> 8) = 16 + a) ∨
      (op &&& 0xF000 = 0x2000 ∧ 2 * s.sp ≤ 50 + a ∧ 50 + a ≤ 2 * s.sp + 1)) ∧
    ((op &&& 0xF000 = 0xF000 ∧ (op &&& 0x00FF = 0x33 ∨ op &&& 0x00FF = 0x55) → 0x200 ≤ s.I) →
      (op &&& 0xF000 = 0xE000 → s.V ((op &&& 0x0F00) >>> 8) < 16) →
      (op &&& 0xF000 = 0x2000 → s.sp < 25 ∨ 280 < s.sp) →
      ∀ a < 0x200, s'.memory a = s.memory a) := by
  have hm := (layout_emulate_cycleFrame s s' op hV hf he).memory
  constructor
  · intro a hne
    rcases hm a with h | h
    · exact absurd h hne
    · exact h
  · intro hI hK hS a ha
    rcases hm a with h | ⟨h1, h2, h3, _⟩ | ⟨h1, h2, h3, _⟩ | ⟨h1, _, h3⟩ | ⟨h1, h2, h3⟩
    · exact h
    · have := hI ⟨h1, Or.inl h2⟩
      omega
    · have := hI ⟨h1, Or.inr h2⟩
      omega
    · have := hK h1
      omega
    · have := hS h1
      omega

/-- C25 as amended, at the instruction `F033` with `I = 0x300`: the byte at `0x050` keeps
its value `0xF0`. -/
theorem C25_memory_written_at_index_or_overrun_witness :
    ((∀ i < 16, workWriteState.V i < 256) ∧ Layout.fetch workWriteState = .ok 0xF033 ∧
      0x200 ≤ workWriteState.I) ∧
    ∃ s', Layout.emulate workWriteState = .ok s' ∧
      (∀ a < 0x200, s'.memory a = workWriteState.memory a) ∧ s'.memory 0x050 = 0xF0 := by
  have hw : ∃ s', Layout.emulate workWriteState = .ok s' := by
    cases h : Layout.emulate workWriteState with
    | ok s' => exact ⟨s', rfl⟩
    | error e =>
      have : (Layout.emulate workWriteState).toOption.map (fun t => t.pc) = some 0x202 := by
        decide
      rw [h] at this
      simp [Except.toOption] at this
  obtain ⟨s', he⟩ := hw
  have h := (C25_memory_written_at_index_or_overrun workWriteState s' 0xF033 (by decide) rfl
    he).2 (fun _ => by decide) (fun h => absurd h (by decide)) (fun h => absurd h (by decide))
  exact ⟨⟨by decide, rfl, by decide⟩, s', he, h, (h 0x050 (by decide)).trans (by decide)⟩

/-- C26 fails as stated: with `I = 0xFF8`, `V12 = 5` and a blank framebuffer the instruction
`FF55` stores `V12` at `memory[0xFF8 + 12] = memory[4100]`, which is `gfx[0][0]`: it returns
with the cell `gfx[0][0] = 5`. -/
theorem C26_store_reaches_framebuffer :
    Layout.fetch gfxOverrunState = .ok 0xFF55 ∧
    (∀ x < 64, ∀ y < 32, gfxOverrunState.gfx x y = 0) ∧
    (Layout.emulate gfxOverrunState).toOption.map (fun t => t.gfx 0 0) = some 5 :=
  ⟨rfl, fun _ _ _ _ => rfl, by decide⟩

theorem layout_drawPixel_detects_lit (X Y pixel r : Nat) (t : Chip8) (c : Nat) (t' : Chip8)
    (hbin : BinaryGfx t.gfx) (h : Layout.drawPixel X Y pixel r t c = .ok t')
    (hin : toU16 (t.V X + c) < 64 ∧ toU16 (t.V Y + r) < 32)
    (hbit : pixel &&& (0x80 >>> c) ≠ 0)
    (hlit : t.gfx (toU16 (t.V X + c)) (toU16 (t.V Y + r)) ≠ 0) : t'.V 0xF = 1 := by
  rw [layout_drawPixel_inRange X Y pixel r t c hin] at h
  exact drawPixel_detects_lit X Y pixel r t c t' hbin h hbit hlit

/-- C26 as amended: with 8-bit registers, if every cell of the 64x32 framebuffer is 0 or 1
before an instruction that returns, every cell is 0 or 1 after it, provided no store of
FX33, FX55 or 2NNN runs past its array into the framebuffer (`I + 2 < 4100`, `I + X < 4100`,
`sp < 2075`); `init` returns a framebuffer with this property from any state.  On such a
framebuffer the test `gfx == 1` of DXYN finds every lit target cell in range: a loop step
whose sprite bit is set and whose target cell is not 0 sets `VF = 1`. -/
theorem C26_framebuffer_stays_binary (s s' : Chip8) (op : Nat)
    (hV : ∀ i < 16, s.V i < 256)
    (hbin : ∀ x < 64, ∀ y < 32, s.gfx x y = 0 ∨ s.gfx x y = 1)
    (hf : Layout.fetch s = .ok op) (he : Layout.emulate s = .ok s')
    (h33 : op &&& 0xF000 = 0xF000 ∧ op &&& 0x00FF = 0x33 → s.I + 2 < 4100)
    (h55 : op &&& 0xF000 = 0xF000 ∧ op &&& 0x00FF = 0x55 → s.I + (op &&& 0x0F00) >>> 8 < 4100)
    (h2 : op &&& 0xF000 = 0x2000 → s.sp < 2075) :
    (∀ x < 64, ∀ y < 32, s'.gfx x y = 0 ∨ s'.gfx x y = 1) ∧
    (∀ s0 : Chip8, ∀ x < 64, ∀ y < 32, (init s0).gfx x y = 0 ∨ (init s0).gfx x y = 1) ∧
    (∀ X Y pixel r c (t' : Chip8), Layout.drawPixel X Y pixel r s c = .ok t' →
      toU16 (s.V X + c) < 64 ∧ toU16 (s.V Y + r) < 32 →
      pixel &&& (0x80 >>> c) ≠ 0 →
      s.gfx (toU16 (s.V X + c)) (toU16 (s.V Y + r)) ≠ 0 → t'.V 0xF = 1) := by
  refine ⟨?_, ?_, ?_⟩
  · rcases (layout_emulate_cycleFrame s s' op hV hf he).gfx hbin with
      h | ⟨a1, a2, a3⟩ | ⟨a1, a2, a3⟩ | ⟨a1, a3⟩
    · exact h
    · have := h33 ⟨a1, a2⟩
      omega
    · have := h55 ⟨a1, a2⟩
      omega
    · have := h2 a1
      omega
  · intro s0 x hx y hy
    exact Or.inl (init_gfx s0 x y hx hy)
  · intro X Y pixel r c t' hd hin hbit hlit
    exact layout_drawPixel_detects_lit X Y pixel r s c t' hbin hd hin hbit hlit

/-- C26 as amended, at the instruction `D122` drawn on a blank framebuffer: the call returns
a binary framebuffer. -/
theorem C26_framebuffer_stays_binary_witness :
    ((∀ i < 16, drawState.V i < 256) ∧
      (∀ x < 64, ∀ y < 32, drawState.gfx x y = 0 ∨ drawState.gfx x y = 1) ∧
      Layout.fetch drawState = .ok 0xD122) ∧
    ∃ s1, Layout.emulate drawState = .ok s1 ∧
      (∀ x < 64, ∀ y < 32, s1.gfx x y = 0 ∨ s1.gfx x y = 1) := by
  have hb : ∀ x < 64, ∀ y < 32, drawState.gfx x y = 0 ∨ drawState.gfx x y = 1 :=
    fun _ _ _ _ => Or.inl rfl
  have hw : ∃ s', Layout.emulate drawState = .ok s' := by
    cases h : Layout.emulate drawState with
    | ok s' => exact ⟨s', rfl⟩
    | error e =>
      have : (Layout.emulate drawState).toOption.map (fun t => t.pc) = some 0x202 := by
        decide
      rw [h] at this
      simp [Except.toOption] at this
  obtain ⟨s1, he1⟩ := hw
  exact ⟨⟨by decide, hb, rfl⟩, s1, he1,
    (C26_framebuffer_stays_binary drawState s1 0xD122 (by decide) hb rfl he1
      (fun h => absurd h.1 (by decide)) (fun h => absurd h.1 (by decide))
      (fun h => absurd h (by decide))).1⟩

/-! ## EX9E and EXA1: the tested key -/

/-- C28 as amended: with `VX < 16`, EXA1 returns with `key[VX]` unpressed whatever the byte
was; EX9E returns with `key[VX]` not pressed, and unpressed exactly when the byte was
pressed or unpressed before (any other value is left as it is).  Both leave the other keys
unchanged; hence an EX9E executed next, in a state with these keys and the same `VX`,
advances `pc` by 2. -/
theorem C28_tested_key_is_consumed (s : Chip8) (X : Nat) (hX : X < 16) (hV : s.V X < 16) :
    (fetch s = .ok (0xE000 + 0x100 * X + 0xA1) →
      ∃ s', emulate s = .ok s' ∧
        s'.key (s.V X) = UNPRESSED ∧ (∀ i, i ≠ s.V X → s'.key i = s.key i) ∧
        (∀ t : Chip8, t.key = s'.key → t.V X = s.V X →
          fetch t = .ok (0xE000 + 0x100 * X + 0x9E) →
          ∃ t', emulate t = .ok t' ∧ t'.pc = t.pc + 2)) ∧
    (fetch s = .ok (0xE000 + 0x100 * X + 0x9E) →
      ∃ s', emulate s = .ok s' ∧
        s'.key (s.V X) ≠ PRESSED ∧
        (s'.key (s.V X) = UNPRESSED ↔
          (s.key (s.V X) = PRESSED ∨ s.key (s.V X) = UNPRESSED)) ∧
        (∀ i, i ≠ s.V X → s'.key i = s.key i) ∧
        (∀ t : Chip8, t.key = s'.key → t.V X = s.V X →
          fetch t = .ok (0xE000 + 0x100 * X + 0x9E) →
          ∃ t', emulate t = .ok t' ∧ t'.pc = t.pc + 2)) := by
  have hnext : ∀ s' : Chip8, s'.key (s.V X) ≠ PRESSED →
      ∀ t : Chip8, t.key = s'.key → t.V X = s.V X →
        fetch t = .ok (0xE000 + 0x100 * X + 0x9E) →
        ∃ t', emulate t = .ok t' ∧ t'.pc = t.pc + 2 := by
    intro s' hs' t htk htV hft
    have he := emulate_EX9E t X hX (by rw [htV]; exact hV) hft
    have hnp : ¬ t.key (t.V X) = PRESSED := by
      rw [htk, htV]
      exact hs'
    rw [if_neg hnp] at he
    exact ⟨_, he, rfl⟩
  have hkey : Function.update s.key (s.V X) UNPRESSED (s.V X) = UNPRESSED :=
    Function.update_same _ _ _
  have hup : UNPRESSED ≠ PRESSED := by decide
  constructor
  · intro hf
    have he := emulate_EXA1 s X hX hV hf
    by_cases hu : s.key (s.V X) = UNPRESSED
    · rw [if_pos hu] at he
      exact ⟨_, he, hu, fun i _ => rfl, hnext _ (by show s.key (s.V X) ≠ PRESSED; rw [hu]; exact hup)⟩
    · rw [if_neg hu] at he
      exact ⟨_, he, hkey, fun i hi => Function.update_noteq hi _ _,
        hnext _ (by show Function.update s.key (s.V X) UNPRESSED (s.V X) ≠ PRESSED
                    rw [hkey]; exact hup)⟩
  · intro hf
    have he := emulate_EX9E s X hX hV hf
    by_cases hp : s.key (s.V X) = PRESSED
    · rw [if_pos hp] at he
      have hnp : Function.update s.key (s.V X) UNPRESSED (s.V X) ≠ PRESSED := by
        rw [hkey]; exact hup
      exact ⟨_, he, hnp, ⟨fun _ => Or.inl hp, fun _ => hkey⟩,
        fun i hi => Function.update_noteq hi _ _, hnext _ hnp⟩
    · rw [if_neg hp] at he
      refine ⟨_, he, hp, ⟨fun h => Or.inr h, fun h => ?_⟩, fun i _ => rfl, hnext _ hp⟩
      rcases h with h | h
      · exact absurd h hp
      · exact h

/-- C28 as amended, at `V2 = 7` with key 7 pressed: `E29E` and `E2A1` both return with key
7 unpressed. -/
theorem C28_tested_key_is_consumed_witness :
    (skipPressedState.V 2 < 16 ∧ fetch skipPressedState = .ok (0xE000 + 0x100 * 2 + 0x9E) ∧
      fetch skipUnpressedState = .ok (0xE000 + 0x100 * 2 + 0xA1) ∧
      skipPressedState.key 7 = PRESSED ∧ skipUnpressedState.key 7 = PRESSED) ∧
    (∃ s', emulate skipPressedState = .ok s' ∧
      s'.key (skipPressedState.V 2) ≠ PRESSED ∧
      (s'.key (skipPressedState.V 2) = UNPRESSED ↔
        (skipPressedState.key (skipPressedState.V 2) = PRESSED ∨
          skipPressedState.key (skipPressedState.V 2) = UNPRESSED)) ∧
      (∀ i, i ≠ skipPressedState.V 2 → s'.key i = skipPressedState.key i) ∧
      (∀ t : Chip8, t.key = s'.key → t.V 2 = skipPressedState.V 2 →
        fetch t = .ok (0xE000 + 0x100 * 2 + 0x9E) →
        ∃ t', emulate t = .ok t' ∧ t'.pc = t.pc + 2)) ∧
    (∃ s', emulate skipUnpressedState = .ok s' ∧
      s'.key (skipUnpressedState.V 2) = UNPRESSED ∧
      (∀ i, i ≠ skipUnpressedState.V 2 → s'.key i = skipUnpressedState.key i) ∧
      (∀ t : Chip8, t.key = s'.key → t.V 2 = skipUnpressedState.V 2 →
        fetch t = .ok (0xE000 + 0x100 * 2 + 0x9E) →
        ∃ t', emulate t = .ok t' ∧ t'.pc = t.pc + 2)) :=
  ⟨⟨by decide, rfl, rfl, by decide, by decide⟩,
    (C28_tested_key_is_consumed skipPressedState 2 (by decide) (by decide)).2 rfl,
    (C28_tested_key_is_consumed skipUnpressedState 2 (by decide) (by decide)).1 rfl⟩

end Game
